import Mathlib

/-!
# Bucket transactions, the information center and their clients in AIStore
(ais/tgttxn.go, ais/ic.go, mirror/bck_copy.go, api/utils.go, dfc/webserver.go,
fuse/fs/core.go)

A shallow embedding of the two-phase transaction handlers of a storage target:
`createBucket`, `makeNCopies`, `setBucketProps`, `renameBucket`, `copyBucket`,
`ecEncode`, their validators and `coExists`; and of the information center of a
proxy: `reverseToOwner`, `handleGet`, `handlePost`, `registerEqual`,
`bcastListenIC`, `sendOwnershipTbl` and `syncICBundle`, as state transformers
over `PState` (own node, Smap, notifs table) that read a `PEnv`.

Further down: the per-object callback `copyObject` of the copy-bucket jogger,
the HTTP client `doHTTPRequestGetResp` with its retries and `HTTPStatus`, the
handler `servhdlr` of the DFC storage server, and the inode table of the FUSE
file system (`nextInodeID`, `LookUpInode`, `ForgetInode`).

The handlers are state transformers over `TState` (transaction table, held
name-locks, BMD, xaction registry) and read an `Env` holding what the target
consults outside of this file (capacity status, rebalance markers, mountpaths,
decoders).  Every call of a collaborator is appended to `TState.trace`, in
chronological order, so that "was invoked" and "was never invoked" can be stated.
-/

set_option autoImplicit false

namespace Aistore

/-! ## Data model -/

/-- Bucket namespace (cmn.Ns). -/
structure Ns where
  uuid : String
  name : String
deriving DecidableEq, Repr

/-- Bucket identity (cmn.Bck): name, provider, namespace. -/
structure Bck where
  name : String
  provider : String
  ns : Ns
deriving DecidableEq, Repr

/-- Mirror section of the bucket properties. -/
structure MirrorConf where
  enabled : Bool
  copies : Int
deriving DecidableEq, Repr

/-- Erasure-coding section of the bucket properties. -/
structure ECConf where
  enabled : Bool
deriving DecidableEq, Repr

/-- Bucket properties (cmn.BucketProps), restricted to the fields the handlers read. -/
structure BucketProps where
  mirror : MirrorConf
  ec : ECConf
deriving DecidableEq, Repr

/-- Bucket with its properties (cluster.Bck). `props` is a pointer in the source:
`none` is the nil pointer of a bucket that has not been initialised. -/
structure ClusterBck where
  bck : Bck
  props : Option BucketProps
deriving DecidableEq, Repr

/-- Bucket metadata: a version and the mapping bucket to properties. -/
structure BMD where
  version : Nat
  buckets : List (Bck × BucketProps)
deriving DecidableEq, Repr

/-- Modelled from the spec: bmd.Get is not in the sources at hand; section 3 gives
the BMD as a mapping from bucket to properties. The result stands for the pair
of the properties and the `present` flag. -/
def BMD.get (bmd : BMD) (b : ClusterBck) : Option BucketProps :=
  (bmd.buckets.find? (fun e => e.1 == b.bck)).map Prod.snd

/-- Errors returned by the handlers. Typed errors of package cmn keep their
constructor; `fmt` is an error made by fmt.Errorf and carries its text;
`wrapped` stands for fmt.Errorf("%s %s: %v", t.si, txn, err). -/
inductive TxnErr where
  | bucketIsBusy (bck : Bck) (node : String)
  | bucketDoesNotExist (bck : Bck) (node : String)
  | bucketAlreadyExists (bck : Bck) (node : String)
  | capacity (text : String)
  | fmt (text : String)
  | decode (text : String)
  | txnExists (uuid : String)
  | txnNotFound (uuid : String)
  | txnTimeout (uuid : String)
  | xactRunning (kind : String) (uuid : String)
  | wrapped (node : String) (inner : TxnErr)
  | other (text : String)
deriving DecidableEq, Repr

/-- What a Go call yields: a value, or a run-time panic (nil dereference,
failed type assertion, cmn.Assert). -/
inductive Go (α : Type) where
  | ret (a : α)
  | panic
deriving DecidableEq, Repr

/-- Result of a transaction handler: nil, an error, or a panic. -/
inductive Res where
  | ok
  | err (e : TxnErr)
  | panic
deriving DecidableEq, Repr

/-- A held name-lock handle: the bucket and whether it is held exclusively
(TryLock) or shared (TryRLock). -/
structure NLP where
  bck : Bck
  exclusive : Bool
deriving DecidableEq, Repr

/-- Per-kind payload of a target-side transaction. -/
inductive TxnPayload where
  | createBucket
  | makeNCopies (curCopies newCopies : Int)
  | setBucketProps (bprops : Option BucketProps) (nprops : BucketProps)
  | renameBucket (bckFrom bckTo : ClusterBck)
  | copyBucket (bckFrom bckTo : ClusterBck)
deriving DecidableEq, Repr

/-- Target-side transaction. -/
structure Txn where
  uuid : String
  payload : TxnPayload
  bck : ClusterBck
  started : Nat
  expectedBMDVersion : Nat
  nlps : List NLP
deriving DecidableEq, Repr

/-- State of an extended action in the registry. -/
inductive XState where
  | running
  | aborted
  | finished
deriving DecidableEq, Repr

/-- Registry entry of an extended action. `phase` is the phase of its last
renewal, `spawned` tells whether its goroutine was started. -/
structure Xact where
  uuid : String
  kind : String
  bck : Bck
  state : XState
  phase : String
  spawned : Bool
deriving DecidableEq, Repr

/-- Calls of collaborators, recorded in chronological order. -/
inductive Event where
  | tryLock (b : Bck) (acquired : Bool)
  | tryRLock (b : Bck) (acquired : Bool)
  | unlock (b : Bck)
  | txnBegin (uuid : String) (accepted : Bool)
  | txnFind (uuid : String) (remove : Bool) (found : Bool)
  | txnWait (uuid : String) (reached : Bool)
  | renew (kind : String) (uuid : String) (phase : String) (renewed : Bool)
  | doAbort (kind : String) (b : Bck)
  | run (kind : String) (uuid : String)
  | addNotif (uuid : String)
  | renameDirs (bckFrom bckTo : Bck)
  | gfnActivate
deriving DecidableEq, Repr

/-- Mutable state of a target, as far as the transaction handlers touch it. -/
structure TState where
  txns : List Txn
  locks : List NLP
  bmd : BMD
  metasync : List (Nat × BMD)
  now : Nat
  xreg : List Xact
  trace : List Event
deriving DecidableEq, Repr

/-- Outcome of fs.Access on a path. -/
inductive Access where
  | ok
  | notExist
  | failed (e : TxnErr)
deriving DecidableEq, Repr

/-- Result triple of fs.IsDirEmpty: names, empty, err. -/
structure DirListing where
  names : List String
  empty : Bool
  err : Option TxnErr
deriving DecidableEq, Repr

/-- An available mountpath; `makePathCT` gives the path of the object directory
of a bucket on it (mpathInfo.MakePathCT(bck, fs.ObjectType)). -/
structure MountpathInfo where
  path : String
  makePathCT : Bck → String

/-- Action message as seen by the handlers. `Value` is untyped in the source;
the three fields below are what each decoder used by the validators returns on
it: t.parseNCopies, and jsoniter.Unmarshal into a BucketProps and into a Bck. -/
structure AisMsg where
  action : String
  uuid : String
  rmdVersion : Int
  parseNCopies : Int × Option TxnErr
  unmarshalProps : BucketProps × Option TxnErr
  unmarshalBck : Bck × Option TxnErr

/-- What a target reads from outside this file while serving a transaction.
`initBck` is the call c.bck.Init(t.owner.bmd, t.si) of package cluster: it fails
with an error, or leaves the bucket with its provider resolved and its
properties loaded from the BMD (the handlers dereference bck.Props right after).
`isPrint` is the table of printable runes above U+00FF that the verb %q uses. -/
structure Env where
  si : String
  siName : String
  showBck : ClusterBck → String
  showNames : List String → String
  initBck : BMD → ClusterBck → Except TxnErr (Bck × BucketProps)
  capErr : Option TxnErr
  rebXact : Option String
  resilverXact : Option String
  numAvail : Int
  availablePaths : List MountpathInfo
  access : String → Access
  isDirEmpty : String → DirListing
  validateNCopies : Int → Option TxnErr
  reMirror : Option BucketProps → BucketProps → Bool
  reEC : Option BucketProps → BucketProps → ClusterBck → Bool
  renameBucketDirs : Bck → Bck → Option TxnErr
  isPrint : Char → Bool

/-- Request context of a transaction call (txnServerCtx). -/
structure txnServerCtx where
  uuid : String
  timeout : Nat
  phase : String
  msg : AisMsg
  bck : ClusterBck
  query : List (String × List String)

/-! ## Constants -/

/-- Modelled from the spec: the action names of package cmn are not in the
sources at hand; section 6 lists the recognised action values. -/
def ActCreateLB : String := "create-bucket"

/-- Modelled from the spec: action value of section 6 (constant of package cmn). -/
def ActRegisterCB : String := "register-cloud-bucket"

/-- Modelled from the spec: action value of section 6 (constant of package cmn). -/
def ActMakeNCopies : String := "make-n-copies"

/-- Modelled from the spec: action value of section 6 (constant of package cmn). -/
def ActSetBprops : String := "set-bprops"

/-- Modelled from the spec: action value of section 6 (constant of package cmn). -/
def ActResetBprops : String := "reset-bprops"

/-- Modelled from the spec: action value of section 6 (constant of package cmn). -/
def ActRenameLB : String := "rename-bucket"

/-- Modelled from the spec: action value of section 6 (constant of package cmn). -/
def ActCopyBucket : String := "copy-bucket"

/-- Modelled from the spec: action value of section 6 (constant of package cmn). -/
def ActECEncode : String := "ec-encode"

/-- Modelled from the spec: kind of the put-copies xaction named in section 4.2
(constant of package cmn). -/
def ActPutCopies : String := "put-copies"

/-- Modelled from the spec: phase of section 6 (constant of package cmn). -/
def ActBegin : String := "begin"

/-- Modelled from the spec: phase of section 6 (constant of package cmn). -/
def ActCommit : String := "commit"

/-- Modelled from the spec: phase of section 6 (constant of package cmn). -/
def ActAbort : String := "abort"

/-- Modelled from the spec: the query parameter named in section 9
(constant of package cmn). -/
def URLParamWaitMetasync : String := "wait-metasync"

/-- Modelled from the spec: the query parameter under which a caller asks to be
notified (constant of package cmn; section 4.7 calls it the subscriber list). -/
def URLParamNotifyMe : String := "notify-me"

/-! ## Helpers -/

/-- Appends an event to the trace. -/
def TState.log (s : TState) (e : Event) : TState :=
  { s with trace := s.trace ++ [e] }

/-- The calls made between state `s` and a later state `s1`: what the trace of
`s1` holds beyond the trace of `s`. -/
def newEvents (s s1 : TState) : List Event :=
  s1.trace.drop s.trace.length

/-- First value of a query key, the empty string when absent (url.Values.Get). -/
def queryGet (q : List (String × List String)) (key : String) : String :=
  match q.find? (fun kv => kv.1 == key) with
  | some (_, v :: _) => v
  | _ => ""

/-- Presence of a query key (the `ok` of a Go map lookup). -/
def queryHas (q : List (String × List String)) (key : String) : Bool :=
  q.any (fun kv => kv.1 == key)

/-- The hexadecimal digit, in lower case, of a number below 16. -/
def hexDigit (n : Nat) : Char :=
  if n < 10 then Char.ofNat (48 + n) else Char.ofNat (87 + n)

/-- The last `width` hexadecimal digits of a number, the most significant first. -/
def hexDigits : Nat → Nat → List Char
  | 0, _ => []
  | width + 1, n => hexDigits width (n / 16) ++ [hexDigit (n % 16)]

/-- The function strconv.IsPrint of the Go library on a rune up to U+00FF: U+0020
to U+007E, and U+00A1 to U+00FF without the soft hyphen U+00AD. -/
def isPrintLatin1 (ch : Char) : Bool :=
  (0x20 ≤ ch.toNat && ch.toNat ≤ 0x7E) ||
    (0xA1 ≤ ch.toNat && ch.toNat ≤ 0xFF && ch.toNat != 0xAD)

/-- Escape of one rune by strconv.Quote of the Go library, which the verb %q of fmt
uses: the quote and the backslash get a backslash; a printable rune stays; the
control characters 7 to 13 have their letters; any other rune is written as
\x and two digits (below U+0020, and U+007F), as \u and four digits (below
U+10000) or as \U and eight digits. `isPrint` is strconv.IsPrint on the runes
above U+00FF, a table of the Go library that is not reproduced here. -/
def quoteChar (isPrint : Char → Bool) (ch : Char) : List Char :=
  if ch = '"' then ['\\', '"']
  else if ch = '\\' then ['\\', '\\']
  else if (if ch.toNat ≤ 0xFF then isPrintLatin1 ch else isPrint ch) then [ch]
  else if ch = Char.ofNat 7 then ['\\', 'a']
  else if ch = Char.ofNat 8 then ['\\', 'b']
  else if ch = Char.ofNat 12 then ['\\', 'f']
  else if ch = '\n' then ['\\', 'n']
  else if ch = '\r' then ['\\', 'r']
  else if ch = '\t' then ['\\', 't']
  else if ch = Char.ofNat 11 then ['\\', 'v']
  else if ch.toNat < 0x20 ∨ ch.toNat = 0x7F then '\\' :: 'x' :: hexDigits 2 ch.toNat
  else if ch.toNat < 0x10000 then '\\' :: 'u' :: hexDigits 4 ch.toNat
  else '\\' :: 'U' :: hexDigits 8 ch.toNat

/-- The verb %q of fmt on a string: double-quoted and escaped. A string is the list
of its runes; bytes that are not valid UTF-8 are not modelled. -/
def goQuote (isPrint : Char → Bool) (str : String) : String :=
  String.mk ('"' :: (str.data.flatMap (quoteChar isPrint) ++ ['"']))

/-! ## Name-lock registry -/

/-- Modelled from the spec: the name-lock pair (cmn.NLP) is not in the sources
at hand. Sections 3, 4.1 and 8: a non-blocking read/write lock per bucket;
TryLock succeeds only when nobody holds the lock of the bucket (at most one
write-holder, no reader concurrent with a writer). -/
def TryLock (s : TState) (b : Bck) : TState × Bool :=
  if s.locks.any (fun h => h.bck == b) then
    (s.log (.tryLock b false), false)
  else
    ({ s with locks := ⟨b, true⟩ :: s.locks }.log (.tryLock b true), true)

/-- Modelled from the spec: TryRLock of the missing name-lock pair; it succeeds
unless a writer holds the lock of the bucket (sections 3, 4.1, 8). -/
def TryRLock (s : TState) (b : Bck) : TState × Bool :=
  if s.locks.any (fun h => h.bck == b && h.exclusive) then
    (s.log (.tryRLock b false), false)
  else
    ({ s with locks := ⟨b, false⟩ :: s.locks }.log (.tryRLock b true), true)

/-- Modelled from the spec: Unlock of the missing name-lock pair releases the
hold acquired through that handle (section 4.1). -/
def Unlock (s : TState) (h : NLP) : TState :=
  { s with locks := s.locks.erase h }.log (.unlock h.bck)

/-- Modelled from the spec: the release of the name-locks recorded in a
transaction (section 4.1), in the order in which they were recorded. -/
def unlockAll (s : TState) (nlps : List NLP) : TState :=
  nlps.foldl Unlock s

/-! ## Transaction table -/

/-- Lookup by UUID in the transaction table, which is kept as a list of its
entries in the order of their insertion. -/
def lookupTxn (txns : List Txn) (uuid : String) : Option Txn :=
  txns.find? (fun x => x.uuid == uuid)

/-- Modelled from the spec: transactions.begin is not in the sources at hand.
Section 4.4: inserts; rejects a duplicate UUID; records the start time and
expectedBMDVersion = currentBMDVersion + 1. -/
def Transactions.begin (s : TState) (txn : Txn) : TState × Option TxnErr :=
  match lookupTxn s.txns txn.uuid with
  | some x => (s.log (.txnBegin txn.uuid false), some (.txnExists x.uuid))
  | none =>
    let rec_ : Txn := { txn with started := s.now, expectedBMDVersion := s.bmd.version + 1 }
    ({ s with txns := s.txns ++ [rec_] }.log (.txnBegin txn.uuid true), none)

/-- The assignment `txn.nlps = ...` made after transactions.begin: the table
holds a pointer to the same transaction, so the entry of that UUID sees it. -/
def Transactions.setNlps (s : TState) (uuid : String) (nlps : List NLP) : TState :=
  { s with txns := s.txns.map (fun x => if x.uuid = uuid then { x with nlps := nlps } else x) }

/-- Modelled from the spec: transactions.find is not in the sources at hand.
Section 4.4: lookup, optionally delete. A deleted transaction is discarded with
its name-locks released (section 4.1: the transaction records its nlps so that
abort and commit can release them; section 4.4: abort releases locks and
discards). -/
def Transactions.find (s : TState) (uuid : String) (remove : Bool) : TState × Except TxnErr Txn :=
  match lookupTxn s.txns uuid with
  | none => (s.log (.txnFind uuid remove false), .error (.txnNotFound uuid))
  | some txn =>
    let s1 := s.log (.txnFind uuid remove true)
    if remove then
      (unlockAll { s1 with txns := s1.txns.filter (fun x => x.uuid != uuid) } txn.nlps, .ok txn)
    else
      (s1, .ok txn)

/-- Modelled from the spec: the polling inside transactions.wait (section 4.4).
The local BMD is watched until its version reaches `expected` or the deadline
passes. `pending` are the metasync deliveries still to come, each with
its arrival time, in arrival order; a delivery replaces the local BMD only when
its version is newer. Yields: reached, local BMD, clock, deliveries left. -/
def pollBMD (expected deadline : Nat) :
    BMD → Nat → List (Nat × BMD) → Bool × BMD × Nat × List (Nat × BMD)
  | cur, now, [] =>
    if expected ≤ cur.version then (true, cur, now, []) else (false, cur, max now deadline, [])
  | cur, now, (t, b) :: rest =>
    if expected ≤ cur.version then (true, cur, now, (t, b) :: rest)
    else if t < deadline then
      pollBMD expected deadline (if cur.version < b.version then b else cur) (max now t) rest
    else (false, cur, max now deadline, (t, b) :: rest)

/-- Modelled from the spec: transactions.wait is not in the sources at hand.
Sections 4.4 and 8: blocks until the local BMD version reaches
txn.expectedBMDVersion or the timeout elapses; wait(txn, 0) returns the timeout
error without polling. A transaction whose commit completes is deleted and its
name-locks are released (section 3 lifetime, section 4.4 item c); after a
timeout it stays in the table until the abort that follows (section 5). -/
def Transactions.wait (s : TState) (txn : Txn) (timeout : Nat) : TState × Option TxnErr :=
  if timeout = 0 then
    (s.log (.txnWait txn.uuid false), some (.txnTimeout txn.uuid))
  else
    let r := pollBMD txn.expectedBMDVersion (s.now + timeout) s.bmd s.now s.metasync
    let s1 : TState := { s with bmd := r.2.1, now := r.2.2.1, metasync := r.2.2.2 }
    if r.1 then
      (unlockAll ({ s1 with txns := s1.txns.filter (fun x => x.uuid != txn.uuid) }.log
        (.txnWait txn.uuid true)) txn.nlps, none)
    else
      (s1.log (.txnWait txn.uuid false), some (.txnTimeout txn.uuid))

/-- Modelled from the spec: constructor of a create-bucket transaction (missing
from the sources); fields of section 3. Start time and expected BMD version are
recorded by transactions.begin. -/
def newTxnCreateBucket (c : txnServerCtx) : Txn :=
  ⟨c.uuid, .createBucket, c.bck, 0, 0, []⟩

/-- Modelled from the spec: constructor of a make-n-copies transaction (missing
from the sources); fields of section 3. -/
def newTxnMakeNCopies (c : txnServerCtx) (curCopies newCopies : Int) : Txn :=
  ⟨c.uuid, .makeNCopies curCopies newCopies, c.bck, 0, 0, []⟩

/-- Modelled from the spec: constructor of a set-bprops transaction (missing
from the sources); it keeps the current properties of the bucket and the new ones. -/
def newTxnSetBucketProps (c : txnServerCtx) (nprops : BucketProps) : Txn :=
  ⟨c.uuid, .setBucketProps c.bck.props nprops, c.bck, 0, 0, []⟩

/-- Modelled from the spec: constructor of a rename-bucket transaction (missing
from the sources); fields of section 3. -/
def newTxnRenameBucket (c : txnServerCtx) (bckFrom bckTo : ClusterBck) : Txn :=
  ⟨c.uuid, .renameBucket bckFrom bckTo, c.bck, 0, 0, []⟩

/-- Modelled from the spec: constructor of a copy-bucket transaction (missing
from the sources); fields of section 3. -/
def newTxnCopyBucket (c : txnServerCtx) (bckFrom bckTo : ClusterBck) : Txn :=
  ⟨c.uuid, .copyBucket bckFrom bckTo, c.bck, 0, 0, []⟩

/-! ## Xaction registry -/

/-- Modelled from the spec: the xaction registry is not in the sources at hand.
Section 4.2, RenewX(kind, bucket, uuid, phase): a running entry of the same
kind and bucket is returned when it has the same UUID (renewed with the given
phase) and the renewal is rejected when its UUID differs; otherwise an entry is
created. No goroutine is spawned by the renewal. -/
def Registry.RenewX (s : TState) (kind : String) (bck : Bck) (uuid phase : String) :
    TState × Except TxnErr Xact :=
  match s.xreg.find? (fun x => x.kind == kind && x.bck == bck && x.state == .running) with
  | some x =>
    if x.uuid = uuid then
      let y : Xact := { x with phase := phase }
      ({ s with xreg := s.xreg.map (fun z => if z = x then y else z) }.log
        (.renew kind uuid phase true), .ok y)
    else
      (s.log (.renew kind uuid phase false), .error (.xactRunning kind x.uuid))
  | none =>
    let y : Xact := ⟨uuid, kind, bck, .running, phase, false⟩
    ({ s with xreg := s.xreg ++ [y] }.log (.renew kind uuid phase true), .ok y)

/-- Modelled from the spec: DoAbort(kind, bucket) of the missing registry
signals the abort channel of the running xaction of that kind and bucket
(section 4.2). -/
def Registry.DoAbort (s : TState) (kind : String) (bck : Bck) : TState :=
  let signal : Xact → Xact := fun x =>
    if x.kind = kind ∧ x.bck = bck ∧ x.state = .running then { x with state := .aborted } else x
  TState.log { s with xreg := s.xreg.map signal } (.doAbort kind bck)

/-- The statement `go xact.Run()`: the goroutine of the xaction is started. -/
def goRun (s : TState) (x : Xact) : TState :=
  let spawn : Xact → Xact := fun z =>
    if z.uuid = x.uuid ∧ z.kind = x.kind ∧ z.bck = x.bck then { z with spawned := true } else z
  TState.log { s with xreg := s.xreg.map spawn } (.run x.kind x.uuid)

/-- Notification upon completion (txnServerCtx.addNotif): attached only when the
query names destinations to notify. -/
def addNotif (s : TState) (c : txnServerCtx) (x : Xact) : TState :=
  if queryHas c.query URLParamNotifyMe then s.log (.addNotif x.uuid) else s

/-! ## Validators (ais/tgttxn.go) -/

/-- Text of the error of coExists:
fmt.Errorf("%s: %s, cannot run %q on bucket %s", t.si, xact, msg.Action, bck). -/
def coExistsText (env : Env) (xact action : String) (bck : ClusterBck) : String :=
  env.si ++ ": " ++ xact ++ ", cannot run " ++ goQuote env.isPrint action ++ " on bucket " ++
    env.showBck bck

/-- Limited coexistence: no bucket work while a rebalance or a resilver runs. -/
def coExists (env : Env) (bck : ClusterBck) (msg : AisMsg) : Option TxnErr :=
  match env.rebXact with
  | some g => some (.fmt (coExistsText env g msg.action bck))
  | none =>
    match env.resilverXact with
    | some l => some (.fmt (coExistsText env l msg.action bck))
    | none => none

/-- Validation of make-n-copies: yields curCopies, newCopies, err. -/
def validateMakeNCopies (env : Env) (bck : ClusterBck) (msg : AisMsg) :
    Go (Int × Int × Option TxnErr) :=
  match bck.props with
  | none => .panic
  | some props =>
    let curCopies := props.mirror.copies
    let newCopies := msg.parseNCopies.1
    let err := msg.parseNCopies.2
    let err := if err = none then env.validateNCopies newCopies else err
    let err := if err = none then coExists env bck msg else err
    if err ≠ none then .ret (curCopies, newCopies, err)
    else if props.mirror.copies < newCopies then .ret (curCopies, newCopies, env.capErr)
    else .ret (curCopies, newCopies, err)

/-- Tail of validateNprops: enabling EC on a bucket needs capacity. -/
def validateNpropsEC (env : Env) (bck : ClusterBck) (nprops : BucketProps) :
    Go (BucketProps × Option TxnErr) :=
  if nprops.ec.enabled then
    match bck.props with
    | none => .panic
    | some bprops =>
      if !bprops.ec.enabled then .ret (nprops, env.capErr) else .ret (nprops, none)
  else .ret (nprops, none)

/-- Validation of set-bprops: yields nprops, err. -/
def validateNprops (env : Env) (bck : ClusterBck) (msg : AisMsg) :
    Go (BucketProps × Option TxnErr) :=
  let nprops := msg.unmarshalProps.1
  match msg.unmarshalProps.2 with
  | some err => .ret (nprops, some err)
  | none =>
    if nprops.mirror.enabled then
      if nprops.mirror.copies > env.numAvail then
        .ret (nprops, some (.fmt (env.si ++ ": number of mountpaths " ++ toString env.numAvail ++
          " is insufficient to configure " ++ env.showBck bck ++ " as a " ++
          toString nprops.mirror.copies ++ "-way mirror")))
      else
        match bck.props with
        | none => .panic
        | some bprops =>
          if nprops.mirror.copies > bprops.mirror.copies ∧ env.capErr ≠ none then
            .ret (nprops, env.capErr)
          else validateNpropsEC env bck nprops
    else validateNpropsEC env bck nprops

/-- The loop of validateBckRenTxn over the available mountpaths: the object
directory of the destination must be absent or empty on each of them. -/
def checkDstDirs (env : Env) (bckTo : ClusterBck) : List MountpathInfo → Option TxnErr
  | [] => none
  | m :: rest =>
    let path := m.makePathCT bckTo.bck
    match env.access path with
    | .failed e => some e
    | .notExist => checkDstDirs env bckTo rest
    | .ok =>
      let d := env.isDirEmpty path
      match d.err with
      | some e => some e
      | none =>
        if !d.empty then
          some (.fmt ("directory " ++ goQuote env.isPrint path ++
            " already exists and is not empty (" ++ env.showNames d.names ++ "...)"))
        else checkDstDirs env bckTo rest

/-- Validation of rename-bucket: yields bckTo, err. -/
def validateBckRenTxn (env : Env) (bmd : BMD) (bckFrom : ClusterBck) (msg : AisMsg) :
    Option ClusterBck × Option TxnErr :=
  let bTo := msg.unmarshalBck.1
  match msg.unmarshalBck.2 with
  | some err => (none, some err)
  | none =>
    match env.capErr with
    | some e => (none, some e)
    | none =>
      match coExists env bckFrom msg with
      | some err => (none, some err)
      | none =>
        let bckTo : ClusterBck := ⟨⟨bTo.name, bTo.provider, bTo.ns⟩, none⟩
        if (bmd.get bckFrom).isNone then
          (some bckTo, some (.bucketDoesNotExist bckFrom.bck env.si))
        else if (bmd.get bckTo).isSome then
          (some bckTo, some (.bucketAlreadyExists bckTo.bck env.si))
        else
          match checkDstDirs env bckTo env.availablePaths with
          | some err => (some bckTo, some err)
          | none => (some bckTo, none)

/-- Validation of copy-bucket: yields bckTo, err. -/
def validateBckCpTxn (env : Env) (bmd : BMD) (bckFrom : ClusterBck) (msg : AisMsg) :
    Option ClusterBck × Option TxnErr :=
  let bTo := msg.unmarshalBck.1
  match msg.unmarshalBck.2 with
  | some err => (none, some err)
  | none =>
    match env.capErr with
    | some e => (none, some e)
    | none =>
      match coExists env bckFrom msg with
      | some err => (none, some err)
      | none =>
        let bckTo : ClusterBck := ⟨bTo, none⟩
        if (bmd.get bckFrom).isNone then
          (some bckTo, some (.bucketDoesNotExist bckFrom.bck env.si))
        else (some bckTo, none)

/-- Validation of ec-encode. -/
def validateEcEncode (env : Env) (bck : ClusterBck) (msg : AisMsg) : Option TxnErr :=
  match env.capErr with
  | some e => some e
  | none => coExists env bck msg

/-! ## Handlers (ais/tgttxn.go) -/

/-- Handler of create-bucket and register-cloud-bucket. -/
def createBucket (env : Env) (s : TState) (c : txnServerCtx) : TState × Res :=
  if c.phase = ActBegin then
    let txn := newTxnCreateBucket c
    match Transactions.begin s txn with
    | (s1, some err) => (s1, .err err)
    | (s1, none) => (s1, .ok)
  else if c.phase = ActAbort then
    ((Transactions.find s c.uuid true).1, .ok)
  else if c.phase = ActCommit then
    match Transactions.find s c.uuid false with
    | (s1, .error err) => (s1, .err (.wrapped env.si err))
    | (s1, .ok txn) =>
      match Transactions.wait s1 txn c.timeout with
      | (s2, some err) => (s2, .err (.wrapped env.si err))
      | (s2, none) => (s2, .ok)
  else (s, .panic)

/-- Handler of make-n-copies. -/
def makeNCopies (env : Env) (s : TState) (c0 : txnServerCtx) : TState × Res :=
  match env.initBck s.bmd c0.bck with
  | .error err => (s, .err err)
  | .ok (b, props) =>
    let c : txnServerCtx := { c0 with bck := ⟨b, some props⟩ }
    if c.phase = ActBegin then
      match validateMakeNCopies env c.bck c.msg with
      | .panic => (s, .panic)
      | .ret (_, _, some err) => (s, .err err)
      | .ret (curCopies, newCopies, none) =>
        let nlp : NLP := ⟨c.bck.bck, true⟩
        match TryLock s c.bck.bck with
        | (s1, false) => (s1, .err (.bucketIsBusy c.bck.bck env.siName))
        | (s1, true) =>
          let txn := newTxnMakeNCopies c curCopies newCopies
          match Transactions.begin s1 txn with
          | (s2, some err) => (Unlock s2 nlp, .err err)
          | (s2, none) => (Transactions.setNlps s2 txn.uuid [nlp], .ok)
    else if c.phase = ActAbort then
      ((Transactions.find s c.uuid true).1, .ok)
    else if c.phase = ActCommit then
      let copies := c.msg.parseNCopies.1
      match Transactions.find s c.uuid false with
      | (s1, .error err) => (s1, .err (.wrapped env.si err))
      | (s1, .ok txn) =>
        match txn.payload with
        | .makeNCopies _ newCopies =>
          if newCopies ≠ copies then (s1, .panic)
          else
            match Transactions.wait s1 txn c.timeout with
            | (s2, some err) => (s2, .err (.wrapped env.si err))
            | (s2, none) =>
              match Registry.RenewX s2 ActMakeNCopies c.bck.bck c.uuid ActCommit with
              | (s3, .error err) => (s3, .err (.wrapped env.si err))
              | (s3, .ok xact) =>
                (goRun (addNotif (Registry.DoAbort s3 ActPutCopies c.bck.bck) c xact) xact, .ok)
        | _ => (s1, .panic)
    else (s, .panic)

/-- Commit of set-bprops, second step: re-encode when the EC section changed. -/
def setBucketPropsEC (env : Env) (s : TState) (c : txnServerCtx)
    (bprops : Option BucketProps) (nprops : BucketProps) : TState × Res :=
  if env.reEC bprops nprops c.bck then
    match Registry.RenewX (Registry.DoAbort s ActECEncode c.bck.bck) ActECEncode c.bck.bck
        c.uuid ActCommit with
    | (s1, .error err) => (s1, .err err)
    | (s1, .ok xact) => (goRun (addNotif s1 c xact) xact, .ok)
  else (s, .ok)

/-- Handler of set-bprops and reset-bprops. -/
def setBucketProps (env : Env) (s : TState) (c0 : txnServerCtx) : TState × Res :=
  match env.initBck s.bmd c0.bck with
  | .error err => (s, .err err)
  | .ok (b, props) =>
    let c : txnServerCtx := { c0 with bck := ⟨b, some props⟩ }
    if c.phase = ActBegin then
      match validateNprops env c.bck c.msg with
      | .panic => (s, .panic)
      | .ret (_, some err) => (s, .err err)
      | .ret (nprops, none) =>
        let nlp : NLP := ⟨c.bck.bck, true⟩
        match TryLock s c.bck.bck with
        | (s1, false) => (s1, .err (.bucketIsBusy c.bck.bck env.siName))
        | (s1, true) =>
          let txn := newTxnSetBucketProps c nprops
          match Transactions.begin s1 txn with
          | (s2, some err) => (Unlock s2 nlp, .err err)
          | (s2, none) => (Transactions.setNlps s2 txn.uuid [nlp], .ok)
    else if c.phase = ActAbort then
      ((Transactions.find s c.uuid true).1, .ok)
    else if c.phase = ActCommit then
      match Transactions.find s c.uuid false with
      | (s1, .error err) => (s1, .err (.wrapped env.si err))
      | (s1, .ok txn) =>
        match txn.payload with
        | .setBucketProps bprops nprops =>
          match Transactions.wait s1 txn c.timeout with
          | (s2, some err) => (s2, .err (.wrapped env.si err))
          | (s2, none) =>
            if env.reMirror bprops nprops then
              match Registry.RenewX s2 ActMakeNCopies c.bck.bck c.uuid ActCommit with
              | (s3, .error err) => (s3, .err (.wrapped env.si err))
              | (s3, .ok xact) =>
                setBucketPropsEC env
                  (goRun (addNotif (Registry.DoAbort s3 ActPutCopies c.bck.bck) c xact) xact)
                  c bprops nprops
            else setBucketPropsEC env s2 c bprops nprops
        | _ => (s1, .panic)
    else (s, .panic)

/-- Handler of rename-bucket. -/
def renameBucket (env : Env) (s : TState) (c0 : txnServerCtx) : TState × Res :=
  match env.initBck s.bmd c0.bck with
  | .error err => (s, .err err)
  | .ok (b, props) =>
    let c : txnServerCtx := { c0 with bck := ⟨b, some props⟩ }
    if c.phase = ActBegin then
      let bckFrom := c.bck
      match validateBckRenTxn env s.bmd bckFrom c.msg with
      | (_, some err) => (s, .err err)
      | (none, none) => (s, .panic)
      | (some bckTo, none) =>
        let nlpFrom : NLP := ⟨bckFrom.bck, true⟩
        let nlpTo : NLP := ⟨bckTo.bck, true⟩
        match TryLock s bckFrom.bck with
        | (s1, false) => (s1, .err (.bucketIsBusy bckFrom.bck env.siName))
        | (s1, true) =>
          match TryLock s1 bckTo.bck with
          | (s2, false) => (Unlock s2 nlpFrom, .err (.bucketIsBusy bckTo.bck env.siName))
          | (s2, true) =>
            let txn := newTxnRenameBucket c bckFrom bckTo
            match Transactions.begin s2 txn with
            | (s3, some err) => (Unlock (Unlock s3 nlpTo) nlpFrom, .err err)
            | (s3, none) => (Transactions.setNlps s3 txn.uuid [nlpFrom, nlpTo], .ok)
    else if c.phase = ActAbort then
      ((Transactions.find s c.uuid true).1, .ok)
    else if c.phase = ActCommit then
      match Transactions.find s c.uuid false with
      | (s1, .error err) => (s1, .err (.wrapped env.si err))
      | (s1, .ok txn) =>
        match txn.payload with
        | .renameBucket bckFrom bckTo =>
          match Transactions.wait s1 txn c.timeout with
          | (s2, some err) => (s2, .err (.wrapped env.si err))
          | (s2, none) =>
            match Registry.RenewX s2 ActRenameLB bckTo.bck c.uuid ActCommit with
            | (s3, .error err) => (s3, .err err)
            | (s3, .ok xact) =>
              let s4 := s3.log (.renameDirs bckFrom.bck bckTo.bck)
              match env.renameBucketDirs bckFrom.bck bckTo.bck with
              | some err => (s4, .err err)
              | none => (goRun ((addNotif s4 c xact).log .gfnActivate) xact, .ok)
        | _ => (s1, .panic)
    else (s, .panic)

/-- Handler of copy-bucket. -/
def copyBucket (env : Env) (s : TState) (c0 : txnServerCtx) : TState × Res :=
  match env.initBck s.bmd c0.bck with
  | .error err => (s, .err err)
  | .ok (b, props) =>
    let c : txnServerCtx := { c0 with bck := ⟨b, some props⟩ }
    if c.phase = ActBegin then
      let bckFrom := c.bck
      match validateBckCpTxn env s.bmd bckFrom c.msg with
      | (_, some err) => (s, .err err)
      | (none, none) => (s, .panic)
      | (some bckTo, none) =>
        let nlpFrom : NLP := ⟨bckFrom.bck, false⟩
        let nlpTo : NLP := ⟨bckTo.bck, true⟩
        match TryRLock s bckFrom.bck with
        | (s1, false) => (s1, .err (.bucketIsBusy bckFrom.bck env.siName))
        | (s1, true) =>
          match TryLock s1 bckTo.bck with
          | (s2, false) => (Unlock s2 nlpFrom, .err (.bucketIsBusy bckTo.bck env.siName))
          | (s2, true) =>
            let txn := newTxnCopyBucket c bckFrom bckTo
            match Transactions.begin s2 txn with
            | (s3, some err) => (Unlock (Unlock s3 nlpTo) nlpFrom, .err err)
            | (s3, none) => (Transactions.setNlps s3 txn.uuid [nlpFrom, nlpTo], .ok)
    else if c.phase = ActAbort then
      ((Transactions.find s c.uuid true).1, .ok)
    else if c.phase = ActCommit then
      match Transactions.find s c.uuid false with
      | (s1, .error err) => (s1, .err (.wrapped env.si err))
      | (s1, .ok txn) =>
        match txn.payload with
        | .copyBucket _ bckTo =>
          let waited : TState × Option TxnErr :=
            if queryGet c.query URLParamWaitMetasync ≠ "" then
              Transactions.wait s1 txn c.timeout
            else ((Transactions.find s1 c.uuid true).1, none)
          match waited with
          | (s2, some err) => (s2, .err (.wrapped env.si err))
          | (s2, none) =>
            match Registry.RenewX s2 ActCopyBucket bckTo.bck c.uuid ActCommit with
            | (s3, .error err) => (s3, .err err)
            | (s3, .ok xact) => (goRun (addNotif s3 c xact) xact, .ok)
        | _ => (s1, .panic)
    else (s, .panic)

/-- Handler of ec-encode. -/
def ecEncode (env : Env) (s : TState) (c0 : txnServerCtx) : TState × Res :=
  match env.initBck s.bmd c0.bck with
  | .error err => (s, .err err)
  | .ok (b, props) =>
    let c : txnServerCtx := { c0 with bck := ⟨b, some props⟩ }
    if c.phase = ActBegin then
      match validateEcEncode env c.bck c.msg with
      | some err => (s, .err err)
      | none =>
        let nlp : NLP := ⟨c.bck.bck, true⟩
        match TryLock s c.bck.bck with
        | (s1, false) => (s1, .err (.bucketIsBusy c.bck.bck env.siName))
        | (s1, true) =>
          match Registry.RenewX (Unlock s1 nlp) ActECEncode c.bck.bck c.uuid ActBegin with
          | (s2, .error err) => (s2, .err err)
          | (s2, .ok _) => (s2, .ok)
    else if c.phase = ActAbort then
      (s, .ok)
    else if c.phase = ActCommit then
      match Registry.RenewX s ActECEncode c.bck.bck c.uuid ActCommit with
      | (s1, .error err) => (s1, .err err)
      | (s1, .ok xact) => (goRun s1 xact, .ok)
    else (s, .panic)

/-- Dispatch of txnHandler on the action of the message (step 3 of the handler);
an error result is what the handler writes to the response. -/
def txnHandler (env : Env) (s : TState) (c : txnServerCtx) : TState × Res :=
  if c.msg.action = ActCreateLB ∨ c.msg.action = ActRegisterCB then createBucket env s c
  else if c.msg.action = ActMakeNCopies then makeNCopies env s c
  else if c.msg.action = ActSetBprops ∨ c.msg.action = ActResetBprops then setBucketProps env s c
  else if c.msg.action = ActRenameLB then renameBucket env s c
  else if c.msg.action = ActCopyBucket then copyBucket env s c
  else if c.msg.action = ActECEncode then ecEncode env s c
  else (s, .err (.other ("invalid action " ++ goQuote env.isPrint c.msg.action)))

/-! ## Information center (ais/ic.go): data model -/

/-- Node identity (cluster.Snode); nodes are told apart by their ID. -/
structure Snode where
  id : String
deriving DecidableEq, Repr

/-- Cluster map (smapX), restricted to what the information center reads:
version, cluster UUID, the proxies and the key set of the IC map. -/
structure Smap where
  version : Int
  uuid : String
  pmap : List Snode
  ic : List String
deriving DecidableEq, Repr

/-- Kind of notification a listener stands for (notifTy). -/
inductive NotifTy where
  | xact
  | cache
  | other
deriving DecidableEq, Repr

/-- Notification listener, restricted to the fields the information center
reads: UUID, owner, kind, notification type, start time, finished flag, error. -/
structure NL where
  uuid : String
  owner : String
  kind : String
  ty : NotifTy
  started : Int
  finished : Bool
  err : Option String
deriving DecidableEq, Repr

/-- Calls that a proxy makes while serving the information center, in
chronological order. -/
inductive PEvent where
  | syncICBundle
  | call (node : String) (what : String)
  | synchronize (version : Int)
  | ingest
  | notifsAdd (uuid : String)
  | bcast (nodes : List String) (action : String) (uuid : String)
  | send (node : String) (action : String)
deriving DecidableEq, Repr

/-- State of a proxy as far as the information center touches it: its own node,
the local Smap, the notifs table (ownership table) and the calls made. -/
structure PState where
  si : Snode
  smap : Smap
  notifs : List NL
  ptrace : List PEvent
deriving DecidableEq, Repr

/-- The IC bundle that an IC member returns (icBundle). `smap` is a pointer in the
source; `ownershipTbl` is what decoding the raw table into a notifs table gives. -/
structure ICBundle where
  smap : Option Smap
  ownershipTbl : Except String (List NL)

/-- Result of the intra-cluster call that fetches the IC bundle: the call failed,
the bytes did not decode, or a bundle. -/
inductive BundleCall where
  | failed (err : String)
  | garbled (err : String)
  | bundle (b : ICBundle)

/-- What a proxy reads from outside ic.go while serving the information center.
`invalStatus` is the status that invalmsghdlr and invalmsghdlrf write when the
caller passes none; `rangeIC` is the order in which one range statement over the
IC map visits its keys (Go leaves it unspecified); `during` are the changes
that other goroutines make to the proxy state during the successive sleeps of
withLocalRetry; `oldestIC` is smap.OldestIC(); `getBundle` is the outcome of
the call to an IC member; `hrwWeight` is the hash weight of a node for a key;
`isPrint` is the table of printable runes above U+00FF that the verb %q uses. -/
structure PEnv where
  invalStatus : Nat
  strIC : Smap → Snode → String
  showSnode : Snode → String
  fmtUnknownQue : String → String
  fmtUnknownAct : String → String
  hrwWeight : String → String → Nat
  rangeIC : List String → List String
  during : List (PState → PState)
  oldestIC : Smap → Option Snode
  getBundle : Snode → BundleCall
  bcastErr : List String → Option String
  sendErr : Snode → Option String
  isPrint : Char → Bool

/-- Action message as read by handlePost: action, Smap version of the sender, and
what MorphMarshal of its value gives as a notifs table and as a listener. -/
structure ICMsg where
  action : String
  smapVersion : Int
  asTable : Except String (List NL)
  asListener : Except String NL

/-- Registration request (regIC): the listener, the Smap of the caller and the
query of the request, nil when there is none. -/
structure regIC where
  nl : NL
  smap : Smap
  query : Option (List (String × List String))

/-! ## Information center: constants and collaborators -/

/-- Owner value that means equal ownership by all IC members (ic.go). -/
def equalIC : String := "\x00"

/-- Modelled from the spec: `what` value of the bundle query, section 6
(constant of package cmn). -/
def GetWhatICBundle : String := "ic-bundle"

/-- Modelled from the spec: action value of section 6 (constant of package cmn). -/
def ActMergeOwnershipTbl : String := "merge-ownership-table"

/-- Modelled from the spec: action value of section 6 (constant of package cmn). -/
def ActListenToNotif : String := "listen-to-notif"

/-- Appends a call to the trace of the proxy. -/
def PState.plog (s : PState) (e : PEvent) : PState :=
  { s with ptrace := s.ptrace ++ [e] }

/-- The calls made between proxy state `s` and a later state `s1`. -/
def newPEvents (s s1 : PState) : List PEvent :=
  s1.ptrace.drop s.ptrace.length

/-- Modelled from the spec: smap.GetProxy is not in the sources at hand; section 3
gives the Smap a set of proxies. The result is nil when no proxy has that ID. -/
def Smap.GetProxy (m : Smap) (pid : String) : Option Snode :=
  m.pmap.find? (fun n => n.id == pid)

/-- Modelled from the spec: smap.IsIC is not in the sources at hand; section 3 gives
the Smap an IC set of proxy IDs. A node is an IC member when its ID is a key. -/
def Smap.IsIC (m : Smap) (psi : Snode) : Bool :=
  decide (psi.id ∈ m.ic)

/-- Modelled from the spec: cluster.HrwIC is not in the sources at hand. Glossary
and section 4.6: highest-random-weight selection of one node among the IC
members, for a key; it fails when there is no IC member to choose from. -/
def HrwIC (weight : String → String → Nat) (smap : Smap) (uuid : String) :
    Except String Snode :=
  match smap.ic.filterMap smap.GetProxy with
  | [] => .error "IC is empty"
  | c :: cs =>
    .ok (cs.foldl (fun best n => if weight best.id uuid < weight n.id uuid then n else best) c)

/-- Modelled from the spec: notifs.entry is not in the sources at hand; section 3
describes the table as a mapping from UUID to its listener. -/
def notifsEntry (tbl : List NL) (uuid : String) : Option NL :=
  tbl.find? (fun nl => nl.uuid == uuid)

/-- Modelled from the spec: notifs.getOwner is not in the sources at hand; section 3:
the ownership table maps a UUID to an owner ID. The result stands for the pair
of the owner and the `exists` flag. -/
def getOwner (tbl : List NL) (uuid : String) : Option String :=
  (notifsEntry tbl uuid).map NL.owner

/-- Modelled from the spec: notifs.add is not in the sources at hand; section 4.6:
the listener is inserted into the local notifs table under its UUID. -/
def notifsAdd (s : PState) (nl : NL) : PState :=
  PState.plog
    { s with notifs :=
        match notifsEntry s.notifs nl.uuid with
        | some _ => s.notifs.map (fun x => if x.uuid = nl.uuid then nl else x)
        | none => s.notifs ++ [nl] }
    (.notifsAdd nl.uuid)

/-- One step of the merge of an ownership table: an incoming entry is added when
its UUID is new, and replaces the entry of that UUID when it started later. -/
def mergeOne (tbl : List NL) (e : NL) : List NL :=
  match notifsEntry tbl e.uuid with
  | none => tbl ++ [e]
  | some o =>
    if o.started < e.started then tbl.map (fun x => if x.uuid = e.uuid then e else x)
    else tbl

/-- Modelled from the spec: decoding a table into the notifs table (the
UnmarshalJSON of notifs) is not in the sources at hand. Section 4.6, merge on
receipt: the incoming table is union-merged into the local one and a conflict
is resolved by keeping the entry with the later start time. -/
def mergeTbl (tbl incoming : List NL) : List NL :=
  incoming.foldl mergeOne tbl

/-- Modelled from the spec: smapOwner.synchronize is not in the sources at hand.
Section 3: the Smap version never decreases on a node; a newer Smap replaces
the local one, and a lesser version is an error when `lesserIsErr` is set. -/
def synchronize (s : PState) (newSmap : Smap) (lesserIsErr : Bool) : PState × Option String :=
  let s1 := s.plog (.synchronize newSmap.version)
  if newSmap.version ≤ s.smap.version then
    if lesserIsErr ∧ newSmap.version < s.smap.version then
      (s1, some "attempt to downgrade the Smap")
    else (s1, none)
  else ({ s1 with smap := newSmap }, none)

/-- What another goroutine does to the proxy state while this one sleeps: it may
replace the Smap and change the notifs table; the node itself and the calls
made by this goroutine stay. -/
def concurrently (step : PState → PState) (s : PState) : PState :=
  { s with smap := (step s).smap, notifs := (step s).notifs }

/-- Modelled from the spec: withLocalRetry is not in the sources at hand. Section
4.6: the condition is retried a few times, to tolerate races; `steps` are the
changes made by other goroutines during the successive sleeps. Yields the
state at the last evaluation of the condition and its value there. -/
def withLocalRetry (cond : PState → Bool) : List (PState → PState) → PState → PState × Bool
  | [], s => (s, cond s)
  | step :: rest, s =>
    if cond s then (s, true) else withLocalRetry cond rest (concurrently step s)

/-! ## Information center: handlers (ais/ic.go) -/

/-- Result of syncICBundle: nil, an error, or a failed assertion. -/
inductive SyncRes where
  | nil
  | err (e : String)
  | panic
deriving DecidableEq, Repr

/-- Synchronisation of the ownership table with the oldest IC member. -/
def syncICBundle (env : PEnv) (s0 : PState) : PState × SyncRes :=
  let s := s0.plog .syncICBundle
  let smap := s.smap
  match env.oldestIC smap with
  | none => (s, .panic)
  | some si =>
    if si.id = s.si.id then (s, .nil)
    else
      let s1 := s.plog (.call si.id GetWhatICBundle)
      match env.getBundle si with
      | .failed e => (s1, .err e)
      | .garbled e => (s1, .err e)
      | .bundle b =>
        match b.smap with
        | none => (s1, .panic)
        | some bsmap =>
          if smap.uuid ≠ bsmap.uuid then (s1, .panic)
          else
            let r := synchronize s1 bsmap true
            let smap2 := match r.2 with
              | some _ => smap
              | none => r.1.smap
            if !smap2.IsIC s.si then (r.1, .nil)
            else
              match b.ownershipTbl with
              | .error e => (r.1, .err e)
              | .ok tbl =>
                (PState.plog { r.1 with notifs := mergeTbl r.1.notifs tbl } .ingest, .nil)

/-- What reverseToOwner did: nothing (it returns false), an error written to the
response (it returns true), the request handed over to a node (it returns
true), or a failed assertion. -/
inductive RevOutcome where
  | notReversed
  | failed (status : Nat) (text : String)
  | reversed (psi : Snode)
  | panic
deriving DecidableEq, Repr

/-- The value `reversedOrFailed` that reverseToOwner returns. -/
def RevOutcome.reversedOrFailed : RevOutcome → Option Bool
  | .notReversed => some false
  | .failed _ _ => some true
  | .reversed _ => some true
  | .panic => none

/-- The part of reverseToOwner after the label `outer`: the switch on the owner
and the hand-over. The request body set from `msg` has no bearing on the
outcome and is left out. -/
def revOuter (env : PEnv) (si : Snode) (smap : Smap) (selfIC : Bool) (owner : String) :
    RevOutcome :=
  if owner = "" then .notReversed
  else
    let picked : Go (String × Option Snode) :=
      if owner = equalIC then
        if selfIC then .ret (si.id, none)
        else
          match env.rangeIC smap.ic with
          | [] => .ret (owner, none)
          | pid :: _ =>
            match smap.GetProxy pid with
            | none => .panic
            | some psi => if smap.IsIC psi then .ret (pid, some psi) else .panic
      else
        match smap.GetProxy owner with
        | none => .panic
        | some psi => if smap.IsIC psi then .ret (owner, some psi) else .panic
    match picked with
    | .panic => .panic
    | .ret (chosen, psi) =>
      if chosen = si.id then .notReversed
      else
        match psi with
        | none => .panic
        | some p => .reversed p

/-- One pass of reverseToOwner from the label `begin`, with the current value of
`retry`; `again` is the jump back to `begin` after the bundle was synchronised.
The error that syncICBundle returns is dropped, as in the source; an assertion
that fails inside syncICBundle is a panic of the whole call. -/
def revBegin (env : PEnv) (retry : Bool) (again : PState → PState × RevOutcome)
    (s : PState) (uuid : String) : PState × RevOutcome :=
  let smap := s.smap
  let selfIC := smap.IsIC s.si
  match getOwner s.notifs uuid with
  | some owner => (s, revOuter env s.si smap selfIC owner)
  | none =>
    if selfIC then
      if !retry then
        (s, .failed env.invalStatus
          (goQuote env.isPrint uuid ++ " not found (" ++ env.strIC smap s.si ++ ")"))
      else
        let s1 := (withLocalRetry (fun st => (getOwner st.notifs uuid).isSome) env.during s).1
        match getOwner s1.notifs uuid with
        | some owner => (s1, revOuter env s1.si smap selfIC owner)
        | none =>
          if (syncICBundle env s1).2 = .panic then ((syncICBundle env s1).1, .panic)
          else again (syncICBundle env s1).1
    else
      match HrwIC env.hrwWeight smap uuid with
      | .error e => (s, .failed 500 e)
      | .ok hrwOwner => (s, revOuter env s.si smap selfIC hrwOwner.id)

/-- Reversal of a request to the owner of `uuid`: the first pass runs with
retry = true, the pass after `goto begin` with retry = false. -/
def reverseToOwner (env : PEnv) (s : PState) (uuid : String) : PState × RevOutcome :=
  revBegin env true (fun s2 => revBegin env false (fun s3 => (s3, .panic)) s2 uuid) s uuid

/-- Response of GET /v1/ic. -/
inductive GetResp where
  | failed (status : Nat) (text : String)
  | bundle (smap : Smap) (ownershipTbl : List NL)
deriving DecidableEq, Repr

/-- Handler of GET /v1/ic. -/
def handleGet (env : PEnv) (s : PState) (what : String) : GetResp :=
  let smap := s.smap
  if !smap.IsIC s.si then
    .failed env.invalStatus (env.showSnode s.si ++ ": not an IC member")
  else if what = GetWhatICBundle then .bundle smap s.notifs
  else .failed env.invalStatus (env.fmtUnknownQue what)

/-- Outcome of POST /v1/ic: handled, an error written, or a failed assertion. -/
inductive PostOutcome where
  | done
  | failed (status : Nat) (text : String)
  | panic
deriving DecidableEq, Repr

/-- Handler of POST /v1/ic; `req` is what cmn.ReadJSON gives. -/
def handlePost (env : PEnv) (s : PState) (req : Except String ICMsg) : PState × PostOutcome :=
  match req with
  | .error e => (s, .failed env.invalStatus e)
  | .ok msg =>
    let checked : PState × Bool :=
      if s.smap.IsIC s.si then (s, true)
      else if msg.smapVersion < s.smap.version then (s, false)
      else
        let s1 := (withLocalRetry (fun st => st.smap.IsIC st.si) env.during s).1
        (s1, s1.smap.IsIC s1.si)
    match checked with
    | (s1, false) => (s1, .failed env.invalStatus (env.showSnode s1.si ++ ": not an IC member"))
    | (s1, true) =>
      if msg.action = ActMergeOwnershipTbl then
        match msg.asTable with
        | .error e => (s1, .failed env.invalStatus e)
        | .ok tbl => ({ s1 with notifs := mergeTbl s1.notifs tbl }, .done)
      else if msg.action = ActListenToNotif then
        match msg.asListener with
        | .error e => (s1, .failed env.invalStatus e)
        | .ok nl =>
          if nl.ty = .xact ∨ nl.ty = .cache then (notifsAdd s1 nl, .done)
          else (s1, .panic)
      else (s1, .failed env.invalStatus (env.fmtUnknownAct msg.action))

/-- The nodes that bcastListenIC collects: the IC members other than self, each
resolved to a proxy; nil when an IC member is no proxy (failed assertion). -/
def bcastNodes (si : Snode) (smap : Smap) : List String → Option (List Snode)
  | [] => some []
  | pid :: rest =>
    if pid ≠ si.id then
      match smap.GetProxy pid with
      | none => none
      | some psi => (bcastNodes si smap rest).map (fun l => psi :: l)
    else bcastNodes si smap rest

/-- Broadcast of listen-to-notif to the other IC members: nil, an error of the
broadcast, or a failed assertion. -/
def bcastListenIC (env : PEnv) (s : PState) (nl : NL) (smap : Smap) : PState × SyncRes :=
  match bcastNodes s.si smap (env.rangeIC smap.ic) with
  | none => (s, .panic)
  | some nodes =>
    if nodes.length > 0 then
      let ids := nodes.map Snode.id
      match env.bcastErr ids with
      | some e => (s.plog (.bcast ids ActListenToNotif nl.uuid), .err e)
      | none => (s.plog (.bcast ids ActListenToNotif nl.uuid), .nil)
    else (s, .panic)

/-- Registration of a listener with equal ownership: yields the state, the query
with the notify-me value added, and whether an assertion failed. -/
def registerEqual (env : PEnv) (s : PState) (a : regIC) :
    PState × Option (List (String × List String)) × Bool :=
  let query := a.query.map (fun q => q ++ [(URLParamNotifyMe, [equalIC])])
  let s1 := if a.smap.IsIC s.si then notifsAdd s a.nl else s
  if a.smap.ic.length > 1 then
    let r := bcastListenIC env s1 a.nl a.smap
    (r.1, query, decide (r.2 = .panic))
  else (s1, query, false)

/-- Sending of the local ownership table to another node, to be merged there. -/
def sendOwnershipTbl (env : PEnv) (s : PState) (si : Snode) : PState × Option String :=
  (s.plog (.send si.id ActMergeOwnershipTbl), env.sendErr si)

/-! ## Information center: status queries (ais/ic.go) -/

/-- Request of a status query (cmn.XactReqMsg), restricted to the fields that
writeStatus reads: ID and Kind. -/
structure XactReqMsg where
  id : String
  kind : String
deriving DecidableEq, Repr

/-- What writeStatus did with the response: cmn.ReadJSON failed (and wrote its own
error), an error was written, reverseToOwner took the request over (it returned
true, or failed an assertion), or the finished flag of the listener was
written. -/
inductive StatusResp where
  | readFailed (err : String)
  | failed (status : Nat) (text : String)
  | handedOver (out : RevOutcome)
  | finished (flag : Bool)
deriving DecidableEq, Repr

/-- Handler of a status query. `req` is what cmn.ReadJSON gives; `meanwhile` is
what other goroutines do to the proxy state between the return of
reverseToOwner and the lookup of the entry (the table is read twice, each time
under its own lock). -/
def writeStatus (env : PEnv) (s : PState) (req : Except String XactReqMsg) (what : String)
    (meanwhile : PState → PState) : PState × StatusResp :=
  match req with
  | .error e => (s, .readFailed e)
  | .ok msg =>
    if msg.id = "" then (s, .failed 400 ("missing ID for `what`: " ++ what))
    else
      let r := reverseToOwner env s msg.id
      match r.2 with
      | .notReversed =>
        let s1 := concurrently meanwhile r.1
        match notifsEntry s1.notifs msg.id with
        | none =>
          (s1, .failed 404
            (goQuote env.isPrint msg.id ++ " not found (" ++ env.strIC s1.smap s1.si ++ ")"))
        | some nl =>
          if msg.kind ≠ "" ∧ nl.kind ≠ msg.kind then
            (s1, .failed env.invalStatus
              ("xaction kind mismatch (ID: " ++ msg.id ++ ", KIND: " ++ msg.kind ++ ")"))
          else
            match nl.err with
            | some e => (s1, .failed env.invalStatus e)
            | none => (s1, .finished nl.finished)
      | out => (r.1, .handedOver out)

/-! ## Copy-bucket jogger (mirror/bck_copy.go) -/

/-- Errors that the per-object callback of a jogger receives or returns: out of
space (cmn.IsErrOOS holds of it), aborted (cmn.NewAbortedErrorDetails), or any
other error. -/
inductive CopyErr where
  | oos (text : String)
  | aborted (what details : String)
  | other (text : String)
deriving DecidableEq, Repr

/-- The test cmn.IsErrOOS on an error that may be nil. -/
def IsErrOOS : Option CopyErr → Bool
  | some (.oos _) => true
  | _ => false

/-- Calls that a jogger makes in its per-object callback. -/
inductive JEvent where
  | copyObject (size : Int)
  | getCapStatus
deriving DecidableEq, Repr

/-- State that copyObject touches: the count `num` of the jogger, the object and
byte counters of the parent xaction, and the calls made. The counters are 64-bit
in the source; object counts and sizes stay far below 2^62, so no wrap-around is
modelled. -/
structure JState where
  num : Nat
  objects : Int
  bytes : Int
  jtrace : List JEvent
deriving DecidableEq, Repr

/-- What one invocation of copyObject meets: the size of the object, the outcome
(copied, err) of Target().CopyObject, and the error that fs.GetCapStatus would
report if polled now. -/
structure CopyCall where
  size : Int
  copied : Bool
  err : Option CopyErr
  capErr : Option String
deriving DecidableEq, Repr

/-- What is fixed for a jogger: the constant throttleNumObjects of package mirror
(not in the sources at hand), the kind and ID of the parent xaction, and the
table of printable runes above U+00FF that the verb %q uses. -/
structure JEnv where
  throttleNumObjects : Nat
  kind : String
  id : String
  isPrint : Char → Bool

/-- Appends a call to the trace of the jogger. -/
def JState.jlog (s : JState) (e : JEvent) : JState :=
  { s with jtrace := s.jtrace ++ [e] }

/-- The calls made between jogger state `s` and a later state `s1`. -/
def newJEvents (s s1 : JState) : List JEvent :=
  s1.jtrace.drop s.jtrace.length

/-- The text `what` of an aborted error: kind and quoted ID of the xaction. -/
def abortedWhat (env : JEnv) : String :=
  env.kind ++ "(" ++ goQuote env.isPrint env.id ++ ")"

/-- The end of copyObject, after the throttle: an out-of-space error becomes an
aborted error, anything else is returned as it is. -/
def copyObjectErr (env : JEnv) (err : Option CopyErr) : Option CopyErr :=
  match err with
  | some (.oos t) => some (.aborted (abortedWhat env) t)
  | e => e

/-- Per-object callback of the copy-bucket jogger. -/
def copyObject (env : JEnv) (s : JState) (c : CopyCall) : JState × Option CopyErr :=
  let s0 := s.jlog (.copyObject c.size)
  if c.copied then
    let s1 : JState :=
      { s0 with objects := s0.objects + 1, bytes := s0.bytes + (c.size + c.size),
                num := s0.num + 1 }
    if s1.num % env.throttleNumObjects = 0 then
      let s2 := s1.jlog .getCapStatus
      match c.capErr with
      | some e => (s2, some (.aborted (abortedWhat env) e))
      | none => (s2, copyObjectErr env c.err)
    else (s1, copyObjectErr env c.err)
  else (s0, copyObjectErr env c.err)

/-! ## Client side of the API (api/utils.go) -/

/-- The error type cmn.HTTPError, restricted to status and message. -/
structure HTTPError where
  status : Int
  message : String
deriving DecidableEq, Repr

/-- A non-nil value of the interface `error`: one whose dynamic type is
*cmn.HTTPError (the pointer itself may be nil), or any other error. -/
inductive GoError where
  | httpError (p : Option HTTPError)
  | plain (text : String)
deriving DecidableEq, Repr

/-- HTTP status of an error, or -1 for a non-HTTP error. -/
def HTTPStatus (err : Option GoError) : Go Int :=
  match err with
  | none => .ret 200
  | some (.plain _) => .ret (-1)
  | some (.httpError none) => .panic
  | some (.httpError (some herr)) => .ret herr.status

/-- Kind of a transport error, as cmn.IsErrConnectionReset and
cmn.IsErrConnectionRefused tell them apart. -/
inductive ErrKind where
  | connReset
  | connRefused
  | other
deriving DecidableEq, Repr

/-- Error of Client.Do. -/
structure TransportErr where
  kind : ErrKind
  text : String
deriving DecidableEq, Repr

/-- The test cmn.IsErrConnectionReset. -/
def IsErrConnectionReset (e : TransportErr) : Bool :=
  decide (e.kind = .connReset)

/-- The test cmn.IsErrConnectionRefused. -/
def IsErrConnectionRefused (e : TransportErr) : Bool :=
  decide (e.kind = .connRefused)

/-- Response of the server, restricted to status and body. -/
structure HTTPResp where
  statusCode : Int
  body : String
deriving DecidableEq, Repr

/-- The constants httpMaxRetries and httpRetrySleep of package api (not in the
sources at hand); the sleep is a time.Duration, a count of nanoseconds. -/
structure ApiConsts where
  httpMaxRetries : Nat
  httpRetrySleep : Int

/-- The value of a 64-bit signed integer after an operation whose exact result is
`x` (wrap-around of int64). -/
def wrap64 (x : Int) : Int :=
  (x + 2 ^ 63) % 2 ^ 64 - 2 ^ 63

/-- What the retries of one request did: the outcomes of the calls of Client.Do,
the durations passed to time.Sleep, both in order, and the values of resp and
err at the end. -/
structure DoRun where
  attempts : List (Except TransportErr HTTPResp)
  sleeps : List Int
  last : Except TransportErr HTTPResp

/-- The retry loop of doHTTPRequestGetResp, entered with err not nil: `left`
iterations remain, `made` calls of Client.Do were made before, `transport k` is
the outcome of call number k (from 0). -/
def retryLoop (transport : Nat → Except TransportErr HTTPResp) :
    Nat → Nat → Int → TransportErr → DoRun
  | 0, _, _, err => ⟨[], [], .error err⟩
  | left + 1, made, sleep, _ =>
    match transport made with
    | .ok resp => ⟨[.ok resp], [sleep], .ok resp⟩
    | .error e =>
      let rest := retryLoop transport left (made + 1) (wrap64 (sleep + Int.tdiv sleep 2)) e
      ⟨.error e :: rest.attempts, sleep :: rest.sleeps, rest.last⟩

/-- The calls of Client.Do of doHTTPRequestGetResp: the first one and, when it
failed with a reset or refused connection, the retries. -/
def doWithRetries (c : ApiConsts) (transport : Nat → Except TransportErr HTTPResp) : DoRun :=
  match transport 0 with
  | .ok resp => ⟨[.ok resp], [], .ok resp⟩
  | .error err =>
    if IsErrConnectionReset err || IsErrConnectionRefused err then
      let rest := retryLoop transport c.httpMaxRetries 1 c.httpRetrySleep err
      ⟨.error err :: rest.attempts, rest.sleeps, rest.last⟩
    else ⟨[.error err], [], .error err⟩

/-- What readResp reads outside of itself: the decoding of an error body into a
*cmn.HTTPError (the JSON null decodes without error and leaves the pointer nil),
the rest of the body that ioutil.ReadAll gives after a failed decoding, and the
reading of a response with a status below 400 into `v`. -/
structure ApiEnv where
  decodeHTTPError : String → Except String (Option HTTPError)
  readAll : String → String
  readValue : HTTPResp → Option String

/-- Reading of a response; yields the wrapped response (nil or the response) and
the error. -/
def readResp (env : ApiEnv) (method : String) (resp : HTTPResp) :
    Option HTTPResp × Option GoError :=
  if resp.statusCode ≥ 400 then
    let decoded : Option (Option HTTPError) :=
      if method ≠ "HEAD" ∧ resp.statusCode ≠ 503 then
        match env.decodeHTTPError resp.body with
        | .ok p => some p
        | .error _ => none
      else none
    match decoded with
    | some p => (none, some (.httpError p))
    | none =>
      let msg := env.readAll resp.body
      let strMsg :=
        if resp.statusCode = 503 ∧ msg = "" then
          "[Service Unavailable]: starting up, please wait a little and retry"
        else msg
      (none, some (.httpError (some ⟨resp.statusCode, strMsg⟩)))
  else
    match env.readValue resp with
    | some e => (none, some (.plain e))
    | none => (some resp, none)

/-- What doHTTPRequestGetResp did and returned: the calls of Client.Do and the
sleeps, the response and the error. -/
structure DoOutcome where
  attempts : List (Except TransportErr HTTPResp)
  sleeps : List Int
  resp : Option HTTPResp
  err : Option GoError

/-- One HTTP request with its retries. `newRequestErr` is the error of
http.NewRequest, if any. -/
def doHTTPRequestGetResp (c : ApiConsts) (env : ApiEnv) (method : String)
    (newRequestErr : Option String)
    (transport : Nat → Except TransportErr HTTPResp) : DoOutcome :=
  match newRequestErr with
  | some e => ⟨[], [], none, some (.plain ("failed to create request, err: " ++ e))⟩
  | none =>
    let run := doWithRetries c transport
    match run.last with
    | .error err =>
      ⟨run.attempts, run.sleeps, none,
        some (.plain ("failed to " ++ method ++ ", err: " ++ err.text))⟩
    | .ok resp =>
      ⟨run.attempts, run.sleeps, (readResp env method resp).1, (readResp env method resp).2⟩

/-! ## Storage server of DFC (dfc/webserver.go) -/

/-- The slash, as a character (fslash). -/
def fslash : Char := '/'

/-- The constant s3skipTokenToKey. -/
def s3skipTokenToKey : Nat := 3

/-- What html.EscapeString of the Go library puts for one character: it escapes
the five characters <, >, &, the apostrophe and the double quote. -/
def escapeChar (ch : Char) : List Char :=
  if ch = '<' then "&lt;".data
  else if ch = '>' then "&gt;".data
  else if ch = '&' then "&amp;".data
  else if ch = Char.ofNat 39 then "&#39;".data
  else if ch = Char.ofNat 34 then "&#34;".data
  else [ch]

/-- The function html.EscapeString, on the characters of a string. -/
def escapeString (s : List Char) : List Char :=
  s.flatMap escapeChar

/-- The function strings.Count(s, fslash). -/
def countSlash (s : List Char) : Nat :=
  s.count fslash

/-- The function strings.Split(s, fslash): the pieces of `s` between the slashes. -/
def splitSlash : List Char → List (List Char)
  | [] => [[]]
  | ch :: rest =>
    if ch = fslash then [] :: splitSlash rest
    else
      match splitSlash rest with
      | [] => [[ch]]
      | piece :: pieces => (ch :: piece) :: pieces

/-- The function strings.SplitN(s, fslash, n): at most n pieces, the last of which
is the rest of `s`, unsplit; nil for n = 0. -/
def splitSlashN : List Char → Nat → List (List Char)
  | _, 0 => []
  | s, 1 => [s]
  | [], _ + 2 => [[]]
  | ch :: rest, n + 2 =>
    if ch = fslash then [] :: splitSlashN rest (n + 1)
    else
      match splitSlashN rest (n + 2) with
      | [] => [[ch]]
      | piece :: pieces => (ch :: piece) :: pieces

/-- What the GET branch of servhdlr takes from the path: the bucket name and, when
the path does not have exactly one slash, the key name; an index out of range
is a run-time panic. -/
def parsePath (path : List Char) : Go (String × Option String) :=
  let cnt := countSlash (escapeString path)
  let s := splitSlash (escapeString path)
  match s[1]? with
  | none => .panic
  | some bktname =>
    if cnt = 1 then .ret (String.mk bktname, none)
    else
      match (splitSlashN (escapeString path) s3skipTokenToKey)[2]? with
      | none => .panic
      | some keyname => .ret (String.mk bktname, some (String.mk keyname))

/-- What the storage server reads from its surroundings while serving a GET:
the mountpath of a key, whether the file is absent locally, and the errors of
opening the file and of copying it to the response. -/
structure ServEnv where
  doHashfindMountPath : String → String
  statNotExist : String → Bool
  openErr : String → Option String
  copyErr : String → Option String

/-- What servhdlr does with the cloud interface and with the response, in order. -/
inductive ServEffect where
  | listbucket (bktname : String)
  | getobj (mpath bktname keyname : String)
  | copyFile (fname : String)
  | httpError (text : String) (status : Nat)
deriving DecidableEq, Repr

/-- Handler of the requests to the storage server, by method and URL path: the
effects on the cloud interface and on the response, or a run-time panic. The
statistics counters and the log are left out. -/
def servhdlr (env : ServEnv) (method : String) (path : String) : Go (List ServEffect) :=
  if method = "GET" then
    match parsePath path.data with
    | .panic => .panic
    | .ret (bktname, none) => .ret [.listbucket bktname]
    | .ret (bktname, some keyname) =>
      let mpath := env.doHashfindMountPath (bktname ++ "/" ++ keyname)
      let fname := mpath ++ "/" ++ bktname ++ "/" ++ keyname
      let fetched : List ServEffect :=
        if env.statNotExist fname then [.getobj mpath bktname keyname] else []
      match env.openErr fname with
      | some e => .ret (fetched ++ [.httpError e 500])
      | none =>
        match env.copyErr fname with
        | some e => .ret (fetched ++ [.copyFile fname, .httpError e 500])
        | none => .ret (fetched ++ [.copyFile fname])
  else if method = "POST" then .ret []
  else if method = "PUT" then .ret []
  else if method = "DELETE" then .ret []
  else .ret [.httpError ("Method Not Allowed: " ++ method) 405]

/-! ## File system over a bucket (fuse/fs/core.go) -/

/-- The constant fuseops.RootInodeID of the FUSE library. -/
def RootInodeID : Nat := 1

/-- The constant invalidInodeID. -/
def invalidInodeID : Nat := RootInodeID + 1

/-- An inode as far as core.go deals with it: what its constructor receives (ID,
parent, file or directory) and its lookup count. -/
structure Inode where
  id : Nat
  parent : Option Nat
  isDir : Bool
  lookupCount : Nat
deriving DecidableEq, Repr

/-- State of the file system: the inode table (a map from ID to inode, as the list
of its entries) and the last inode ID given out, an unsigned 64-bit integer. -/
structure FsState where
  inodeTable : List (Nat × Inode)
  lastInodeID : Nat
deriving DecidableEq, Repr

/-- The entry of the inode table under an ID. -/
def FsState.lookup (fs : FsState) (id : Nat) : Option Inode :=
  (fs.inodeTable.find? (fun e => e.1 == id)).map Prod.snd

/-- The assignment fs.inodeTable[id] = inode. -/
def FsState.store (fs : FsState) (id : Nat) (inode : Inode) : FsState :=
  { fs with inodeTable := (id, inode) :: fs.inodeTable.filter (fun e => e.1 != id) }

/-- The statement delete(fs.inodeTable, id). -/
def FsState.delete (fs : FsState) (id : Nat) : FsState :=
  { fs with inodeTable := fs.inodeTable.filter (fun e => e.1 != id) }

/-- The file system that NewAISFileSystemServer sets up: the root directory under
RootInodeID, looked up once, and lastInodeID at invalidInodeID. -/
def NewAISFileSystemServer : FsState :=
  ⟨[(RootInodeID, ⟨RootInodeID, none, true, 1⟩)], invalidInodeID⟩

/-- The next inode ID: atomic.AddUint64(&fs.lastInodeID, 1), which wraps around at
2^64. Yields the state and the ID. -/
def nextInodeID (fs : FsState) : FsState × Nat :=
  ({ fs with lastInodeID := (fs.lastInodeID + 1) % 2 ^ 64 }, (fs.lastInodeID + 1) % 2 ^ 64)

/-- What parent.LookupEntry(name) finds: no entry, an entry without an inode yet
(a file or a directory), or an entry with the ID of its inode. -/
inductive EntryLookupResult where
  | noEntry
  | noInode (isDir : Bool)
  | inode (id : Nat)
deriving DecidableEq, Repr

/-- Outcome of a file system call: done (for LookUpInode, with the ID of the
child), ENOENT, or a fatal error (fs.fatalf, or a failed type assertion). -/
inductive FuseRes where
  | ok (inode : Option Nat)
  | enoent
  | fatal
deriving DecidableEq, Repr

/-- The call LookUpInode for `name` under the directory `parent`; `lookupEntry` is
parent.LookupEntry. -/
def LookUpInode (lookupEntry : Inode → String → EntryLookupResult) (fs : FsState)
    (parent : Nat) (name : String) : FsState × FuseRes :=
  match fs.lookup parent with
  | none => (fs, .fatal)
  | some p =>
    if !p.isDir then (fs, .fatal)
    else
      match lookupEntry p name with
      | .noEntry => (fs, .enoent)
      | .noInode isDir =>
        let r := nextInodeID fs
        let created : Inode := ⟨r.2, some p.id, isDir, 0⟩
        (r.1.store r.2 { created with lookupCount := created.lookupCount + 1 }, .ok (some r.2))
      | .inode id =>
        match fs.lookup id with
        | none => (fs, .fatal)
        | some found =>
          (fs.store id { found with lookupCount := found.lookupCount + 1 }, .ok (some found.id))

/-- The call ForgetInode: the lookup count of the inode goes down by `n`
(DecLookupCountN, not below zero); at zero the inode leaves the table. An inode
without a parent, the root, makes the call end in a run-time panic at the use of
the parent. -/
def ForgetInode (fs : FsState) (id : Nat) (n : Nat) : FsState × FuseRes :=
  match fs.lookup id with
  | none => (fs, .fatal)
  | some found =>
    if found.lookupCount - n = 0 then
      match found.parent with
      | none => (fs.store id { found with lookupCount := 0 }, .fatal)
      | some _ => (fs.delete id, .ok none)
    else (fs.store id { found with lookupCount := found.lookupCount - n }, .ok none)

/-! ## Properties -/

/-- The commit of a transaction waited for the BMD: the transaction of that UUID
was in the table, a successful wait on it is among the calls made since, and the
local BMD has reached the version the transaction expects. -/
def CommitWaited (s : TState) (uuid : String) (s1 : TState) : Prop :=
  ∃ txn, lookupTxn s.txns uuid = some txn ∧ Event.txnWait uuid true ∈ newEvents s s1 ∧
    txn.expectedBMDVersion ≤ s1.bmd.version

/-- Outcome of a begin that cannot succeed: an error, and the busy error of
bucket `B` as soon as the call went as far as calling anything. -/
def RefusedBusy (env : Env) (s : TState) (B : Bck) (r : TState × Res) : Prop :=
  ∃ e, r.2 = .err e ∧ (newEvents s r.1 ≠ [] → e = .bucketIsBusy B env.siName)

/-- Event of a transaction offered to the table (transactions.begin called). -/
def Event.isTxnBegin : Event → Bool
  | .txnBegin _ _ => true
  | _ => false

/-- Event of an xaction renewed in the registry or started. -/
def Event.isXactStart : Event → Bool
  | .renew _ _ _ _ => true
  | .run _ _ => true
  | _ => false

/-- Event of an attempt on a name-lock, whatever its outcome. -/
def Event.isLockAttempt : Event → Bool
  | .tryLock _ _ => true
  | .tryRLock _ _ => true
  | _ => false

/-- Among the calls `evs`, a TryLock or TryRLock on bucket `b` failed. -/
def LockFailed (b : Bck) (evs : List Event) : Prop :=
  Event.tryLock b false ∈ evs ∨ Event.tryRLock b false ∈ evs

/-- The call that led from `s` to `r` returned BucketIsBusy for `b`, left the
transaction table and the xaction registry unchanged, never called
transactions.begin and neither renewed nor started an xaction. -/
def LockRefused (env : Env) (s : TState) (b : Bck) (r : TState × Res) : Prop :=
  r.2 = .err (.bucketIsBusy b env.siName) ∧ r.1.txns = s.txns ∧ r.1.xreg = s.xreg ∧
  ∀ e ∈ newEvents s r.1, e.isTxnBegin = false ∧ e.isXactStart = false

/-- The error that coExists returns for copy-bucket: a formatted error whose text
contains the phrase of the spec. -/
def IsCopyCoExistsErr (r : Res) : Prop :=
  ∃ pre post, r = .err (.fmt (pre ++ "cannot run \"copy-bucket\" on bucket" ++ post))

/-- The destination directory exists on mountpath `m` and is not empty. -/
def DstDirNonEmpty (env : Env) (bckTo : ClusterBck) (m : MountpathInfo) : Prop :=
  env.access (m.makePathCT bckTo.bck) = .ok ∧
    (env.isDirEmpty (m.makePathCT bckTo.bck)).empty = false

/-- What the commit of copy-bucket did on the way from `s` to `r`:
transactions.wait was called exactly when the query carries a non-empty
wait-metasync; without it the transaction is gone from the table, RenewBckCopy
was called and the xaction was started exactly when the call returned nil;
and after a wait that failed an error is returned and no xaction was renewed
or started. -/
def CopyCommitOutcome (s : TState) (c : txnServerCtx) (r : TState × Res) : Prop :=
  ((∃ reached, Event.txnWait c.uuid reached ∈ newEvents s r.1) ↔
    queryGet c.query URLParamWaitMetasync ≠ "") ∧
  (queryGet c.query URLParamWaitMetasync = "" →
    lookupTxn r.1.txns c.uuid = none ∧
    (∃ renewed, Event.renew ActCopyBucket c.uuid ActCommit renewed ∈ newEvents s r.1) ∧
    (Event.run ActCopyBucket c.uuid ∈ newEvents s r.1 ↔ r.2 = .ok)) ∧
  (Event.txnWait c.uuid false ∈ newEvents s r.1 →
    (∃ e, r.2 = .err e) ∧ ∀ e ∈ newEvents s r.1, e.isXactStart = false)

/-- State `s1` is `s` after a begin that registered the transaction `uuid` holding
exactly the name-locks `nlps`, acquired in that order. -/
def BeganWith (s s1 : TState) (uuid : String) (nlps : List NLP) : Prop :=
  lookupTxn s.txns uuid = none ∧
  (∃ txn : Txn, txn.uuid = uuid ∧ txn.nlps = nlps ∧ s1.txns = s.txns ++ [txn]) ∧
  s1.locks = nlps.reverse ++ s.locks ∧ nlps.Nodup ∧ s1.bmd = s.bmd

/-- The bucket whose name-lock a call attempts, for TryLock and TryRLock. -/
def Event.lockedBck : Event → Option Bck
  | .tryLock b _ => some b
  | .tryRLock b _ => some b
  | _ => none

/-- The buckets whose name-locks were attempted among the calls `evs`, in the
order of the attempts. -/
def lockAttempts (evs : List Event) : List Bck :=
  evs.filterMap Event.lockedBck

/-- The calls and the result of the begin of a two-bucket operation, once the
validation passed; `srcLock` is the call that attempts the lock of the source
(TryLock for rename, TryRLock for copy). Either the source is refused and
nothing else is called; or the source is acquired and the destination is
attempted with TryLock, refused, and the source released; or both are acquired,
transactions.begin fails and the destination and then the source are released;
or both are acquired and the transaction begins, with nothing released. -/
def BeginLocks (srcLock : Bck → Bool → Event) (src dst : Bck) (uuid siName : String)
    (evs : List Event) (res : Res) : Prop :=
  (evs = [srcLock src false] ∧ res = .err (.bucketIsBusy src siName)) ∨
  (evs = [srcLock src true, .tryLock dst false, .unlock src] ∧
    res = .err (.bucketIsBusy dst siName)) ∨
  (evs = [srcLock src true, .tryLock dst true, .txnBegin uuid false, .unlock dst,
      .unlock src] ∧ ∃ err, res = .err err) ∨
  (evs = [srcLock src true, .tryLock dst true, .txnBegin uuid true] ∧ res = .ok)

/-- Invariants of the Smap (section 3) as far as the IC is concerned: the IC set
is not empty, its keys are distinct, and every IC member is a proxy. -/
def Smap.WellFormed (m : Smap) : Prop :=
  m.ic ≠ [] ∧ m.ic.Nodup ∧ ∀ pid ∈ m.ic, (m.GetProxy pid).isSome = true

instance (m : Smap) : Decidable m.WellFormed :=
  inferInstanceAs (Decidable (m.ic ≠ [] ∧ m.ic.Nodup ∧ ∀ pid ∈ m.ic, (m.GetProxy pid).isSome = true))

/-- A range statement over a map visits every key exactly once, in some order. -/
def PEnv.RangesKeys (env : PEnv) : Prop :=
  ∀ keys : List String, List.Perm (env.rangeIC keys) keys

/-- An ID that names a node: neither empty nor the reserved owner value equalIC. -/
def IsNodeID (pid : String) : Prop :=
  pid ≠ "" ∧ pid ≠ equalIC

instance (pid : String) : Decidable (IsNodeID pid) :=
  inferInstanceAs (Decidable (pid ≠ "" ∧ pid ≠ equalIC))

/-- The entry that the merge of an incoming entry into a local one keeps for a
UUID: the only one there is, or the one that started later (the local one on a
tie). -/
def keptEntry : Option NL → Option NL → Option NL
  | none, none => none
  | some o, none => some o
  | none, some e => some e
  | some o, some e => if o.started < e.started then some e else some o

/-- The proxy state at the end of the local retries that reverseToOwner makes for
`uuid` on an IC member. -/
def afterRetries (env : PEnv) (s : PState) (uuid : String) : PState :=
  (withLocalRetry (fun st => (getOwner st.notifs uuid).isSome) env.during s).1

/-- The run of syncICBundle that reverseToOwner makes after the local retries for
`uuid` failed: the proxy state after it and its result. -/
def afterSync (env : PEnv) (s : PState) (uuid : String) : PState × SyncRes :=
  syncICBundle env (afterRetries env s uuid)

/-- The entry that writeStatus finds for the request: the one of the notifs table
as it is after reverseToOwner returned and other goroutines did `meanwhile`. -/
def statusEntry (env : PEnv) (s : PState) (msg : XactReqMsg) (meanwhile : PState → PState) :
    Option NL :=
  notifsEntry (concurrently meanwhile (reverseToOwner env s msg.id).1).notifs msg.id

/-- Whether an error is an aborted error. -/
def CopyErr.isAborted : Option CopyErr → Bool
  | some (.aborted _ _) => true
  | _ => false

/-- Successive invocations of the callback of one jogger, one per object, up to
and including the first one that returns an error: the state at the end and the
values returned. -/
def runCallbacks (env : JEnv) : JState → List CopyCall → JState × List (Option CopyErr)
  | s, [] => (s, [])
  | s, c :: rest =>
    match (copyObject env s c).2 with
    | none =>
      ((runCallbacks env (copyObject env s c).1 rest).1,
        none :: (runCallbacks env (copyObject env s c).1 rest).2)
    | some e => ((copyObject env s c).1, [some e])

/-- The number of polls of the capacity among the calls `evs`. -/
def pollCount (evs : List JEvent) : Nat :=
  evs.count JEvent.getCapStatus

/-- Whether a call of Client.Do failed. -/
def attemptFailed : Except TransportErr HTTPResp → Bool
  | .error _ => true
  | .ok _ => false

/-- Whether cmn.IsErrConnectionReset or cmn.IsErrConnectionRefused holds of the
error of a call of Client.Do. -/
def retryable (e : TransportErr) : Bool :=
  IsErrConnectionReset e || IsErrConnectionRefused e

/-- The constants of package api are such that the sleep is not negative and
httpMaxRetries increases of it stay within a time.Duration (no wrap-around). -/
def ApiConsts.Sane (c : ApiConsts) : Prop :=
  0 ≤ c.httpRetrySleep ∧ c.httpRetrySleep * 2 ^ c.httpMaxRetries < 2 ^ 63

/-- The relation `R` holds between every element of the list and the next one. -/
def Consecutive (R : Int → Int → Prop) : List Int → Prop
  | a :: b :: rest => R a b ∧ Consecutive R (b :: rest)
  | _ => True

/-- The five characters that html.EscapeString escapes. -/
def isHTMLSpecial (ch : Char) : Bool :=
  ch = '<' || ch = '>' || ch = '&' || ch = Char.ofNat 39 || ch = Char.ofNat 34

/-- Invariant of the inode table: lastInodeID is at least invalidInodeID; every
entry is stored under the ID of its inode, which is at most lastInodeID; and
every inode that has a parent has an ID above the ID of the parent. -/
def FsInv (fs : FsState) : Prop :=
  invalidInodeID ≤ fs.lastInodeID ∧
  (∀ e ∈ fs.inodeTable, e.1 = e.2.id ∧ e.2.id ≤ fs.lastInodeID) ∧
  (∀ e ∈ fs.inodeTable, ∀ p, e.2.parent = some p → p < e.2.id)

/-! ## Concrete scenarios -/

/-- Bucket ais://src. -/
def bckSrc : Bck := ⟨"src", "ais", ⟨"", ""⟩⟩

/-- Bucket ais://dst. -/
def bckDst : Bck := ⟨"dst", "ais", ⟨"", ""⟩⟩

/-- Properties of ais://src: a 2-way mirror, no erasure coding. -/
def propsSrc : BucketProps := ⟨⟨true, 2⟩, ⟨false⟩⟩

/-- A target t1 with four mountpaths, enough capacity, no rebalance and no
resilver; a bucket initialises when the BMD has it. -/
def envIdle : Env where
  si := "t1"
  siName := "t1"
  showBck := fun b => b.bck.provider ++ "://" ++ b.bck.name
  showNames := fun _ => ""
  initBck := fun bmd b =>
    match bmd.get b with
    | some p => .ok (b.bck, p)
    | none => .error (.bucketDoesNotExist b.bck "t1")
  capErr := none
  rebXact := none
  resilverXact := none
  numAvail := 4
  availablePaths := []
  access := fun _ => .notExist
  isDirEmpty := fun _ => ⟨[], true, none⟩
  validateNCopies := fun n => if 1 ≤ n ∧ n ≤ 16 then none else some (.other "copies out of range")
  reMirror := fun _ _ => false
  reEC := fun _ _ _ => false
  renameBucketDirs := fun _ _ => none
  isPrint := fun _ => true

/-- The same target while a cluster-wide rebalance runs. -/
def envRebalancing : Env := { envIdle with rebXact := some "rebalance[g7]" }

/-- Message of the given action with UUID `uuid`; its value decodes as 3 copies,
as the properties of ais://src, and as the bucket ais://dst. -/
def msgOf (action uuid : String) : AisMsg :=
  ⟨action, uuid, 0, (3, none), (propsSrc, none), (bckDst, none)⟩

/-- Request on ais://src: action, phase, UUID, a timeout of 5 and no query. -/
def reqOf (action phase uuid : String) : txnServerCtx :=
  ⟨uuid, 5, phase, msgOf action uuid, ⟨bckSrc, none⟩, []⟩

/-- A target at BMD version 10 holding ais://src: no transaction, no lock held,
no xaction, nothing pending from metasync. -/
def stFresh : TState := ⟨[], [], ⟨10, [(bckSrc, propsSrc)]⟩, [], 0, [], []⟩

/-- The state after a successful begin of copy-bucket u1 (src to dst) on `stFresh`:
the transaction u1 expects BMD version 11 and holds both name-locks. -/
def stCopyOpen : TState := (txnHandler envIdle stFresh (reqOf ActCopyBucket ActBegin "u1")).1

/-- The fresh target while some other holder has the name-lock of ais://dst. -/
def stDstBusy : TState := { stFresh with locks := [⟨bckDst, true⟩] }

/-- The state after the successful begin of make-n-copies u1 on ais://src. -/
def stMncOpen : TState := (txnHandler envIdle stFresh (reqOf ActMakeNCopies ActBegin "u1")).1

/-- The state after the successful begin of ec-encode u1 on ais://src. -/
def stEcBegun : TState := (txnHandler envIdle stFresh (reqOf ActECEncode ActBegin "u1")).1

/-- The state after the successful begin of create-bucket u1 on ais://src. -/
def stCreateBegun : TState := (txnHandler envIdle stFresh (reqOf ActCreateLB ActBegin "u1")).1

/-- The idle target when its mountpaths are above the high watermark. -/
def envFull : Env := { envIdle with capErr := some (.capacity "out of space") }

/-- A target at BMD version 10 whose BMD holds no bucket. -/
def stNoBuckets : TState := ⟨[], [], ⟨10, []⟩, [], 0, [], []⟩

/-- Mountpath /mp1; the object directory of a bucket on it is /mp1/<bucket name>. -/
def mpath1 : MountpathInfo := ⟨"/mp1", fun b => "/mp1/" ++ b.name⟩

/-- Mountpath /mp2; the object directory of a bucket on it is /mp2/<bucket name>. -/
def mpath2 : MountpathInfo := ⟨"/mp2", fun b => "/mp2/" ++ b.name⟩

/-- The idle target with two mountpaths: no directory of ais://dst on /mp1, and
on /mp2 a directory of ais://dst that holds the object "obj1". -/
def envLeftover : Env :=
  { envIdle with
    availablePaths := [mpath1, mpath2]
    access := fun path => if path = "/mp2/dst" then .ok else .notExist
    isDirEmpty := fun path =>
      if path = "/mp2/dst" then ⟨["obj1"], false, none⟩ else ⟨[], true, none⟩ }

/-- The state after the begin of copy-bucket u1 in which a copy xaction of another
UUID, u0, is still running on ais://dst. -/
def stCopyOpenOtherRunning : TState :=
  { stCopyOpen with xreg := [⟨"u0", ActCopyBucket, bckDst, .running, ActCommit, true⟩] }

/-- A target at BMD version 10 that holds both ais://src and ais://dst, with no
transaction, no lock held and no xaction. -/
def stTwoBuckets : TState :=
  ⟨[], [], ⟨10, [(bckSrc, propsSrc), (bckDst, propsSrc)]⟩, [], 0, [], []⟩

/-- Begin of copy-bucket `uuid` from bucket `src` to bucket `dst`. -/
def reqCopy (src dst : Bck) (uuid : String) : txnServerCtx :=
  ⟨uuid, 5, ActBegin, ⟨ActCopyBucket, uuid, 0, (3, none), (propsSrc, none), (dst, none)⟩,
    ⟨src, none⟩, []⟩

/-- Proxies p1, p2, p3 (the IC members below) and p5, p6. -/
def nodeP1 : Snode := ⟨"p1"⟩

/-- Proxy p2. -/
def nodeP2 : Snode := ⟨"p2"⟩

/-- Proxy p3. -/
def nodeP3 : Snode := ⟨"p3"⟩

/-- Proxy p5. -/
def nodeP5 : Snode := ⟨"p5"⟩

/-- Proxy p6. -/
def nodeP6 : Snode := ⟨"p6"⟩

/-- Smap version 30 of cluster A: five proxies, IC = {p1, p2, p3}. -/
def smapV30 : Smap :=
  ⟨30, "cluster-A", [nodeP1, nodeP2, nodeP3, nodeP5, nodeP6], ["p1", "p2", "p3"]⟩

/-- Smap version 31 of cluster A with a single IC member, p1. -/
def smapOneIC : Smap :=
  ⟨31, "cluster-A", [nodeP1, nodeP2, nodeP3, nodeP5, nodeP6], ["p1"]⟩

/-- A listener of UUID `uuid` with the given owner: a running copy-bucket xaction
that started at `started`. -/
def nlOf (uuid owner : String) (started : Int) : NL :=
  ⟨uuid, owner, ActCopyBucket, .xact, started, false, none⟩

/-- The surroundings of a proxy: the error helpers write 400 Bad Request when no
status is passed; HRW weighs p2 highest, then p1; a range over the IC map yields
the keys in the order listed; nothing changes during a local retry; the oldest
IC member is the first one listed; every IC member answers the bundle query with
Smap version 30 and an empty ownership table. -/
def envProxy : PEnv where
  invalStatus := 400
  strIC := fun _ n => n.id
  showSnode := fun n => "p[" ++ n.id ++ "]"
  fmtUnknownQue := fun what => "unexpected GET what=" ++ what
  fmtUnknownAct := fun act => "unexpected action " ++ act
  hrwWeight := fun pid _ => if pid = "p2" then 3 else if pid = "p1" then 2 else 1
  rangeIC := fun keys => keys
  during := []
  oldestIC := fun m => m.ic.head?.bind m.GetProxy
  getBundle := fun _ => .bundle ⟨some smapV30, .ok []⟩
  bcastErr := fun _ => none
  sendErr := fun _ => none
  isPrint := fun _ => true

/-- The same surroundings when a range over the IC map yields the keys in the
opposite order. -/
def envProxyRev : PEnv := { envProxy with rangeIC := List.reverse }

/-- The same surroundings when the oldest IC member answers with the Smap of
another cluster. -/
def envForeign : PEnv :=
  { envProxy with
    getBundle := fun _ => .bundle ⟨some ⟨40, "cluster-B", [nodeP1], ["p1"]⟩, .ok [nlOf "u7" "p1" 5]⟩ }

/-- Proxy `si` at Smap version 30 with the given notifs table and no call made. -/
def stProxy (si : Snode) (tbl : List NL) : PState :=
  ⟨si, smapV30, tbl, []⟩

/-- A listener of UUID `uuid`, owned by equalIC, that finished with the error
"disk fault". -/
def nlFailed (uuid : String) : NL :=
  ⟨uuid, equalIC, ActCopyBucket, .xact, 7, true, some "disk fault"⟩

/-- A status request for `uuid` of any kind. -/
def statusReq (uuid : String) : XactReqMsg := ⟨uuid, ""⟩

/-- A jogger of the copy-bucket xaction u1 that polls the capacity every 64
copied objects. -/
def jEnv64 : JEnv := ⟨64, ActCopyBucket, "u1", fun _ => true⟩

/-- A jogger that has not seen any object yet. -/
def jFresh : JState := ⟨0, 0, 0, []⟩

/-- An object of 10 bytes that was copied while the capacity is in error. -/
def callCopied : CopyCall := ⟨10, true, none, some "out of space"⟩

/-- An object of 10 bytes that was not copied (no error) while the capacity is in
error. -/
def callSkipped : CopyCall := ⟨10, false, none, some "out of space"⟩

/-- Five retries at most, the first after a sleep of 100 ms (in nanoseconds). -/
def consts5 : ApiConsts := ⟨5, 100000000⟩

/-- Decoding of an error body: the JSON null decodes into a nil pointer, the text
"not json" does not decode, anything else decodes into a 404 with that message;
every response below 400 reads without error. -/
def apiEnvJSON : ApiEnv where
  decodeHTTPError := fun body =>
    if body = "null" then .ok none
    else if body = "not json" then .error "invalid character"
    else .ok (some ⟨404, body⟩)
  readAll := fun body => body
  readValue := fun _ => none

/-- A transport whose every call is refused. -/
def transportRefused : Nat → Except TransportErr HTTPResp :=
  fun _ => .error ⟨.connRefused, "connection refused"⟩

/-- A transport whose first call meets a reset connection, whose second call times
out, and whose later calls succeed with status 200. -/
def transportResetThenTimeout : Nat → Except TransportErr HTTPResp :=
  fun k =>
    if k = 0 then .error ⟨.connReset, "connection reset by peer"⟩
    else if k = 1 then .error ⟨.other, "i/o timeout"⟩
    else .ok ⟨200, "ok"⟩

/-- A storage server whose files are all cached under /mnt and are served without
error. -/
def servEnvCached : ServEnv where
  doHashfindMountPath := fun _ => "/mnt"
  statNotExist := fun _ => false
  openErr := fun _ => none
  copyErr := fun _ => none

/-- A directory listing in which "a.txt" is a file without an inode yet, "dir" a
directory without an inode yet, and nothing else exists. -/
def lookupEntryNew : Inode → String → EntryLookupResult :=
  fun _ name =>
    if name = "a.txt" then .noInode false
    else if name = "dir" then .noInode true
    else .noEntry

/-! ## Frame lemmas of the primitives and of the commit paths -/


@[simp] theorem log_txns (s : TState) (e : Event) : (s.log e).txns = s.txns := rfl
@[simp] theorem log_locks (s : TState) (e : Event) : (s.log e).locks = s.locks := rfl
@[simp] theorem log_bmd (s : TState) (e : Event) : (s.log e).bmd = s.bmd := rfl
@[simp] theorem log_xreg (s : TState) (e : Event) : (s.log e).xreg = s.xreg := rfl
@[simp] theorem log_trace (s : TState) (e : Event) : (s.log e).trace = s.trace ++ [e] := rfl

@[simp] theorem Unlock_txns (s : TState) (h : NLP) : (Unlock s h).txns = s.txns := rfl
@[simp] theorem Unlock_bmd (s : TState) (h : NLP) : (Unlock s h).bmd = s.bmd := rfl
@[simp] theorem Unlock_xreg (s : TState) (h : NLP) : (Unlock s h).xreg = s.xreg := rfl
@[simp] theorem Unlock_locks (s : TState) (h : NLP) : (Unlock s h).locks = s.locks.erase h := rfl
@[simp] theorem Unlock_trace (s : TState) (h : NLP) :
    (Unlock s h).trace = s.trace ++ [Event.unlock h.bck] := rfl

@[simp] theorem unlockAll_nil (s : TState) : unlockAll s [] = s := rfl
@[simp] theorem unlockAll_cons (s : TState) (h : NLP) (l : List NLP) :
    unlockAll s (h :: l) = unlockAll (Unlock s h) l := rfl

@[simp] theorem unlockAll_txns (s : TState) (l : List NLP) : (unlockAll s l).txns = s.txns := by
  induction l generalizing s with
  | nil => rfl
  | cons h t ih => simp [ih]

@[simp] theorem unlockAll_bmd (s : TState) (l : List NLP) : (unlockAll s l).bmd = s.bmd := by
  induction l generalizing s with
  | nil => rfl
  | cons h t ih => simp [ih]

@[simp] theorem unlockAll_xreg (s : TState) (l : List NLP) : (unlockAll s l).xreg = s.xreg := by
  induction l generalizing s with
  | nil => rfl
  | cons h t ih => simp [ih]

theorem unlockAll_trace (s : TState) (l : List NLP) :
    (unlockAll s l).trace = s.trace ++ l.map (fun h => Event.unlock h.bck) := by
  induction l generalizing s with
  | nil => simp
  | cons h t ih => simp [ih]

theorem unlockAll_locks (s : TState) (l : List NLP) :
    (unlockAll s l).locks = l.foldl List.erase s.locks := by
  induction l generalizing s with
  | nil => rfl
  | cons h t ih => simp [ih]

theorem lookupTxn_uuid {txns : List Txn} {u : String} {txn : Txn}
    (h : lookupTxn txns u = some txn) : txn.uuid = u := by
  have := List.find?_some h
  simpa using this

/-- A successful poll leaves a BMD whose version has reached the expected one. -/
theorem pollBMD_reached (e d : Nat) (p : List (Nat × BMD)) (cur : BMD) (now : Nat)
    (h : (pollBMD e d cur now p).1 = true) : e ≤ (pollBMD e d cur now p).2.1.version := by
  induction p generalizing cur now with
  | nil =>
    by_cases hc : e ≤ cur.version
    · simp [pollBMD, hc]
    · simp [pollBMD, hc] at h
  | cons x rest ih =>
    obtain ⟨t, b⟩ := x
    by_cases hc : e ≤ cur.version
    · simp [pollBMD, hc]
    · by_cases ht : t < d
      · simp only [pollBMD, hc, ht, if_true, if_false] at h ⊢
        exact ih _ _ h
      · simp [pollBMD, hc, ht] at h

/-- A wait that returns nil has logged itself and observed the expected BMD version. -/
theorem wait_ok {s s' : TState} {txn : Txn} {timeout : Nat}
    (h : Transactions.wait s txn timeout = (s', none)) :
    s'.trace = s.trace ++ (Event.txnWait txn.uuid true
      :: txn.nlps.map (fun h => Event.unlock h.bck)) ∧
    txn.expectedBMDVersion ≤ s'.bmd.version := by
  simp only [Transactions.wait] at h
  split_ifs at h with h0 hr
  · simp at h
  · simp only [Prod.mk.injEq, and_true] at h
    subst h
    refine ⟨by simp [unlockAll_trace], ?_⟩
    simpa using pollBMD_reached _ _ _ _ _ hr
  · simp at h

theorem find_keep_ok {s s1 : TState} {u : String} {txn : Txn}
    (h : Transactions.find s u false = (s1, .ok txn)) :
    lookupTxn s.txns u = some txn ∧ s1 = s.log (.txnFind u false true) := by
  unfold Transactions.find at h
  split at h
  · simp at h
  · rename_i t ht
    simp at h
    obtain ⟨h1, h2⟩ := h
    subst h2
    exact ⟨ht, h1.symm⟩



theorem RenewX_bmd (s : TState) (k : String) (b : Bck) (u p : String) :
    (Registry.RenewX s k b u p).1.bmd = s.bmd := by
  unfold Registry.RenewX
  split
  · split <;> rfl
  · rfl

theorem RenewX_txns (s : TState) (k : String) (b : Bck) (u p : String) :
    (Registry.RenewX s k b u p).1.txns = s.txns := by
  unfold Registry.RenewX
  split
  · split <;> rfl
  · rfl

theorem RenewX_locks (s : TState) (k : String) (b : Bck) (u p : String) :
    (Registry.RenewX s k b u p).1.locks = s.locks := by
  unfold Registry.RenewX
  split
  · split <;> rfl
  · rfl

theorem RenewX_trace (s : TState) (k : String) (b : Bck) (u p : String) :
    ∃ ok, (Registry.RenewX s k b u p).1.trace = s.trace ++ [Event.renew k u p ok] := by
  unfold Registry.RenewX
  split
  · split
    · exact ⟨true, rfl⟩
    · exact ⟨false, rfl⟩
  · exact ⟨true, rfl⟩

@[simp] theorem DoAbort_bmd (s : TState) (k : String) (b : Bck) :
    (Registry.DoAbort s k b).bmd = s.bmd := rfl
@[simp] theorem DoAbort_txns (s : TState) (k : String) (b : Bck) :
    (Registry.DoAbort s k b).txns = s.txns := rfl
@[simp] theorem DoAbort_locks (s : TState) (k : String) (b : Bck) :
    (Registry.DoAbort s k b).locks = s.locks := rfl
@[simp] theorem DoAbort_trace (s : TState) (k : String) (b : Bck) :
    (Registry.DoAbort s k b).trace = s.trace ++ [Event.doAbort k b] := rfl

@[simp] theorem goRun_bmd (s : TState) (x : Xact) : (goRun s x).bmd = s.bmd := rfl
@[simp] theorem goRun_txns (s : TState) (x : Xact) : (goRun s x).txns = s.txns := rfl
@[simp] theorem goRun_locks (s : TState) (x : Xact) : (goRun s x).locks = s.locks := rfl
@[simp] theorem goRun_trace (s : TState) (x : Xact) :
    (goRun s x).trace = s.trace ++ [Event.run x.kind x.uuid] := rfl

@[simp] theorem addNotif_bmd (s : TState) (c : txnServerCtx) (x : Xact) :
    (addNotif s c x).bmd = s.bmd := by
  unfold addNotif; split <;> rfl
@[simp] theorem addNotif_txns (s : TState) (c : txnServerCtx) (x : Xact) :
    (addNotif s c x).txns = s.txns := by
  unfold addNotif; split <;> rfl
@[simp] theorem addNotif_locks (s : TState) (c : txnServerCtx) (x : Xact) :
    (addNotif s c x).locks = s.locks := by
  unfold addNotif; split <;> rfl
theorem addNotif_trace (s : TState) (c : txnServerCtx) (x : Xact) :
    (addNotif s c x).trace =
      s.trace ++ (if queryHas c.query URLParamNotifyMe then [Event.addNotif x.uuid] else []) := by
  unfold addNotif; split <;> simp

theorem newEvents_of_append {s s1 : TState} {evs : List Event}
    (h : s1.trace = s.trace ++ evs) : newEvents s s1 = evs := by
  simp [newEvents, h]

@[simp] theorem newEvents_self (s : TState) : newEvents s s = [] := by
  simp [newEvents]

/-- State after find (keep) and a successful wait, extended by further steps that
keep the BMD and only append to the trace. -/
theorem commitWaited_of_wait {s s1 s2 s' : TState} {u : String} {txn : Txn} {timeout : Nat}
    (hfind : Transactions.find s u false = (s1, .ok txn))
    (hwait : Transactions.wait s1 txn timeout = (s2, none))
    (hbmd : s'.bmd = s2.bmd) (htrace : ∃ evs, s'.trace = s2.trace ++ evs) :
    CommitWaited s u s' := by
  obtain ⟨hl, hs1⟩ := find_keep_ok hfind
  obtain ⟨ht, hv⟩ := wait_ok hwait
  obtain ⟨evs, he⟩ := htrace
  have hu := lookupTxn_uuid hl
  have hall : s'.trace = s.trace ++ ([Event.txnFind u false true] ++ (Event.txnWait txn.uuid true
      :: txn.nlps.map (fun h => Event.unlock h.bck)) ++ evs) := by
    rw [he, ht, hs1, log_trace]; simp
  refine ⟨txn, hl, ?_, ?_⟩
  · rw [newEvents_of_append hall]; simp [hu]
  · rw [hbmd]; exact hv

theorem ActCommit_ne_ActBegin : ActCommit ≠ ActBegin := by decide
theorem ActCommit_ne_ActAbort : ActCommit ≠ ActAbort := by decide
theorem ActAbort_ne_ActBegin : ActAbort ≠ ActBegin := by decide

theorem RenewX_eq {s s' : TState} {k : String} {b : Bck} {u p : String} {r : Except TxnErr Xact}
    (h : Registry.RenewX s k b u p = (s', r)) :
    s'.bmd = s.bmd ∧ s'.txns = s.txns ∧ s'.locks = s.locks ∧
      ∃ ok, s'.trace = s.trace ++ [Event.renew k u p ok] := by
  have h1 : s' = (Registry.RenewX s k b u p).1 := by rw [h]
  subst h1
  exact ⟨RenewX_bmd .., RenewX_txns .., RenewX_locks .., RenewX_trace ..⟩

theorem createBucket_commit_waits (env : Env) (s s' : TState) (c : txnServerCtx)
    (hphase : c.phase = ActCommit) (hok : createBucket env s c = (s', .ok)) :
    CommitWaited s c.uuid s' := by
  unfold createBucket at hok
  simp only [hphase, ActCommit_ne_ActBegin, ActCommit_ne_ActAbort, if_false, if_true] at hok
  split at hok
  · simp at hok
  · rename_i s1 txn hfind
    split at hok
    · simp at hok
    · rename_i s2 hwait
      simp only [Prod.mk.injEq, and_true] at hok
      subst hok
      exact commitWaited_of_wait hfind hwait rfl ⟨[], by simp⟩

theorem makeNCopies_commit_waits (env : Env) (s s' : TState) (c : txnServerCtx)
    (hphase : c.phase = ActCommit) (hok : makeNCopies env s c = (s', .ok)) :
    CommitWaited s c.uuid s' := by
  unfold makeNCopies at hok
  split at hok
  · simp at hok
  · simp only [hphase, ActCommit_ne_ActBegin, ActCommit_ne_ActAbort, if_false, if_true] at hok
    split at hok
    · simp at hok
    · rename_i s1 txn hfind
      split at hok
      · split_ifs at hok
        · simp at hok
        · split at hok
          · simp at hok
          · rename_i s2 hwait
            split at hok
            · simp at hok
            · rename_i s3 xact hrenew
              obtain ⟨hb, -, -, ok, ht⟩ := RenewX_eq hrenew
              simp only [Prod.mk.injEq, and_true] at hok
              subst hok
              refine commitWaited_of_wait hfind hwait (by simp [hb]) ?_
              simp only [goRun_trace, addNotif_trace, DoAbort_trace, ht, List.append_assoc]
              exact ⟨_, rfl⟩
      · simp at hok

theorem setBucketPropsEC_ok {env : Env} {s s' : TState} {c : txnServerCtx}
    {bprops : Option BucketProps} {nprops : BucketProps}
    (h : setBucketPropsEC env s c bprops nprops = (s', .ok)) :
    s'.bmd = s.bmd ∧ ∃ evs, s'.trace = s.trace ++ evs := by
  unfold setBucketPropsEC at h
  split_ifs at h
  · split at h
    · simp at h
    · rename_i s1 xact hrenew
      obtain ⟨hb, -, -, ok, ht⟩ := RenewX_eq hrenew
      simp only [Prod.mk.injEq, and_true] at h
      subst h
      refine ⟨by simp [hb], ?_⟩
      simp only [goRun_trace, addNotif_trace, DoAbort_trace, ht, List.append_assoc]
      exact ⟨_, rfl⟩
  · simp only [Prod.mk.injEq, and_true] at h
    subst h
    exact ⟨rfl, [], by simp⟩

theorem setBucketProps_commit_waits (env : Env) (s s' : TState) (c : txnServerCtx)
    (hphase : c.phase = ActCommit) (hok : setBucketProps env s c = (s', .ok)) :
    CommitWaited s c.uuid s' := by
  unfold setBucketProps at hok
  split at hok
  · simp at hok
  · simp only [hphase, ActCommit_ne_ActBegin, ActCommit_ne_ActAbort, if_false, if_true] at hok
    split at hok
    · simp at hok
    · rename_i s1 txn hfind
      split at hok
      · split at hok
        · simp at hok
        · rename_i s2 hwait
          split_ifs at hok
          · split at hok
            · simp at hok
            · rename_i s3 xact hrenew
              obtain ⟨hb, -, -, ok, ht⟩ := RenewX_eq hrenew
              obtain ⟨hb2, evs, ht2⟩ := setBucketPropsEC_ok hok
              refine commitWaited_of_wait hfind hwait (by simp [hb2, hb]) ?_
              rw [ht2]
              simp only [goRun_trace, addNotif_trace, DoAbort_trace, ht, List.append_assoc]
              exact ⟨_, rfl⟩
          · obtain ⟨hb2, evs, ht2⟩ := setBucketPropsEC_ok hok
            exact commitWaited_of_wait hfind hwait hb2 ⟨_, ht2⟩
      · simp at hok

theorem renameBucket_commit_waits (env : Env) (s s' : TState) (c : txnServerCtx)
    (hphase : c.phase = ActCommit) (hok : renameBucket env s c = (s', .ok)) :
    CommitWaited s c.uuid s' := by
  unfold renameBucket at hok
  split at hok
  · simp at hok
  · simp only [hphase, ActCommit_ne_ActBegin, ActCommit_ne_ActAbort, if_false, if_true] at hok
    split at hok
    · simp at hok
    · rename_i s1 txn hfind
      split at hok
      · split at hok
        · simp at hok
        · rename_i s2 hwait
          split at hok
          · simp at hok
          · rename_i s3 xact hrenew
            obtain ⟨hb, -, -, ok, ht⟩ := RenewX_eq hrenew
            split at hok
            · simp at hok
            · simp only [Prod.mk.injEq, and_true] at hok
              subst hok
              refine commitWaited_of_wait hfind hwait (by simp [hb]) ?_
              simp only [goRun_trace, addNotif_trace, log_trace, ht, List.append_assoc]
              exact ⟨_, rfl⟩
      · simp at hok

theorem copyBucket_commit_waits (env : Env) (s s' : TState) (c : txnServerCtx)
    (hphase : c.phase = ActCommit) (hq : queryGet c.query URLParamWaitMetasync ≠ "")
    (hok : copyBucket env s c = (s', .ok)) :
    CommitWaited s c.uuid s' := by
  unfold copyBucket at hok
  split at hok
  · simp at hok
  · simp only [hphase, ActCommit_ne_ActBegin, ActCommit_ne_ActAbort, if_false, if_true] at hok
    split at hok
    · simp at hok
    · rename_i s1 txn hfind
      split at hok
      · simp only [hq, ne_eq, not_false_eq_true, if_true] at hok
        split at hok
        · simp at hok
        · rename_i s2 hwait
          split at hok
          · simp at hok
          · rename_i s3 xact hrenew
            obtain ⟨hb, -, -, ok, ht⟩ := RenewX_eq hrenew
            simp only [Prod.mk.injEq, and_true] at hok
            subst hok
            refine commitWaited_of_wait hfind hwait (by simp [hb]) ?_
            simp only [goRun_trace, addNotif_trace, ht, List.append_assoc]
            exact ⟨_, rfl⟩
      · simp at hok


theorem ActBegin_ne_ActAbort : ActBegin ≠ ActAbort := by decide
theorem ActBegin_ne_ActCommit : ActBegin ≠ ActCommit := by decide

/-- What TryLock does to the state, by outcome. -/
theorem TryLock_eq {s s1 : TState} {b : Bck} {acq : Bool} (h : TryLock s b = (s1, acq)) :
    s1.txns = s.txns ∧ s1.bmd = s.bmd ∧ s1.xreg = s.xreg ∧
    s1.trace = s.trace ++ [Event.tryLock b acq] ∧
    s1.locks = (if acq then ⟨b, true⟩ :: s.locks else s.locks) ∧
    (acq = false ↔ s.locks.any (fun h => h.bck == b) = true) := by
  unfold TryLock at h
  split_ifs at h with hb
  · simp only [Prod.mk.injEq] at h
    obtain ⟨h1, h2⟩ := h
    subst h1; subst h2
    simp [hb]
  · simp only [Prod.mk.injEq] at h
    obtain ⟨h1, h2⟩ := h
    subst h1; subst h2
    simp [hb]

/-- What TryRLock does to the state, by outcome. -/
theorem TryRLock_eq {s s1 : TState} {b : Bck} {acq : Bool} (h : TryRLock s b = (s1, acq)) :
    s1.txns = s.txns ∧ s1.bmd = s.bmd ∧ s1.xreg = s.xreg ∧
    s1.trace = s.trace ++ [Event.tryRLock b acq] ∧
    s1.locks = (if acq then ⟨b, false⟩ :: s.locks else s.locks) ∧
    (acq = false ↔ s.locks.any (fun h => h.bck == b && h.exclusive) = true) := by
  unfold TryRLock at h
  split_ifs at h with hb
  · simp only [Prod.mk.injEq] at h
    obtain ⟨h1, h2⟩ := h
    subst h1; subst h2
    simp [hb]
  · simp only [Prod.mk.injEq] at h
    obtain ⟨h1, h2⟩ := h
    subst h1; subst h2
    simp [hb]

/-- What transactions.begin does to the state, by outcome. -/
theorem begin_eq {s s1 : TState} {txn : Txn} {r : Option TxnErr}
    (h : Transactions.begin s txn = (s1, r)) :
    s1.locks = s.locks ∧ s1.bmd = s.bmd ∧ s1.xreg = s.xreg ∧
    s1.trace = s.trace ++ [Event.txnBegin txn.uuid r.isNone] ∧
    (r ≠ none → s1.txns = s.txns) ∧
    (r = none → lookupTxn s.txns txn.uuid = none ∧
      s1.txns = s.txns ++ [{ txn with started := s.now,
                                      expectedBMDVersion := s.bmd.version + 1 }]) := by
  unfold Transactions.begin at h
  split at h
  · simp only [Prod.mk.injEq] at h
    obtain ⟨h1, h2⟩ := h
    subst h1; subst h2
    simp
  · rename_i hl
    simp only [Prod.mk.injEq] at h
    obtain ⟨h1, h2⟩ := h
    subst h1; subst h2
    simp [hl]

@[simp] theorem setNlps_locks (s : TState) (u : String) (l : List NLP) :
    (Transactions.setNlps s u l).locks = s.locks := rfl
@[simp] theorem setNlps_bmd (s : TState) (u : String) (l : List NLP) :
    (Transactions.setNlps s u l).bmd = s.bmd := rfl
@[simp] theorem setNlps_trace (s : TState) (u : String) (l : List NLP) :
    (Transactions.setNlps s u l).trace = s.trace := rfl
@[simp] theorem setNlps_xreg (s : TState) (u : String) (l : List NLP) :
    (Transactions.setNlps s u l).xreg = s.xreg := rfl

/-- While a rebalance or a resilver runs, coExists returns an error. -/
theorem coExists_rejects (env : Env) (bck : ClusterBck) (msg : AisMsg)
    (hbusy : env.rebXact ≠ none ∨ env.resilverXact ≠ none) :
    ∃ e, coExists env bck msg = some e := by
  unfold coExists
  split
  · exact ⟨_, rfl⟩
  · split
    · exact ⟨_, rfl⟩
    · rename_i h1 _ h2
      rcases hbusy with h | h
      · exact absurd h1 h
      · exact absurd h2 h

theorem lookupTxn_none_iff {txns : List Txn} {u : String} :
    lookupTxn txns u = none ↔ ∀ x ∈ txns, x.uuid ≠ u := by
  simp [lookupTxn, List.find?_eq_none]

theorem lookupTxn_append_new {txns : List Txn} {u : String} {txn : Txn}
    (hnone : lookupTxn txns u = none) (hu : txn.uuid = u) :
    lookupTxn (txns ++ [txn]) u = some txn := by
  unfold lookupTxn at hnone ⊢
  rw [List.find?_append, hnone]
  simp [hu]

theorem filter_append_new {txns : List Txn} {u : String} {txn : Txn}
    (hnone : lookupTxn txns u = none) (hu : txn.uuid = u) :
    (txns ++ [txn]).filter (fun x => x.uuid != u) = txns := by
  rw [lookupTxn_none_iff] at hnone
  rw [List.filter_append]
  have h1 : txns.filter (fun x => x.uuid != u) = txns := by
    rw [List.filter_eq_self]
    intro x hx
    simpa using hnone x hx
  simp [h1, hu]

theorem setNlps_append_new {txns : List Txn} {u : String} {txn : Txn} (l : List NLP)
    (hnone : lookupTxn txns u = none) (hu : txn.uuid = u) :
    (txns ++ [txn]).map (fun x => if x.uuid = u then { x with nlps := l } else x) =
      txns ++ [{ txn with nlps := l }] := by
  rw [lookupTxn_none_iff] at hnone
  rw [List.map_append]
  have h1 : txns.map (fun x => if x.uuid = u then { x with nlps := l } else x) = txns := by
    conv_rhs => rw [← List.map_id txns]
    apply List.map_congr_left
    intro x hx
    simp [hnone x hx]
  simp [h1, hu]

/-- Releasing, in order, locks that were acquired in that order on top of `L`
gives back `L`. -/
theorem foldl_erase_reverse (nlps : List NLP) (L : List NLP) (hnd : nlps.Nodup) :
    nlps.foldl List.erase (nlps.reverse ++ L) = L := by
  induction nlps generalizing L with
  | nil => rfl
  | cons a t ih =>
    have ha : a ∉ t := (List.nodup_cons.mp hnd).1
    have ht : t.Nodup := (List.nodup_cons.mp hnd).2
    have h1 : ((a :: t).reverse ++ L).erase a = t.reverse ++ L := by
      rw [List.reverse_cons, List.append_assoc, List.erase_append_right _ (by simpa using ha)]
      simp
    simp only [List.foldl_cons, h1]
    exact ih L ht

/-- A begin that succeeded, followed by the removal of its transaction, leaves the
table and the held name-locks as they were before the begin. -/
theorem find_remove_after_begin {s s1 : TState} {u : String} {nlps : List NLP}
    (h : BeganWith s s1 u nlps) :
    (Transactions.find s1 u true).1.txns = s.txns ∧
    (Transactions.find s1 u true).1.locks = s.locks := by
  obtain ⟨hnone, ⟨txn, hu, hn, htx⟩, hl, hnd, -⟩ := h
  have hlook : lookupTxn s1.txns u = some txn := by
    rw [htx]; exact lookupTxn_append_new hnone hu
  unfold Transactions.find
  rw [hlook]
  simp only [if_true, unlockAll_txns, unlockAll_locks, log_txns, log_locks]
  refine ⟨?_, ?_⟩
  · rw [htx]; exact filter_append_new hnone hu
  · rw [hn, hl]; exact foldl_erase_reverse nlps s.locks hnd

/-- Locks taken in order `nlps`, then a begin that is accepted, then the locks
recorded in the transaction: the shape `BeganWith`. -/
theorem beganWith_of_steps {s s2 s3 : TState} {txn : Txn} {nlps : List NLP}
    (htx2 : s2.txns = s.txns) (hbmd2 : s2.bmd = s.bmd)
    (hlk2 : s2.locks = nlps.reverse ++ s.locks) (hnd : nlps.Nodup)
    (hb : Transactions.begin s2 txn = (s3, none)) :
    BeganWith s (Transactions.setNlps s3 txn.uuid nlps) txn.uuid nlps := by
  obtain ⟨hl3, hbmd, -, -, -, hok⟩ := begin_eq hb
  obtain ⟨hnone, htx⟩ := hok rfl
  rw [htx2] at hnone htx
  refine ⟨hnone, ⟨{ txn with started := s2.now, expectedBMDVersion := s2.bmd.version + 1,
                             nlps := nlps }, rfl, rfl, ?_⟩, ?_, hnd, ?_⟩
  · simp only [Transactions.setNlps, htx]
    exact setNlps_append_new _ hnone rfl
  · simp [hl3, hlk2]
  · simp [hbmd, hbmd2]

/-- A wait that fails has logged itself and left the table as it was. -/
theorem wait_err {s s' : TState} {txn : Txn} {timeout : Nat} {e : TxnErr}
    (h : Transactions.wait s txn timeout = (s', some e)) :
    s'.trace = s.trace ++ [Event.txnWait txn.uuid false] ∧ s'.txns = s.txns ∧
      s'.xreg = s.xreg := by
  simp only [Transactions.wait] at h
  split_ifs at h with h0 hr
  · simp only [Prod.mk.injEq] at h
    rw [← h.1]
    exact ⟨rfl, rfl, rfl⟩
  · simp at h
  · simp only [Prod.mk.injEq] at h
    rw [← h.1]
    exact ⟨rfl, rfl, rfl⟩

theorem find_keep_found {s : TState} {u : String} {txn : Txn}
    (h : lookupTxn s.txns u = some txn) :
    Transactions.find s u false = (s.log (.txnFind u false true), .ok txn) := by
  simp [Transactions.find, h]

theorem find_remove_found {s : TState} {u : String} {txn : Txn}
    (h : lookupTxn s.txns u = some txn) :
    (Transactions.find s u true).1.trace =
      s.trace ++ (Event.txnFind u true true :: txn.nlps.map (fun h => Event.unlock h.bck)) ∧
    (Transactions.find s u true).1.txns = s.txns.filter (fun x => x.uuid != u) ∧
    (Transactions.find s u true).1.xreg = s.xreg := by
  simp [Transactions.find, h, unlockAll_trace]

theorem lookupTxn_filter_ne (txns : List Txn) (u : String) :
    lookupTxn (txns.filter (fun x => x.uuid != u)) u = none := by
  rw [lookupTxn_none_iff]
  intro x hx
  simpa using (List.mem_filter.mp hx).2

/-- The xaction that a successful renewal returns has the kind, the UUID and the
bucket that were asked for. -/
theorem RenewX_ok_xact {s s' : TState} {k : String} {b : Bck} {u p : String} {x : Xact}
    (h : Registry.RenewX s k b u p = (s', .ok x)) :
    x.kind = k ∧ x.uuid = u ∧ x.bck = b ∧
      s'.trace = s.trace ++ [Event.renew k u p true] := by
  unfold Registry.RenewX at h
  split at h
  · rename_i y hy
    have hy2 := List.find?_some hy
    simp only [Bool.and_eq_true, beq_iff_eq] at hy2
    split_ifs at h with hu
    · simp only [Prod.mk.injEq, Except.ok.injEq] at h
      obtain ⟨h1, h2⟩ := h
      subst h1; subst h2
      exact ⟨hy2.1.1, hu, hy2.1.2, rfl⟩
    · simp at h
  · simp only [Prod.mk.injEq, Except.ok.injEq] at h
    obtain ⟨h1, h2⟩ := h
    subst h1; subst h2
    exact ⟨rfl, rfl, rfl, rfl⟩

theorem RenewX_err_trace {s s' : TState} {k : String} {b : Bck} {u p : String} {e : TxnErr}
    (h : Registry.RenewX s k b u p = (s', .error e)) :
    s'.trace = s.trace ++ [Event.renew k u p false] ∧ s'.txns = s.txns := by
  unfold Registry.RenewX at h
  split at h
  · split_ifs at h with hu
    · simp at h
    · simp only [Prod.mk.injEq] at h
      rw [← h.1]
      exact ⟨rfl, rfl⟩
  · simp at h

/-! ## C1: commit waits for the BMD -/

/-- C1 (as amended): for create-bucket, make-n-copies, set-bprops and rename-bucket,
and for copy-bucket when the query carries a non-empty wait-metasync parameter,
every commit-phase call dispatched by txnHandler that returns no error has found
the transaction, has called transactions.wait on it with success, and leaves the
local BMD at a version that is at least the expected one of the transaction. -/
theorem commit_ok_waited_for_bmd (env : Env) (s s1 : TState) (c : txnServerCtx)
    (hphase : c.phase = ActCommit) (hec : c.msg.action ≠ ActECEncode)
    (hcp : c.msg.action = ActCopyBucket → queryGet c.query URLParamWaitMetasync ≠ "")
    (hok : txnHandler env s c = (s1, .ok)) :
    CommitWaited s c.uuid s1 := by
  unfold txnHandler at hok
  split_ifs at hok with h1 h2 h3 h4 h5
  · exact createBucket_commit_waits env s s1 c hphase hok
  · exact makeNCopies_commit_waits env s s1 c hphase hok
  · exact setBucketProps_commit_waits env s s1 c hphase hok
  · exact renameBucket_commit_waits env s s1 c hphase hok
  · exact copyBucket_commit_waits env s s1 c hphase (hcp h5) hok
  · simp at hok

/-- C1, witness: create-bucket u1 begins at BMD version 10; version 11 arrives by
metasync at time 2; the commit with timeout 5 returns nil, having waited. -/
theorem commit_ok_waited_for_bmd_witness :
    CommitWaited
      { (txnHandler envIdle stFresh (reqOf ActCreateLB ActBegin "u1")).1 with
        metasync := [(2, ⟨11, [(bckSrc, propsSrc)]⟩)] }
      "u1"
      (txnHandler envIdle
        { (txnHandler envIdle stFresh (reqOf ActCreateLB ActBegin "u1")).1 with
          metasync := [(2, ⟨11, [(bckSrc, propsSrc)]⟩)] }
        (reqOf ActCreateLB ActCommit "u1")).1 :=
  commit_ok_waited_for_bmd envIdle _ _ (reqOf ActCreateLB ActCommit "u1")
    (by decide) (by decide) (by decide) (by decide)

/-- C1, counterexample: the commit of copy-bucket u1 without the wait-metasync
parameter returns nil although transactions.wait was never called, and the local
BMD is still at version 10 while the transaction expects version 11. -/
theorem copy_commit_ok_without_wait :
    (reqOf ActCopyBucket ActCommit "u1").phase = ActCommit ∧
    (txnHandler envIdle stCopyOpen (reqOf ActCopyBucket ActCommit "u1")).2 = Res.ok ∧
    (∀ reached, Event.txnWait "u1" reached ∉
      newEvents stCopyOpen (txnHandler envIdle stCopyOpen (reqOf ActCopyBucket ActCommit "u1")).1) ∧
    (lookupTxn stCopyOpen.txns "u1").map Txn.expectedBMDVersion = some 11 ∧
    (txnHandler envIdle stCopyOpen (reqOf ActCopyBucket ActCommit "u1")).1.bmd.version = 10 ∧
    ¬ CommitWaited stCopyOpen "u1"
      (txnHandler envIdle stCopyOpen (reqOf ActCopyBucket ActCommit "u1")).1 := by
  refine ⟨by decide, by decide, by decide, by decide, by decide, ?_⟩
  rintro ⟨txn, -, hmem, -⟩
  revert hmem
  decide

/-! ## C2: no bucket work begins during a rebalance or a resilver -/

theorem makeNCopies_begin_rejected (env : Env) (s : TState) (c : txnServerCtx)
    (hphase : c.phase = ActBegin)
    (hbusy : env.rebXact ≠ none ∨ env.resilverXact ≠ none) :
    ∃ e, makeNCopies env s c = (s, .err e) := by
  unfold makeNCopies
  split
  · exact ⟨_, rfl⟩
  · rename_i b props _
    obtain ⟨e, he⟩ := coExists_rejects env ⟨b, some props⟩ c.msg hbusy
    simp only [hphase, if_true]
    have hv : ∃ cur new e1, validateMakeNCopies env ⟨b, some props⟩ c.msg =
        .ret (cur, new, some e1) := by
      simp only [validateMakeNCopies, he]
      cases hp : c.msg.parseNCopies.2 with
      | some e1 => exact ⟨props.mirror.copies, c.msg.parseNCopies.1, e1, by simp⟩
      | none =>
        cases hn : env.validateNCopies c.msg.parseNCopies.1 with
        | some e1 => exact ⟨props.mirror.copies, c.msg.parseNCopies.1, e1, by simp⟩
        | none => exact ⟨props.mirror.copies, c.msg.parseNCopies.1, e, by simp⟩
    obtain ⟨cur, new, e1, hv⟩ := hv
    rw [hv]
    exact ⟨_, rfl⟩

theorem validateBckRenTxn_rejects (env : Env) (bmd : BMD) (bck : ClusterBck) (msg : AisMsg)
    (hbusy : env.rebXact ≠ none ∨ env.resilverXact ≠ none) :
    ∃ e, validateBckRenTxn env bmd bck msg = (none, some e) := by
  obtain ⟨e, he⟩ := coExists_rejects env bck msg hbusy
  unfold validateBckRenTxn
  split
  · exact ⟨_, rfl⟩
  · split
    · exact ⟨_, rfl⟩
    · simp only [he]
      exact ⟨_, rfl⟩

theorem validateBckCpTxn_rejects (env : Env) (bmd : BMD) (bck : ClusterBck) (msg : AisMsg)
    (hbusy : env.rebXact ≠ none ∨ env.resilverXact ≠ none) :
    ∃ e, validateBckCpTxn env bmd bck msg = (none, some e) := by
  obtain ⟨e, he⟩ := coExists_rejects env bck msg hbusy
  unfold validateBckCpTxn
  split
  · exact ⟨_, rfl⟩
  · split
    · exact ⟨_, rfl⟩
    · simp only [he]
      exact ⟨_, rfl⟩

theorem renameBucket_begin_rejected (env : Env) (s : TState) (c : txnServerCtx)
    (hphase : c.phase = ActBegin)
    (hbusy : env.rebXact ≠ none ∨ env.resilverXact ≠ none) :
    ∃ e, renameBucket env s c = (s, .err e) := by
  unfold renameBucket
  split
  · exact ⟨_, rfl⟩
  · rename_i b props _
    obtain ⟨e, he⟩ := validateBckRenTxn_rejects env s.bmd ⟨b, some props⟩ c.msg hbusy
    simp only [hphase, if_true, he]
    exact ⟨_, rfl⟩

theorem copyBucket_begin_rejected (env : Env) (s : TState) (c : txnServerCtx)
    (hphase : c.phase = ActBegin)
    (hbusy : env.rebXact ≠ none ∨ env.resilverXact ≠ none) :
    ∃ e, copyBucket env s c = (s, .err e) := by
  unfold copyBucket
  split
  · exact ⟨_, rfl⟩
  · rename_i b props _
    obtain ⟨e, he⟩ := validateBckCpTxn_rejects env s.bmd ⟨b, some props⟩ c.msg hbusy
    simp only [hphase, if_true, he]
    exact ⟨_, rfl⟩

theorem ecEncode_begin_rejected (env : Env) (s : TState) (c : txnServerCtx)
    (hphase : c.phase = ActBegin)
    (hbusy : env.rebXact ≠ none ∨ env.resilverXact ≠ none) :
    ∃ e, ecEncode env s c = (s, .err e) := by
  unfold ecEncode
  split
  · exact ⟨_, rfl⟩
  · rename_i b props _
    obtain ⟨e, he⟩ := coExists_rejects env ⟨b, some props⟩ c.msg hbusy
    have hv : ∃ e1, validateEcEncode env ⟨b, some props⟩ c.msg = some e1 := by
      unfold validateEcEncode
      split
      · exact ⟨_, rfl⟩
      · exact ⟨e, he⟩
    obtain ⟨e1, hv⟩ := hv
    simp only [hphase, if_true, hv]
    exact ⟨_, rfl⟩

/-- C2 (as amended): for make-n-copies, rename-bucket, copy-bucket and ec-encode, a
begin-phase call made while a cluster-wide rebalance or a local resilver is
active returns an error and leaves the state of the target as it was: no
transaction is registered, no name-lock is taken, nothing is called. -/
theorem begin_rejected_during_rebalance (env : Env) (s : TState) (c : txnServerCtx)
    (hphase : c.phase = ActBegin)
    (hact : c.msg.action = ActMakeNCopies ∨ c.msg.action = ActRenameLB ∨
      c.msg.action = ActCopyBucket ∨ c.msg.action = ActECEncode)
    (hbusy : env.rebXact ≠ none ∨ env.resilverXact ≠ none) :
    ∃ e, txnHandler env s c = (s, .err e) := by
  unfold txnHandler
  rcases hact with h | h | h | h
  · rw [h]
    simpa [ActMakeNCopies, ActCreateLB, ActRegisterCB] using
      makeNCopies_begin_rejected env s c hphase hbusy
  · rw [h]
    simpa [ActMakeNCopies, ActCreateLB, ActRegisterCB, ActRenameLB, ActSetBprops,
      ActResetBprops] using renameBucket_begin_rejected env s c hphase hbusy
  · rw [h]
    simpa [ActMakeNCopies, ActCreateLB, ActRegisterCB, ActRenameLB, ActSetBprops,
      ActResetBprops, ActCopyBucket] using copyBucket_begin_rejected env s c hphase hbusy
  · rw [h]
    simpa [ActMakeNCopies, ActCreateLB, ActRegisterCB, ActRenameLB, ActSetBprops,
      ActResetBprops, ActCopyBucket, ActECEncode] using
      ecEncode_begin_rejected env s c hphase hbusy

/-- C2, witness: copy-bucket u1 begun during a rebalance is rejected and the
target is left as it was. -/
theorem begin_rejected_during_rebalance_witness :
    ∃ e, txnHandler envRebalancing stFresh (reqOf ActCopyBucket ActBegin "u1") =
      (stFresh, .err e) :=
  begin_rejected_during_rebalance envRebalancing stFresh (reqOf ActCopyBucket ActBegin "u1")
    (by decide) (by decide) (by decide)

/-- C2, counterexample: during a rebalance the begin of create-bucket u1 returns
nil and registers the transaction u1, and so does the begin of set-bprops u2. -/
theorem create_and_setprops_begin_during_rebalance :
    envRebalancing.rebXact ≠ none ∧
    (txnHandler envRebalancing stFresh (reqOf ActCreateLB ActBegin "u1")).2 = Res.ok ∧
    (lookupTxn (txnHandler envRebalancing stFresh (reqOf ActCreateLB ActBegin "u1")).1.txns
      "u1").isSome = true ∧
    (txnHandler envRebalancing stFresh (reqOf ActSetBprops ActBegin "u2")).2 = Res.ok ∧
    (lookupTxn (txnHandler envRebalancing stFresh (reqOf ActSetBprops ActBegin "u2")).1.txns
      "u2").isSome = true := by
  decide

/-! ## C3: a failed begin holds no name-lock -/

theorem makeNCopies_begin_err_locks (env : Env) (s s1 : TState) (c : txnServerCtx) (e : TxnErr)
    (hphase : c.phase = ActBegin) (h : makeNCopies env s c = (s1, .err e)) :
    s1.locks = s.locks := by
  unfold makeNCopies at h
  split at h
  · simp only [Prod.mk.injEq] at h; rw [← h.1]
  · simp only [hphase, if_true] at h
    split at h
    · simp at h
    · simp only [Prod.mk.injEq] at h; rw [← h.1]
    · split at h
      · rename_i s2 hl
        simp only [Prod.mk.injEq] at h; rw [← h.1]
        simpa using (TryLock_eq hl).2.2.2.2.1
      · rename_i s2 hl
        have hlk := (TryLock_eq hl).2.2.2.2.1
        split at h
        · rename_i s3 err hb
          simp only [Prod.mk.injEq] at h; rw [← h.1]
          simp [(begin_eq hb).1, hlk]
        · simp at h

theorem setBucketProps_begin_err_locks (env : Env) (s s1 : TState) (c : txnServerCtx)
    (e : TxnErr) (hphase : c.phase = ActBegin) (h : setBucketProps env s c = (s1, .err e)) :
    s1.locks = s.locks := by
  unfold setBucketProps at h
  split at h
  · simp only [Prod.mk.injEq] at h; rw [← h.1]
  · simp only [hphase, if_true] at h
    split at h
    · simp at h
    · simp only [Prod.mk.injEq] at h; rw [← h.1]
    · split at h
      · rename_i s2 hl
        simp only [Prod.mk.injEq] at h; rw [← h.1]
        simpa using (TryLock_eq hl).2.2.2.2.1
      · rename_i s2 hl
        have hlk := (TryLock_eq hl).2.2.2.2.1
        split at h
        · rename_i s3 err hb
          simp only [Prod.mk.injEq] at h; rw [← h.1]
          simp [(begin_eq hb).1, hlk]
        · simp at h

theorem renameBucket_begin_err_locks (env : Env) (s s1 : TState) (c : txnServerCtx)
    (e : TxnErr) (hphase : c.phase = ActBegin) (h : renameBucket env s c = (s1, .err e)) :
    s1.locks = s.locks := by
  unfold renameBucket at h
  split at h
  · simp only [Prod.mk.injEq] at h; rw [← h.1]
  · simp only [hphase, if_true] at h
    split at h
    · simp only [Prod.mk.injEq] at h; rw [← h.1]
    · simp at h
    · split at h
      · rename_i s2 hl
        simp only [Prod.mk.injEq] at h; rw [← h.1]
        simpa using (TryLock_eq hl).2.2.2.2.1
      · rename_i s2 hl
        have hlk := (TryLock_eq hl).2.2.2.2.1
        split at h
        · rename_i s3 hl2
          simp only [Prod.mk.injEq] at h; rw [← h.1]
          have hlk2 := (TryLock_eq hl2).2.2.2.2.1
          simp [hlk2, hlk]
        · rename_i s3 hl2
          have hlk2 := (TryLock_eq hl2).2.2.2.2.1
          split at h
          · rename_i s4 err hb
            simp only [Prod.mk.injEq] at h; rw [← h.1]
            simp [(begin_eq hb).1, hlk2, hlk]
          · simp at h

theorem copyBucket_begin_err_locks (env : Env) (s s1 : TState) (c : txnServerCtx)
    (e : TxnErr) (hphase : c.phase = ActBegin) (h : copyBucket env s c = (s1, .err e)) :
    s1.locks = s.locks := by
  unfold copyBucket at h
  split at h
  · simp only [Prod.mk.injEq] at h; rw [← h.1]
  · simp only [hphase, if_true] at h
    split at h
    · simp only [Prod.mk.injEq] at h; rw [← h.1]
    · simp at h
    · split at h
      · rename_i s2 hl
        simp only [Prod.mk.injEq] at h; rw [← h.1]
        simpa using (TryRLock_eq hl).2.2.2.2.1
      · rename_i s2 hl
        have hlk := (TryRLock_eq hl).2.2.2.2.1
        split at h
        · rename_i s3 hl2
          simp only [Prod.mk.injEq] at h; rw [← h.1]
          have hlk2 := (TryLock_eq hl2).2.2.2.2.1
          simp [hlk2, hlk]
        · rename_i s3 hl2
          have hlk2 := (TryLock_eq hl2).2.2.2.2.1
          split at h
          · rename_i s4 err hb
            simp only [Prod.mk.injEq] at h; rw [← h.1]
            simp [(begin_eq hb).1, hlk2, hlk]
          · simp at h

/-- C3: whenever the begin phase of makeNCopies, setBucketProps, renameBucket or
copyBucket returns an error (failed initialisation or validation, a failed
TryLock or TryRLock on either bucket, or a begin rejected by the transaction
table), the name-locks held after the call are exactly those held before it. -/
theorem begin_error_releases_locks (env : Env) (s s1 : TState) (c : txnServerCtx) (e : TxnErr)
    (hphase : c.phase = ActBegin)
    (hcall : makeNCopies env s c = (s1, .err e) ∨ setBucketProps env s c = (s1, .err e) ∨
      renameBucket env s c = (s1, .err e) ∨ copyBucket env s c = (s1, .err e)) :
    s1.locks = s.locks := by
  rcases hcall with h | h | h | h
  · exact makeNCopies_begin_err_locks env s s1 c e hphase h
  · exact setBucketProps_begin_err_locks env s s1 c e hphase h
  · exact renameBucket_begin_err_locks env s s1 c e hphase h
  · exact copyBucket_begin_err_locks env s s1 c e hphase h

/-- C3, witness: rename of src to dst while another holder has the lock of dst;
the lock of src is taken, the lock of dst is refused, the lock of src is
released, and the held locks are again those of the other holder alone. -/
theorem begin_error_releases_locks_witness :
    (renameBucket envIdle stDstBusy (reqOf ActRenameLB ActBegin "u1")).2 =
      Res.err (.bucketIsBusy bckDst "t1") ∧
    (renameBucket envIdle stDstBusy (reqOf ActRenameLB ActBegin "u1")).1.locks =
      stDstBusy.locks :=
  ⟨by decide,
   begin_error_releases_locks envIdle stDstBusy _ (reqOf ActRenameLB ActBegin "u1")
    (.bucketIsBusy bckDst "t1") (by decide) (Or.inr (Or.inr (Or.inl (by decide))))⟩

/-! ## What a successful begin leaves behind -/

theorem createBucket_begin_ok {env : Env} {s s1 : TState} {c : txnServerCtx}
    (hphase : c.phase = ActBegin) (h : createBucket env s c = (s1, .ok)) :
    BeganWith s s1 c.uuid [] := by
  unfold createBucket at h
  simp only [hphase, if_true] at h
  split at h
  · simp at h
  · rename_i s2 hb
    simp only [Prod.mk.injEq, and_true] at h
    subst h
    obtain ⟨hl, hbmd, -, -, -, hok⟩ := begin_eq hb
    obtain ⟨hnone, htx⟩ := hok rfl
    exact ⟨hnone, ⟨_, rfl, rfl, htx⟩, by simp [hl], List.nodup_nil, hbmd⟩

theorem makeNCopies_begin_ok {env : Env} {s s1 : TState} {c : txnServerCtx} {B : Bck}
    {p : BucketProps} (hphase : c.phase = ActBegin)
    (hinit : env.initBck s.bmd c.bck = .ok (B, p)) (h : makeNCopies env s c = (s1, .ok)) :
    BeganWith s s1 c.uuid [⟨B, true⟩] := by
  unfold makeNCopies at h
  simp only [hinit, hphase, if_true] at h
  split at h
  · simp at h
  · simp at h
  · split at h
    · simp at h
    · rename_i s2 hl
      obtain ⟨ht2, hb2, -, -, hlk, -⟩ := TryLock_eq hl
      split at h
      · simp at h
      · rename_i s3 hb
        simp only [Prod.mk.injEq, and_true] at h
        subst h
        exact beganWith_of_steps ht2 hb2 (by simp [hlk]) (by simp) hb

theorem setBucketProps_begin_ok {env : Env} {s s1 : TState} {c : txnServerCtx} {B : Bck}
    {p : BucketProps} (hphase : c.phase = ActBegin)
    (hinit : env.initBck s.bmd c.bck = .ok (B, p)) (h : setBucketProps env s c = (s1, .ok)) :
    BeganWith s s1 c.uuid [⟨B, true⟩] := by
  unfold setBucketProps at h
  simp only [hinit, hphase, if_true] at h
  split at h
  · simp at h
  · simp at h
  · split at h
    · simp at h
    · rename_i s2 hl
      obtain ⟨ht2, hb2, -, -, hlk, -⟩ := TryLock_eq hl
      split at h
      · simp at h
      · rename_i s3 hb
        simp only [Prod.mk.injEq, and_true] at h
        subst h
        exact beganWith_of_steps ht2 hb2 (by simp [hlk]) (by simp) hb

theorem renameBucket_begin_ok {env : Env} {s s1 : TState} {c : txnServerCtx} {B : Bck}
    {p : BucketProps} (hphase : c.phase = ActBegin)
    (hinit : env.initBck s.bmd c.bck = .ok (B, p)) (h : renameBucket env s c = (s1, .ok)) :
    ∃ D : Bck, BeganWith s s1 c.uuid [⟨B, true⟩, ⟨D, true⟩] := by
  unfold renameBucket at h
  simp only [hinit, hphase, if_true] at h
  split at h
  · simp at h
  · simp at h
  · rename_i bckTo _
    split at h
    · simp at h
    · rename_i s2 hl
      obtain ⟨ht2, hb2, -, -, hlk, -⟩ := TryLock_eq hl
      split at h
      · simp at h
      · rename_i s3 hl2
        obtain ⟨ht3, hb3, -, -, hlk3, hfree⟩ := TryLock_eq hl2
        have hne : B ≠ bckTo.bck := by
          intro heq
          have : (true = false) := by
            rw [hfree, hlk]
            simp [heq]
          exact Bool.noConfusion this
        split at h
        · simp at h
        · rename_i s4 hb
          simp only [Prod.mk.injEq, and_true] at h
          subst h
          refine ⟨bckTo.bck, ?_⟩
          exact beganWith_of_steps (ht3.trans ht2) (hb3.trans hb2) (by simp [hlk3, hlk])
            (by simp [hne]) hb

theorem copyBucket_begin_ok {env : Env} {s s1 : TState} {c : txnServerCtx} {B : Bck}
    {p : BucketProps} (hphase : c.phase = ActBegin)
    (hinit : env.initBck s.bmd c.bck = .ok (B, p)) (h : copyBucket env s c = (s1, .ok)) :
    ∃ D : Bck, BeganWith s s1 c.uuid [⟨B, false⟩, ⟨D, true⟩] := by
  unfold copyBucket at h
  simp only [hinit, hphase, if_true] at h
  split at h
  · simp at h
  · simp at h
  · rename_i bckTo _
    split at h
    · simp at h
    · rename_i s2 hl
      obtain ⟨ht2, hb2, -, -, hlk, -⟩ := TryRLock_eq hl
      split at h
      · simp at h
      · rename_i s3 hl2
        obtain ⟨ht3, hb3, -, -, hlk3, -⟩ := TryLock_eq hl2
        split at h
        · simp at h
        · rename_i s4 hb
          simp only [Prod.mk.injEq, and_true] at h
          subst h
          refine ⟨bckTo.bck, ?_⟩
          exact beganWith_of_steps (ht3.trans ht2) (hb3.trans hb2) (by simp [hlk3, hlk])
            (by simp) hb

/-! ## C4: an exclusively held bucket refuses a second begin -/

theorem validateMakeNCopies_no_panic (env : Env) (b : Bck) (p : BucketProps) (msg : AisMsg) :
    validateMakeNCopies env ⟨b, some p⟩ msg ≠ .panic := by
  simp only [validateMakeNCopies]
  split_ifs <;> simp

theorem validateNpropsEC_no_panic (env : Env) (b : Bck) (p nprops : BucketProps) :
    validateNpropsEC env ⟨b, some p⟩ nprops ≠ .panic := by
  simp only [validateNpropsEC]
  split_ifs <;> simp

theorem validateNprops_no_panic (env : Env) (b : Bck) (p : BucketProps) (msg : AisMsg) :
    validateNprops env ⟨b, some p⟩ msg ≠ .panic := by
  unfold validateNprops
  split
  · simp
  · dsimp only
    split_ifs <;> first | exact validateNpropsEC_no_panic env b p _ | simp

theorem validateBckRenTxn_some (env : Env) (bmd : BMD) (bck : ClusterBck) (msg : AisMsg) :
    validateBckRenTxn env bmd bck msg ≠ (none, none) := by
  unfold validateBckRenTxn
  split
  · simp
  · split
    · simp
    · split
      · simp
      · dsimp only
        split_ifs
        · simp
        · simp
        · intro h
          split at h <;> simp at h

theorem validateBckCpTxn_some (env : Env) (bmd : BMD) (bck : ClusterBck) (msg : AisMsg) :
    validateBckCpTxn env bmd bck msg ≠ (none, none) := by
  unfold validateBckCpTxn
  split
  · simp
  · split
    · simp
    · split
      · simp
      · dsimp only
        split_ifs <;> simp

theorem makeNCopies_begin_busy {env : Env} {s : TState} {c : txnServerCtx} {B : Bck}
    {p : BucketProps} (hphase : c.phase = ActBegin)
    (hinit : env.initBck s.bmd c.bck = .ok (B, p))
    (hheld : s.locks.any (fun h => h.bck == B) = true) :
    RefusedBusy env s B (makeNCopies env s c) := by
  unfold makeNCopies
  simp only [hinit, hphase, if_true]
  split
  · rename_i hv
    exact absurd hv (validateMakeNCopies_no_panic _ _ _ _)
  · exact ⟨_, rfl, by simp⟩
  · split
    · exact ⟨_, rfl, fun _ => rfl⟩
    · rename_i s2 hl
      have := (TryLock_eq hl).2.2.2.2.2.mpr hheld
      exact Bool.noConfusion this

theorem setBucketProps_begin_busy {env : Env} {s : TState} {c : txnServerCtx} {B : Bck}
    {p : BucketProps} (hphase : c.phase = ActBegin)
    (hinit : env.initBck s.bmd c.bck = .ok (B, p))
    (hheld : s.locks.any (fun h => h.bck == B) = true) :
    RefusedBusy env s B (setBucketProps env s c) := by
  unfold setBucketProps
  simp only [hinit, hphase, if_true]
  split
  · rename_i hv
    exact absurd hv (validateNprops_no_panic _ _ _ _)
  · exact ⟨_, rfl, by simp⟩
  · split
    · exact ⟨_, rfl, fun _ => rfl⟩
    · rename_i s2 hl
      have := (TryLock_eq hl).2.2.2.2.2.mpr hheld
      exact Bool.noConfusion this

theorem renameBucket_begin_busy {env : Env} {s : TState} {c : txnServerCtx} {B : Bck}
    {p : BucketProps} (hphase : c.phase = ActBegin)
    (hinit : env.initBck s.bmd c.bck = .ok (B, p))
    (hheld : s.locks.any (fun h => h.bck == B) = true) :
    RefusedBusy env s B (renameBucket env s c) := by
  unfold renameBucket
  simp only [hinit, hphase, if_true]
  split
  · exact ⟨_, rfl, by simp⟩
  · rename_i hv
    exact absurd hv (validateBckRenTxn_some _ _ _ _)
  · split
    · exact ⟨_, rfl, fun _ => rfl⟩
    · rename_i s2 hl
      have := (TryLock_eq hl).2.2.2.2.2.mpr hheld
      exact Bool.noConfusion this

theorem ecEncode_begin_busy {env : Env} {s : TState} {c : txnServerCtx} {B : Bck}
    {p : BucketProps} (hphase : c.phase = ActBegin)
    (hinit : env.initBck s.bmd c.bck = .ok (B, p))
    (hheld : s.locks.any (fun h => h.bck == B) = true) :
    RefusedBusy env s B (ecEncode env s c) := by
  unfold ecEncode
  simp only [hinit, hphase, if_true]
  split
  · exact ⟨_, rfl, by simp⟩
  · split
    · exact ⟨_, rfl, fun _ => rfl⟩
    · rename_i s2 hl
      have := (TryLock_eq hl).2.2.2.2.2.mpr hheld
      exact Bool.noConfusion this

theorem copyBucket_begin_busy {env : Env} {s : TState} {c : txnServerCtx} {B : Bck}
    {p : BucketProps} (hphase : c.phase = ActBegin)
    (hinit : env.initBck s.bmd c.bck = .ok (B, p))
    (hheld : s.locks.any (fun h => h.bck == B && h.exclusive) = true) :
    RefusedBusy env s B (copyBucket env s c) := by
  unfold copyBucket
  simp only [hinit, hphase, if_true]
  split
  · exact ⟨_, rfl, by simp⟩
  · rename_i hv
    exact absurd hv (validateBckCpTxn_some _ _ _ _)
  · split
    · exact ⟨_, rfl, fun _ => rfl⟩
    · rename_i s2 hl
      have := (TryRLock_eq hl).2.2.2.2.2.mpr hheld
      exact Bool.noConfusion this

theorem beganWith_holds {s s1 : TState} {u : String} {nlps : List NLP} {h : NLP}
    (hb : BeganWith s s1 u nlps) (hmem : h ∈ nlps) :
    h ∈ s1.locks ∧ ∃ txn, lookupTxn s1.txns u = some txn ∧ h ∈ txn.nlps := by
  obtain ⟨hnone, ⟨txn, hu, hn, htx⟩, hl, -, -⟩ := hb
  refine ⟨?_, txn, ?_, ?_⟩
  · rw [hl]; simp [hmem]
  · rw [htx]; exact lookupTxn_append_new hnone hu
  · rw [hn]; exact hmem

/-- C4 (as amended): after a begin-phase call of make-n-copies, set-bprops,
rename-bucket or copy-bucket on bucket B returns success, the name-lock of B is
held (exclusively, except by copy-bucket, which holds its source shared) and is
recorded in the nlps of the registered transaction, which the removal of that
transaction by its commit or abort releases. In every state in which that hold
is in place, a second begin of make-n-copies, set-bprops, rename-bucket or
ec-encode on B (and of copy-bucket, when the hold is exclusive) returns an
error, and this error is BucketIsBusy for B as soon as the call got past its
validation. Create-bucket takes no name-lock and is not serialized. -/
theorem held_name_lock_refuses_second_begin (env : Env) (s s1 : TState) (c1 : txnServerCtx)
    (B : Bck) (p1 : BucketProps) (hphase : c1.phase = ActBegin)
    (hact : c1.msg.action = ActMakeNCopies ∨ c1.msg.action = ActSetBprops ∨
      c1.msg.action = ActResetBprops ∨ c1.msg.action = ActRenameLB ∨
      c1.msg.action = ActCopyBucket)
    (hinit : env.initBck s.bmd c1.bck = .ok (B, p1))
    (hok : txnHandler env s c1 = (s1, .ok)) :
    ((⟨B, c1.msg.action != ActCopyBucket⟩ : NLP) ∈ s1.locks ∧
      ∃ txn, lookupTxn s1.txns c1.uuid = some txn ∧
        (⟨B, c1.msg.action != ActCopyBucket⟩ : NLP) ∈ txn.nlps) ∧
    ∀ (s2 : TState) (c2 : txnServerCtx) (p2 : BucketProps),
      (⟨B, c1.msg.action != ActCopyBucket⟩ : NLP) ∈ s2.locks →
      c2.phase = ActBegin →
      env.initBck s2.bmd c2.bck = .ok (B, p2) →
      (c2.msg.action = ActMakeNCopies ∨ c2.msg.action = ActSetBprops ∨
        c2.msg.action = ActResetBprops ∨ c2.msg.action = ActRenameLB ∨
        c2.msg.action = ActECEncode ∨
        (c2.msg.action = ActCopyBucket ∧ c1.msg.action ≠ ActCopyBucket)) →
      RefusedBusy env s2 B (txnHandler env s2 c2) := by
  refine ⟨?_, ?_⟩
  · unfold txnHandler at hok
    rcases hact with h | h | h | h | h
    · rw [h] at hok ⊢
      simp only [ActMakeNCopies, ActCreateLB, ActRegisterCB, String.reduceEq, or_self,
        if_false, if_true] at hok
      exact beganWith_holds (makeNCopies_begin_ok hphase hinit hok) (by simp [ActMakeNCopies, ActCopyBucket])
    · rw [h] at hok ⊢
      simp only [ActMakeNCopies, ActCreateLB, ActRegisterCB, ActSetBprops, ActResetBprops,
        String.reduceEq, or_self, or_false, or_true, if_false, if_true] at hok
      exact beganWith_holds (setBucketProps_begin_ok hphase hinit hok)
        (by simp [ActSetBprops, ActResetBprops, ActCopyBucket])
    · rw [h] at hok ⊢
      simp only [ActMakeNCopies, ActCreateLB, ActRegisterCB, ActSetBprops, ActResetBprops,
        String.reduceEq, or_self, or_false, or_true, if_false, if_true] at hok
      exact beganWith_holds (setBucketProps_begin_ok hphase hinit hok)
        (by simp [ActSetBprops, ActResetBprops, ActCopyBucket])
    · rw [h] at hok ⊢
      simp only [ActMakeNCopies, ActCreateLB, ActRegisterCB, ActSetBprops, ActResetBprops,
        ActRenameLB, String.reduceEq, or_self, or_false, or_true, if_false, if_true] at hok
      obtain ⟨D, hb⟩ := renameBucket_begin_ok hphase hinit hok
      exact beganWith_holds hb (by simp [ActRenameLB, ActCopyBucket])
    · rw [h] at hok ⊢
      simp only [ActMakeNCopies, ActCreateLB, ActRegisterCB, ActSetBprops, ActResetBprops,
        ActRenameLB, ActCopyBucket, String.reduceEq, or_self, or_false, or_true, if_false,
        if_true] at hok
      obtain ⟨D, hb⟩ := copyBucket_begin_ok hphase hinit hok
      exact beganWith_holds hb (by simp)
  · intro s2 c2 p2 hheld hphase2 hinit2 hact2
    have hany : s2.locks.any (fun h => h.bck == B) = true :=
      List.any_eq_true.mpr ⟨_, hheld, by simp⟩
    unfold txnHandler
    rcases hact2 with h | h | h | h | h | ⟨h, hx⟩
    · rw [h]
      simp only [ActMakeNCopies, ActCreateLB, ActRegisterCB, String.reduceEq, or_self,
        if_false, if_true]
      exact makeNCopies_begin_busy hphase2 hinit2 hany
    · rw [h]
      simp only [ActMakeNCopies, ActCreateLB, ActRegisterCB, ActSetBprops, ActResetBprops,
        String.reduceEq, or_self, or_false, or_true, if_false, if_true]
      exact setBucketProps_begin_busy hphase2 hinit2 hany
    · rw [h]
      simp only [ActMakeNCopies, ActCreateLB, ActRegisterCB, ActSetBprops, ActResetBprops,
        String.reduceEq, or_self, or_false, or_true, if_false, if_true]
      exact setBucketProps_begin_busy hphase2 hinit2 hany
    · rw [h]
      simp only [ActMakeNCopies, ActCreateLB, ActRegisterCB, ActSetBprops, ActResetBprops,
        ActRenameLB, String.reduceEq, or_self, or_false, or_true, if_false, if_true]
      exact renameBucket_begin_busy hphase2 hinit2 hany
    · rw [h]
      simp only [ActMakeNCopies, ActCreateLB, ActRegisterCB, ActSetBprops, ActResetBprops,
        ActRenameLB, ActCopyBucket, ActECEncode, String.reduceEq, or_self, or_false, or_true,
        if_false, if_true]
      exact ecEncode_begin_busy hphase2 hinit2 hany
    · rw [h]
      simp only [ActMakeNCopies, ActCreateLB, ActRegisterCB, ActSetBprops, ActResetBprops,
        ActRenameLB, ActCopyBucket, String.reduceEq, or_self, or_false, or_true, if_false,
        if_true]
      have hexcl : s2.locks.any (fun h => h.bck == B && h.exclusive) = true :=
        List.any_eq_true.mpr ⟨_, hheld, by simpa using hx⟩
      exact copyBucket_begin_busy hphase2 hinit2 hexcl

/-- C4, witness: make-n-copies u1 begins on ais://src; in the state it leaves, the
begin of rename-bucket u2 on ais://src is refused with BucketIsBusy. -/
theorem held_name_lock_refuses_second_begin_witness :
    (⟨bckSrc, true⟩ : NLP) ∈ stMncOpen.locks ∧
    (txnHandler envIdle stMncOpen (reqOf ActRenameLB ActBegin "u2")).2 =
      Res.err (.bucketIsBusy bckSrc "t1") ∧
    RefusedBusy envIdle stMncOpen bckSrc
      (txnHandler envIdle stMncOpen (reqOf ActRenameLB ActBegin "u2")) :=
  ⟨by decide, by decide,
   (held_name_lock_refuses_second_begin envIdle stFresh stMncOpen
      (reqOf ActMakeNCopies ActBegin "u1") bckSrc propsSrc (by decide) (by decide) rfl
      (by decide)).2 stMncOpen (reqOf ActRenameLB ActBegin "u2") propsSrc (by decide)
      (by decide) rfl (by decide)⟩

/-- C4, counterexample: after the successful begin of create-bucket u1 on
ais://src no name-lock is held and the begin of make-n-copies u2 on ais://src
returns nil instead of BucketIsBusy; the same happens after the successful begin
of ec-encode u1. -/
theorem second_begin_after_create_or_ec_encode :
    (txnHandler envIdle stFresh (reqOf ActCreateLB ActBegin "u1")).2 = Res.ok ∧
    stCreateBegun.locks = [] ∧
    (txnHandler envIdle stCreateBegun (reqOf ActMakeNCopies ActBegin "u2")).2 = Res.ok ∧
    (txnHandler envIdle stFresh (reqOf ActECEncode ActBegin "u1")).2 = Res.ok ∧
    stEcBegun.locks = [] ∧
    (txnHandler envIdle stEcBegun (reqOf ActMakeNCopies ActBegin "u2")).2 = Res.ok := by
  decide

/-! ## C5: a failed TryLock surfaces as BucketIsBusy -/

theorem drop_own_length (l evs : List Event) : (l ++ evs).drop l.length = evs := by
  simp

theorem makeNCopies_lock_refused {env : Env} {s : TState} {c : txnServerCtx} {b : Bck}
    (hphase : c.phase = ActBegin)
    (hfail : LockFailed b (newEvents s (makeNCopies env s c).1)) :
    LockRefused env s b (makeNCopies env s c) := by
  generalize hr : makeNCopies env s c = r at hfail ⊢
  unfold makeNCopies at hr
  split at hr
  · subst hr; simp [LockFailed] at hfail
  · simp only [hphase, if_true] at hr
    split at hr
    · subst hr; simp [LockFailed] at hfail
    · subst hr; simp [LockFailed] at hfail
    · split at hr
      · rename_i s2 hl
        obtain ⟨ht2, -, hx2, htr, -, -⟩ := TryLock_eq hl
        subst hr
        simp only [newEvents, htr, drop_own_length, LockFailed, List.mem_singleton,
          Event.tryLock.injEq, and_true, reduceCtorEq, or_false] at hfail
        subst hfail
        refine ⟨rfl, ht2, hx2, ?_⟩
        simp [newEvents, htr, Event.isTxnBegin, Event.isXactStart]
      · rename_i s2 hl
        obtain ⟨-, -, -, htr, -, -⟩ := TryLock_eq hl
        split at hr
        · rename_i s3 err hb
          obtain ⟨-, -, -, htr3, -, -⟩ := begin_eq hb
          subst hr
          simp only [newEvents, Unlock_trace, htr3, htr, List.append_assoc,
            drop_own_length] at hfail
          simp [LockFailed] at hfail
        · rename_i s3 hb
          obtain ⟨-, -, -, htr3, -, -⟩ := begin_eq hb
          subst hr
          simp only [newEvents, setNlps_trace, htr3, htr, List.append_assoc,
            drop_own_length] at hfail
          simp [LockFailed] at hfail

theorem setBucketProps_lock_refused {env : Env} {s : TState} {c : txnServerCtx} {b : Bck}
    (hphase : c.phase = ActBegin)
    (hfail : LockFailed b (newEvents s (setBucketProps env s c).1)) :
    LockRefused env s b (setBucketProps env s c) := by
  generalize hr : setBucketProps env s c = r at hfail ⊢
  unfold setBucketProps at hr
  split at hr
  · subst hr; simp [LockFailed] at hfail
  · simp only [hphase, if_true] at hr
    split at hr
    · subst hr; simp [LockFailed] at hfail
    · subst hr; simp [LockFailed] at hfail
    · split at hr
      · rename_i s2 hl
        obtain ⟨ht2, -, hx2, htr, -, -⟩ := TryLock_eq hl
        subst hr
        simp only [newEvents, htr, drop_own_length, LockFailed, List.mem_singleton,
          Event.tryLock.injEq, and_true, reduceCtorEq, or_false] at hfail
        subst hfail
        refine ⟨rfl, ht2, hx2, ?_⟩
        simp [newEvents, htr, Event.isTxnBegin, Event.isXactStart]
      · rename_i s2 hl
        obtain ⟨-, -, -, htr, -, -⟩ := TryLock_eq hl
        split at hr
        · rename_i s3 err hb
          obtain ⟨-, -, -, htr3, -, -⟩ := begin_eq hb
          subst hr
          simp only [newEvents, Unlock_trace, htr3, htr, List.append_assoc,
            drop_own_length] at hfail
          simp [LockFailed] at hfail
        · rename_i s3 hb
          obtain ⟨-, -, -, htr3, -, -⟩ := begin_eq hb
          subst hr
          simp only [newEvents, setNlps_trace, htr3, htr, List.append_assoc,
            drop_own_length] at hfail
          simp [LockFailed] at hfail

theorem renameBucket_lock_refused {env : Env} {s : TState} {c : txnServerCtx} {b : Bck}
    (hphase : c.phase = ActBegin)
    (hfail : LockFailed b (newEvents s (renameBucket env s c).1)) :
    LockRefused env s b (renameBucket env s c) := by
  generalize hr : renameBucket env s c = r at hfail ⊢
  unfold renameBucket at hr
  split at hr
  · subst hr; simp [LockFailed] at hfail
  · simp only [hphase, if_true] at hr
    split at hr
    · subst hr; simp [LockFailed] at hfail
    · subst hr; simp [LockFailed] at hfail
    · split at hr
      · rename_i s2 hl
        obtain ⟨ht2, -, hx2, htr, -, -⟩ := TryLock_eq hl
        subst hr
        simp only [newEvents, htr, drop_own_length, LockFailed, List.mem_singleton,
          Event.tryLock.injEq, and_true, reduceCtorEq, or_false] at hfail
        subst hfail
        refine ⟨rfl, ht2, hx2, ?_⟩
        simp [newEvents, htr, Event.isTxnBegin, Event.isXactStart]
      · rename_i s2 hl
        obtain ⟨ht2, -, hx2, htr, -, -⟩ := TryLock_eq hl
        split at hr
        · rename_i s3 hl2
          obtain ⟨ht3, -, hx3, htr3, -, -⟩ := TryLock_eq hl2
          subst hr
          simp only [newEvents, Unlock_trace, htr3, htr, List.append_assoc, drop_own_length,
            LockFailed] at hfail
          simp at hfail
          subst hfail
          refine ⟨rfl, by simp [ht3, ht2], by simp [hx3, hx2], ?_⟩
          simp [newEvents, htr3, htr, Event.isTxnBegin, Event.isXactStart]
        · rename_i s3 hl2
          obtain ⟨-, -, -, htr3, -, -⟩ := TryLock_eq hl2
          split at hr
          · rename_i s4 err hb
            obtain ⟨-, -, -, htr4, -, -⟩ := begin_eq hb
            subst hr
            simp only [newEvents, Unlock_trace, htr4, htr3, htr, List.append_assoc,
              drop_own_length] at hfail
            simp [LockFailed] at hfail
          · rename_i s4 hb
            obtain ⟨-, -, -, htr4, -, -⟩ := begin_eq hb
            subst hr
            simp only [newEvents, setNlps_trace, htr4, htr3, htr, List.append_assoc,
              drop_own_length] at hfail
            simp [LockFailed] at hfail

theorem copyBucket_lock_refused {env : Env} {s : TState} {c : txnServerCtx} {b : Bck}
    (hphase : c.phase = ActBegin)
    (hfail : LockFailed b (newEvents s (copyBucket env s c).1)) :
    LockRefused env s b (copyBucket env s c) := by
  generalize hr : copyBucket env s c = r at hfail ⊢
  unfold copyBucket at hr
  split at hr
  · subst hr; simp [LockFailed] at hfail
  · simp only [hphase, if_true] at hr
    split at hr
    · subst hr; simp [LockFailed] at hfail
    · subst hr; simp [LockFailed] at hfail
    · split at hr
      · rename_i s2 hl
        obtain ⟨ht2, -, hx2, htr, -, -⟩ := TryRLock_eq hl
        subst hr
        simp only [newEvents, htr, drop_own_length, LockFailed, List.mem_singleton,
          Event.tryRLock.injEq, and_true, reduceCtorEq, false_or] at hfail
        subst hfail
        refine ⟨rfl, ht2, hx2, ?_⟩
        simp [newEvents, htr, Event.isTxnBegin, Event.isXactStart]
      · rename_i s2 hl
        obtain ⟨ht2, -, hx2, htr, -, -⟩ := TryRLock_eq hl
        split at hr
        · rename_i s3 hl2
          obtain ⟨ht3, -, hx3, htr3, -, -⟩ := TryLock_eq hl2
          subst hr
          simp only [newEvents, Unlock_trace, htr3, htr, List.append_assoc, drop_own_length,
            LockFailed] at hfail
          simp at hfail
          subst hfail
          refine ⟨rfl, by simp [ht3, ht2], by simp [hx3, hx2], ?_⟩
          simp [newEvents, htr3, htr, Event.isTxnBegin, Event.isXactStart]
        · rename_i s3 hl2
          obtain ⟨-, -, -, htr3, -, -⟩ := TryLock_eq hl2
          split at hr
          · rename_i s4 err hb
            obtain ⟨-, -, -, htr4, -, -⟩ := begin_eq hb
            subst hr
            simp only [newEvents, Unlock_trace, htr4, htr3, htr, List.append_assoc,
              drop_own_length] at hfail
            simp [LockFailed] at hfail
          · rename_i s4 hb
            obtain ⟨-, -, -, htr4, -, -⟩ := begin_eq hb
            subst hr
            simp only [newEvents, setNlps_trace, htr4, htr3, htr, List.append_assoc,
              drop_own_length] at hfail
            simp [LockFailed] at hfail

theorem ecEncode_lock_refused {env : Env} {s : TState} {c : txnServerCtx} {b : Bck}
    (hphase : c.phase = ActBegin)
    (hfail : LockFailed b (newEvents s (ecEncode env s c).1)) :
    LockRefused env s b (ecEncode env s c) := by
  generalize hr : ecEncode env s c = r at hfail ⊢
  unfold ecEncode at hr
  split at hr
  · subst hr; simp [LockFailed] at hfail
  · simp only [hphase, if_true] at hr
    split at hr
    · subst hr; simp [LockFailed] at hfail
    · split at hr
      · rename_i s2 hl
        obtain ⟨ht2, -, hx2, htr, -, -⟩ := TryLock_eq hl
        subst hr
        simp only [newEvents, htr, drop_own_length, LockFailed, List.mem_singleton,
          Event.tryLock.injEq, and_true, reduceCtorEq, or_false] at hfail
        subst hfail
        refine ⟨rfl, ht2, hx2, ?_⟩
        simp [newEvents, htr, Event.isTxnBegin, Event.isXactStart]
      · rename_i s2 hl
        obtain ⟨-, -, -, htr, -, -⟩ := TryLock_eq hl
        split at hr
        · rename_i s3 err hx
          obtain ⟨-, -, -, ok, htr3⟩ := RenewX_eq hx
          subst hr
          simp only [newEvents, Unlock_trace, htr3, htr, List.append_assoc,
            drop_own_length] at hfail
          simp [LockFailed] at hfail
        · rename_i s3 x hx
          obtain ⟨-, -, -, ok, htr3⟩ := RenewX_eq hx
          subst hr
          simp only [newEvents, Unlock_trace, htr3, htr, List.append_assoc,
            drop_own_length] at hfail
          simp [LockFailed] at hfail

/-- C5: in the begin phase of makeNCopies, setBucketProps, renameBucket, copyBucket
and ecEncode, if a TryLock or TryRLock on a bucket b fails, the call returns
BucketIsBusy for b, transactions.begin is never called and the transaction
table is unchanged, and no xaction is renewed or started (the registry is
unchanged). -/
theorem failed_trylock_returns_busy (env : Env) (s : TState) (c : txnServerCtx) (b : Bck)
    (r : TState × Res) (hphase : c.phase = ActBegin)
    (hcall : r = makeNCopies env s c ∨ r = setBucketProps env s c ∨
      r = renameBucket env s c ∨ r = copyBucket env s c ∨ r = ecEncode env s c)
    (hfail : LockFailed b (newEvents s r.1)) :
    LockRefused env s b r := by
  rcases hcall with h | h | h | h | h <;> subst h
  · exact makeNCopies_lock_refused hphase hfail
  · exact setBucketProps_lock_refused hphase hfail
  · exact renameBucket_lock_refused hphase hfail
  · exact copyBucket_lock_refused hphase hfail
  · exact ecEncode_lock_refused hphase hfail

/-- C5, witness: rename of src to dst while another holder has the lock of dst:
the TryLock on dst fails and the call returns BucketIsBusy for dst without
touching the transaction table. -/
theorem failed_trylock_returns_busy_witness :
    LockFailed bckDst
      (newEvents stDstBusy (renameBucket envIdle stDstBusy (reqOf ActRenameLB ActBegin "u1")).1) ∧
    LockRefused envIdle stDstBusy bckDst
      (renameBucket envIdle stDstBusy (reqOf ActRenameLB ActBegin "u1")) :=
  ⟨Or.inl (by decide),
   failed_trylock_returns_busy envIdle stDstBusy (reqOf ActRenameLB ActBegin "u1") bckDst _
    (by decide) (Or.inr (Or.inr (Or.inl rfl))) (Or.inl (by decide))⟩

/-! ## C6: begin followed by abort -/

theorem createBucket_begin_abort {env : Env} {s s1 : TState} {c : txnServerCtx}
    (hphase : c.phase = ActBegin) (hok : createBucket env s c = (s1, .ok)) :
    (createBucket env s1 { c with phase := ActAbort }).2 = .ok ∧
    (createBucket env s1 { c with phase := ActAbort }).1.txns = s.txns ∧
    (createBucket env s1 { c with phase := ActAbort }).1.locks = s.locks := by
  have hb := createBucket_begin_ok hphase hok
  unfold createBucket
  simp only [ActAbort_ne_ActBegin, if_false, if_true]
  exact ⟨trivial, find_remove_after_begin hb⟩

theorem makeNCopies_begin_abort {env : Env} {s s1 : TState} {c : txnServerCtx}
    (hphase : c.phase = ActBegin) (hok : makeNCopies env s c = (s1, .ok)) :
    (makeNCopies env s1 { c with phase := ActAbort }).2 = .ok ∧
    (makeNCopies env s1 { c with phase := ActAbort }).1.txns = s.txns ∧
    (makeNCopies env s1 { c with phase := ActAbort }).1.locks = s.locks := by
  cases hinit : env.initBck s.bmd c.bck with
  | error e => simp [makeNCopies, hinit] at hok
  | ok bp =>
    obtain ⟨B, p⟩ := bp
    have hb := makeNCopies_begin_ok hphase hinit hok
    have hbmd : s1.bmd = s.bmd := hb.2.2.2.2
    unfold makeNCopies
    simp only [hbmd, hinit, ActAbort_ne_ActBegin, if_false, if_true]
    exact ⟨trivial, find_remove_after_begin hb⟩

theorem setBucketProps_begin_abort {env : Env} {s s1 : TState} {c : txnServerCtx}
    (hphase : c.phase = ActBegin) (hok : setBucketProps env s c = (s1, .ok)) :
    (setBucketProps env s1 { c with phase := ActAbort }).2 = .ok ∧
    (setBucketProps env s1 { c with phase := ActAbort }).1.txns = s.txns ∧
    (setBucketProps env s1 { c with phase := ActAbort }).1.locks = s.locks := by
  cases hinit : env.initBck s.bmd c.bck with
  | error e => simp [setBucketProps, hinit] at hok
  | ok bp =>
    obtain ⟨B, p⟩ := bp
    have hb := setBucketProps_begin_ok hphase hinit hok
    have hbmd : s1.bmd = s.bmd := hb.2.2.2.2
    unfold setBucketProps
    simp only [hbmd, hinit, ActAbort_ne_ActBegin, if_false, if_true]
    exact ⟨trivial, find_remove_after_begin hb⟩

theorem renameBucket_begin_abort {env : Env} {s s1 : TState} {c : txnServerCtx}
    (hphase : c.phase = ActBegin) (hok : renameBucket env s c = (s1, .ok)) :
    (renameBucket env s1 { c with phase := ActAbort }).2 = .ok ∧
    (renameBucket env s1 { c with phase := ActAbort }).1.txns = s.txns ∧
    (renameBucket env s1 { c with phase := ActAbort }).1.locks = s.locks := by
  cases hinit : env.initBck s.bmd c.bck with
  | error e => simp [renameBucket, hinit] at hok
  | ok bp =>
    obtain ⟨B, p⟩ := bp
    obtain ⟨D, hb⟩ := renameBucket_begin_ok hphase hinit hok
    have hbmd : s1.bmd = s.bmd := hb.2.2.2.2
    unfold renameBucket
    simp only [hbmd, hinit, ActAbort_ne_ActBegin, if_false, if_true]
    exact ⟨trivial, find_remove_after_begin hb⟩

theorem copyBucket_begin_abort {env : Env} {s s1 : TState} {c : txnServerCtx}
    (hphase : c.phase = ActBegin) (hok : copyBucket env s c = (s1, .ok)) :
    (copyBucket env s1 { c with phase := ActAbort }).2 = .ok ∧
    (copyBucket env s1 { c with phase := ActAbort }).1.txns = s.txns ∧
    (copyBucket env s1 { c with phase := ActAbort }).1.locks = s.locks := by
  cases hinit : env.initBck s.bmd c.bck with
  | error e => simp [copyBucket, hinit] at hok
  | ok bp =>
    obtain ⟨B, p⟩ := bp
    obtain ⟨D, hb⟩ := copyBucket_begin_ok hphase hinit hok
    have hbmd : s1.bmd = s.bmd := hb.2.2.2.2
    unfold copyBucket
    simp only [hbmd, hinit, ActAbort_ne_ActBegin, if_false, if_true]
    exact ⟨trivial, find_remove_after_begin hb⟩

/-- A successful begin of ec-encode leaves the table, the held name-locks and the
BMD as they were. -/
theorem ecEncode_begin_ok {env : Env} {s s1 : TState} {c : txnServerCtx}
    (hphase : c.phase = ActBegin) (hok : ecEncode env s c = (s1, .ok)) :
    s1.txns = s.txns ∧ s1.locks = s.locks ∧ s1.bmd = s.bmd := by
  unfold ecEncode at hok
  split at hok
  · simp at hok
  · simp only [hphase, if_true] at hok
    split at hok
    · simp at hok
    · split at hok
      · simp at hok
      · rename_i s2 hl
        obtain ⟨ht2, hb2, -, -, hlk, -⟩ := TryLock_eq hl
        split at hok
        · simp at hok
        · rename_i s3 x hr
          obtain ⟨hb3, ht3, hl3, -⟩ := RenewX_eq hr
          simp only [Prod.mk.injEq, and_true] at hok
          subst hok
          refine ⟨?_, ?_, ?_⟩
          · simp [ht3, ht2]
          · simp [hl3, hlk]
          · simp [hb3, hb2]

theorem ecEncode_begin_abort {env : Env} {s s1 : TState} {c : txnServerCtx}
    (hphase : c.phase = ActBegin) (hok : ecEncode env s c = (s1, .ok)) :
    (ecEncode env s1 { c with phase := ActAbort }).2 = .ok ∧
    (ecEncode env s1 { c with phase := ActAbort }).1.txns = s.txns ∧
    (ecEncode env s1 { c with phase := ActAbort }).1.locks = s.locks := by
  cases hinit : env.initBck s.bmd c.bck with
  | error e => simp [ecEncode, hinit] at hok
  | ok bp =>
    obtain ⟨B, p⟩ := bp
    obtain ⟨ht, hl, hbmd⟩ := ecEncode_begin_ok hphase hok
    unfold ecEncode
    simp only [hbmd, hinit, ActAbort_ne_ActBegin, if_false, if_true]
    exact ⟨trivial, ht, hl⟩

/-- C6 (as amended): for every transaction kind dispatched by txnHandler and every
UUID u (for ec-encode: a UUID that has no entry in the table when the begin is
issued), a successful begin-phase call with UUID u followed by the abort-phase
call of the same request returns nil and leaves the transaction table and the
held name-locks exactly as they were before the begin: the table has no entry
for u, it is empty if it was empty, and no name-lock acquired by the begin is
still held. -/
theorem begin_then_abort_restores (env : Env) (s s1 : TState) (c : txnServerCtx)
    (hphase : c.phase = ActBegin)
    (hfresh : c.msg.action = ActECEncode → lookupTxn s.txns c.uuid = none)
    (hok : txnHandler env s c = (s1, .ok)) :
    (txnHandler env s1 { c with phase := ActAbort }).2 = .ok ∧
    lookupTxn (txnHandler env s1 { c with phase := ActAbort }).1.txns c.uuid = none ∧
    (txnHandler env s1 { c with phase := ActAbort }).1.txns = s.txns ∧
    (txnHandler env s1 { c with phase := ActAbort }).1.locks = s.locks := by
  have key : (txnHandler env s1 { c with phase := ActAbort }).2 = .ok ∧
      (txnHandler env s1 { c with phase := ActAbort }).1.txns = s.txns ∧
      (txnHandler env s1 { c with phase := ActAbort }).1.locks = s.locks ∧
      lookupTxn s.txns c.uuid = none := by
    unfold txnHandler at hok ⊢
    dsimp only at hok ⊢
    split_ifs at hok ⊢ with h1 h2 h3 h4 h5 h6
    · obtain ⟨a, b, d⟩ := createBucket_begin_abort hphase hok
      exact ⟨a, b, d, (createBucket_begin_ok hphase hok).1⟩
    · obtain ⟨a, b, d⟩ := makeNCopies_begin_abort hphase hok
      refine ⟨a, b, d, ?_⟩
      cases hinit : env.initBck s.bmd c.bck with
      | error e => simp [makeNCopies, hinit] at hok
      | ok bp => exact (makeNCopies_begin_ok hphase hinit hok).1
    · obtain ⟨a, b, d⟩ := setBucketProps_begin_abort hphase hok
      refine ⟨a, b, d, ?_⟩
      cases hinit : env.initBck s.bmd c.bck with
      | error e => simp [setBucketProps, hinit] at hok
      | ok bp => exact (setBucketProps_begin_ok hphase hinit hok).1
    · obtain ⟨a, b, d⟩ := renameBucket_begin_abort hphase hok
      refine ⟨a, b, d, ?_⟩
      cases hinit : env.initBck s.bmd c.bck with
      | error e => simp [renameBucket, hinit] at hok
      | ok bp =>
        obtain ⟨D, hb⟩ := renameBucket_begin_ok hphase hinit hok
        exact hb.1
    · obtain ⟨a, b, d⟩ := copyBucket_begin_abort hphase hok
      refine ⟨a, b, d, ?_⟩
      cases hinit : env.initBck s.bmd c.bck with
      | error e => simp [copyBucket, hinit] at hok
      | ok bp =>
        obtain ⟨D, hb⟩ := copyBucket_begin_ok hphase hinit hok
        exact hb.1
    · obtain ⟨a, b, d⟩ := ecEncode_begin_abort hphase hok
      exact ⟨a, b, d, hfresh h6⟩
    · simp at hok
  obtain ⟨a, b, d, e⟩ := key
  exact ⟨a, by rw [b]; exact e, b, d⟩

/-- C6, witness: copy-bucket u1 (src to dst) begins on the fresh target and is
aborted; the table is empty again and no name-lock is held. -/
theorem begin_then_abort_restores_witness :
    (txnHandler envIdle stCopyOpen (reqOf ActCopyBucket ActAbort "u1")).1.txns = [] ∧
    (txnHandler envIdle stCopyOpen (reqOf ActCopyBucket ActAbort "u1")).1.locks = [] :=
  ⟨(begin_then_abort_restores envIdle stFresh stCopyOpen (reqOf ActCopyBucket ActBegin "u1")
      (by decide) (by decide) (by decide)).2.2.1,
   (begin_then_abort_restores envIdle stFresh stCopyOpen (reqOf ActCopyBucket ActBegin "u1")
      (by decide) (by decide) (by decide)).2.2.2⟩

/-- C6, counterexample: the table holds the create-bucket transaction u1; an
ec-encode begin that carries the UUID u1 succeeds and its abort does nothing, so
the table still has an entry for u1 afterwards. -/
theorem ec_encode_begin_abort_keeps_entry :
    (txnHandler envIdle stCreateBegun (reqOf ActECEncode ActBegin "u1")).2 = Res.ok ∧
    (txnHandler envIdle
      (txnHandler envIdle stCreateBegun (reqOf ActECEncode ActBegin "u1")).1
      (reqOf ActECEncode ActAbort "u1")).2 = Res.ok ∧
    (lookupTxn (txnHandler envIdle
      (txnHandler envIdle stCreateBegun (reqOf ActECEncode ActBegin "u1")).1
      (reqOf ActECEncode ActAbort "u1")).1.txns "u1").isSome = true := by
  decide

/-! ## C7: capacity gates only an increase of the number of copies -/

/-- C7: validateMakeNCopies on a bucket with properties, when the requested count
parses, passes mirror.ValidateNCopies and passes coExists: if the new count
exceeds the current Mirror.Copies and the capacity status carries an error, that
error is the result; if the new count does not exceed the current one the
result is nil whatever the capacity status is. In both cases curCopies is the
current Mirror.Copies of the bucket and newCopies the parsed count. -/
theorem validateMakeNCopies_capacity_gate (env : Env) (bck : ClusterBck) (msg : AisMsg)
    (props : BucketProps) (hprops : bck.props = some props)
    (hparse : msg.parseNCopies.2 = none)
    (hvalid : env.validateNCopies msg.parseNCopies.1 = none)
    (hco : coExists env bck msg = none) :
    (props.mirror.copies < msg.parseNCopies.1 → ∀ e, env.capErr = some e →
      validateMakeNCopies env bck msg =
        .ret (props.mirror.copies, msg.parseNCopies.1, some e)) ∧
    (msg.parseNCopies.1 ≤ props.mirror.copies → ∀ cap : Option TxnErr,
      validateMakeNCopies { env with capErr := cap } bck msg =
        .ret (props.mirror.copies, msg.parseNCopies.1, none)) := by
  refine ⟨?_, ?_⟩
  · intro hlt e he
    simp [validateMakeNCopies, hprops, hparse, hvalid, hco, hlt, he]
  · intro hle cap
    have hco2 : coExists { env with capErr := cap } bck msg = none := hco
    have hnlt : ¬ props.mirror.copies < msg.parseNCopies.1 := not_lt.mpr hle
    simp [validateMakeNCopies, hprops, hparse, hvalid, hco2, hnlt]

/-- C7, witness: ais://src has 2 copies; 3 are requested while the mountpaths are
above the high watermark, so the capacity error is returned; requesting 3 when
the bucket already has 3 returns nil on the same target. -/
theorem validateMakeNCopies_capacity_gate_witness :
    validateMakeNCopies envFull ⟨bckSrc, some propsSrc⟩ (msgOf ActMakeNCopies "u1") =
      .ret (2, 3, some (.capacity "out of space")) ∧
    validateMakeNCopies envFull ⟨bckSrc, some ⟨⟨true, 3⟩, ⟨false⟩⟩⟩ (msgOf ActMakeNCopies "u1") =
      .ret (3, 3, none) :=
  ⟨(validateMakeNCopies_capacity_gate envFull ⟨bckSrc, some propsSrc⟩
      (msgOf ActMakeNCopies "u1") propsSrc rfl rfl (by decide) (by decide)).1 (by decide) _ rfl,
   (validateMakeNCopies_capacity_gate envFull ⟨bckSrc, some ⟨⟨true, 3⟩, ⟨false⟩⟩⟩
      (msgOf ActMakeNCopies "u1") ⟨⟨true, 3⟩, ⟨false⟩⟩ rfl rfl (by decide) (by decide)).2
      (by decide) (some (.capacity "out of space"))⟩

/-! ## C8: copy-bucket during a rebalance -/

/-- The action copy-bucket under the verb %q, whatever the table of printable
runes above U+00FF. -/
theorem goQuote_copy_bucket (isPrint : Char → Bool) :
    goQuote isPrint ActCopyBucket = "\"copy-bucket\"" := rfl

/-- The text of the coExists error for copy-bucket contains the quoted action. -/
theorem coExistsText_copy_bucket (env : Env) (xact : String) (bck : ClusterBck) :
    coExistsText env xact ActCopyBucket bck =
      (env.si ++ ": " ++ xact ++ ", ") ++ "cannot run \"copy-bucket\" on bucket" ++
        (" " ++ env.showBck bck) := by
  have h1 : ", cannot run " ++ ("\"copy-bucket\"" ++ " on bucket ") =
      ", " ++ ("cannot run \"copy-bucket\" on bucket" ++ " ") := by decide
  unfold coExistsText
  rw [goQuote_copy_bucket env.isPrint]
  simp only [String.append_assoc]
  have h2 : ∀ x : String, ", cannot run " ++ ("\"copy-bucket\"" ++ (" on bucket " ++ x)) =
      ", " ++ ("cannot run \"copy-bucket\" on bucket" ++ (" " ++ x)) := by
    intro x
    rw [← String.append_assoc "\"copy-bucket\"", ← String.append_assoc ", cannot run ", h1]
    simp only [String.append_assoc]
  rw [h2]

/-- C8 (as amended): copy-bucket begin while a cluster rebalance is active, once
c.bck.Init has succeeded, with a decodable destination in the message and no
capacity error: the call returns the coExists error, whose text contains
`cannot run "copy-bucket" on bucket`; the state of the target is unchanged, so
no name-lock was attempted on source or destination and no transaction was
registered. -/
theorem copy_begin_rejected_by_coExists (env : Env) (s : TState) (c : txnServerCtx)
    (B : Bck) (p : BucketProps) (g : String)
    (hphase : c.phase = ActBegin) (hact : c.msg.action = ActCopyBucket)
    (hinit : env.initBck s.bmd c.bck = .ok (B, p))
    (hdec : c.msg.unmarshalBck.2 = none) (hcap : env.capErr = none)
    (hreb : env.rebXact = some g) :
    (copyBucket env s c).1 = s ∧ IsCopyCoExistsErr (copyBucket env s c).2 ∧
    (∀ e ∈ newEvents s (copyBucket env s c).1, e.isLockAttempt = false ∧ e.isTxnBegin = false) ∧
    (copyBucket env s c).1.txns = s.txns := by
  have hv : validateBckCpTxn env s.bmd ⟨B, some p⟩ c.msg =
      (none, some (.fmt (coExistsText env g ActCopyBucket ⟨B, some p⟩))) := by
    simp [validateBckCpTxn, hdec, hcap, coExists, hreb, hact]
  have hr : copyBucket env s c =
      (s, .err (.fmt (coExistsText env g ActCopyBucket ⟨B, some p⟩))) := by
    unfold copyBucket
    simp only [hinit, hphase, if_true, hv]
  rw [hr]
  refine ⟨rfl, ⟨_, _, by rw [coExistsText_copy_bucket]⟩, by simp, rfl⟩

/-- C8, witness: copy-bucket u1 of ais://src during the rebalance g7. -/
theorem copy_begin_rejected_by_coExists_witness :
    (copyBucket envRebalancing stFresh (reqOf ActCopyBucket ActBegin "u1")).1 = stFresh ∧
    (copyBucket envRebalancing stFresh (reqOf ActCopyBucket ActBegin "u1")).2 =
      Res.err (.fmt "t1: rebalance[g7], cannot run \"copy-bucket\" on bucket ais://src") :=
  ⟨(copy_begin_rejected_by_coExists envRebalancing stFresh (reqOf ActCopyBucket ActBegin "u1")
      bckSrc propsSrc "rebalance[g7]" (by decide) (by decide) rfl (by decide) (by decide)
      (by decide)).1,
   by decide⟩

/-- C8, counterexample: during the rebalance, with a decodable destination and no
capacity error, copy-bucket begin of a source that the BMD does not hold returns
the error of c.bck.Init, which is not the coExists error. -/
theorem copy_begin_init_error_precedes_coExists :
    envRebalancing.rebXact ≠ none ∧ envRebalancing.capErr = none ∧
    (reqOf ActCopyBucket ActBegin "u1").msg.unmarshalBck.2 = none ∧
    copyBucket envRebalancing stNoBuckets (reqOf ActCopyBucket ActBegin "u1") =
      (stNoBuckets, .err (.bucketDoesNotExist bckSrc "t1")) ∧
    ¬ IsCopyCoExistsErr
      (copyBucket envRebalancing stNoBuckets (reqOf ActCopyBucket ActBegin "u1")).2 := by
  refine ⟨by decide, by decide, by decide, by decide, ?_⟩
  rintro ⟨pre, post, h⟩
  have h2 : (copyBucket envRebalancing stNoBuckets (reqOf ActCopyBucket ActBegin "u1")).2 =
      .err (.bucketDoesNotExist bckSrc "t1") := by decide
  rw [h2] at h
  simp at h

/-! ## C9: pre-conditions of rename-bucket -/

theorem checkDstDirs_some_of_nonEmpty (env : Env) (bckTo : ClusterBck)
    (paths : List MountpathInfo) (h : ∃ m ∈ paths, DstDirNonEmpty env bckTo m) :
    ∃ e, checkDstDirs env bckTo paths = some e := by
  induction paths with
  | nil => simp at h
  | cons m rest ih =>
    unfold checkDstDirs
    dsimp only
    split
    · exact ⟨_, rfl⟩
    · rename_i hacc
      obtain ⟨m1, hm1, hne⟩ := h
      rcases List.mem_cons.mp hm1 with heq | hin
      · subst heq
        rw [hne.1] at hacc
        cases hacc
      · exact ih ⟨m1, hin, hne⟩
    · rename_i hacc
      split
      · exact ⟨_, rfl⟩
      · split_ifs with hemp
        · exact ⟨_, rfl⟩
        · obtain ⟨m1, hm1, hne⟩ := h
          rcases List.mem_cons.mp hm1 with heq | hin
          · subst heq
            rw [hne.2] at hemp
            simp at hemp
          · exact ih ⟨m1, hin, hne⟩

theorem checkDstDirs_none (env : Env) (bckTo : ClusterBck) (paths : List MountpathInfo)
    (h : checkDstDirs env bckTo paths = none) :
    ∀ m ∈ paths, ¬ DstDirNonEmpty env bckTo m := by
  intro m hm hne
  obtain ⟨e, he⟩ := checkDstDirs_some_of_nonEmpty env bckTo paths ⟨m, hm, hne⟩
  rw [h] at he
  cases he

/-- C9: validateBckRenTxn, given a decodable destination, no capacity error and
neither rebalance nor resilver. With bckTo the bucket named by the message:
it returns BucketDoesNotExist when the source is absent from the BMD; otherwise
BucketAlreadyExists when the destination is present in the BMD; otherwise an
error when on some available mountpath the object directory of the destination
exists and is not empty; and when it returns no error, bckTo is returned and
carries name, provider and namespace of the message, the source is present, the
destination is absent and no available mountpath has a non-empty directory of
the destination. -/
theorem validateBckRenTxn_preconditions (env : Env) (bmd : BMD) (bckFrom : ClusterBck)
    (msg : AisMsg) (bckTo : ClusterBck)
    (hto : bckTo = ⟨⟨msg.unmarshalBck.1.name, msg.unmarshalBck.1.provider,
      msg.unmarshalBck.1.ns⟩, none⟩)
    (hdec : msg.unmarshalBck.2 = none) (hcap : env.capErr = none)
    (hreb : env.rebXact = none) (hres : env.resilverXact = none) :
    (bmd.get bckFrom = none →
      validateBckRenTxn env bmd bckFrom msg =
        (some bckTo, some (.bucketDoesNotExist bckFrom.bck env.si))) ∧
    (bmd.get bckFrom ≠ none → bmd.get bckTo ≠ none →
      validateBckRenTxn env bmd bckFrom msg =
        (some bckTo, some (.bucketAlreadyExists bckTo.bck env.si))) ∧
    (bmd.get bckFrom ≠ none → bmd.get bckTo = none →
      (∃ m ∈ env.availablePaths, DstDirNonEmpty env bckTo m) →
      ∃ e, validateBckRenTxn env bmd bckFrom msg = (some bckTo, some e)) ∧
    ((validateBckRenTxn env bmd bckFrom msg).2 = none →
      (validateBckRenTxn env bmd bckFrom msg).1 = some bckTo ∧
      bckTo.bck = msg.unmarshalBck.1 ∧
      bmd.get bckFrom ≠ none ∧ bmd.get bckTo = none ∧
      ∀ m ∈ env.availablePaths, ¬ DstDirNonEmpty env bckTo m) := by
  have hco : coExists env bckFrom msg = none := by simp [coExists, hreb, hres]
  subst hto
  refine ⟨?_, ?_, ?_, ?_⟩
  · intro hfrom
    simp [validateBckRenTxn, hdec, hcap, hco, hfrom]
  · intro hfrom hto
    have h1 : (bmd.get bckFrom).isNone = false := by
      cases h : bmd.get bckFrom with
      | none => exact absurd h hfrom
      | some _ => rfl
    have h2 : (bmd.get ⟨⟨msg.unmarshalBck.1.name, msg.unmarshalBck.1.provider,
        msg.unmarshalBck.1.ns⟩, none⟩).isSome = true := by
      cases h : bmd.get ⟨⟨msg.unmarshalBck.1.name, msg.unmarshalBck.1.provider,
          msg.unmarshalBck.1.ns⟩, none⟩ with
      | none => exact absurd h hto
      | some _ => rfl
    simp [validateBckRenTxn, hdec, hcap, hco, h1, h2]
  · intro hfrom hto hdir
    have h1 : (bmd.get bckFrom).isNone = false := by
      cases h : bmd.get bckFrom with
      | none => exact absurd h hfrom
      | some _ => rfl
    obtain ⟨e, he⟩ := checkDstDirs_some_of_nonEmpty env _ env.availablePaths hdir
    exact ⟨e, by simp [validateBckRenTxn, hdec, hcap, hco, h1, hto, he]⟩
  · intro hnone
    simp only [validateBckRenTxn, hdec, hcap, hco] at hnone ⊢
    split_ifs at hnone ⊢ with h1 h2
    cases hchk : checkDstDirs env ⟨⟨msg.unmarshalBck.1.name, msg.unmarshalBck.1.provider,
        msg.unmarshalBck.1.ns⟩, none⟩ env.availablePaths with
    | some e => simp [hchk] at hnone
    | none =>
      refine ⟨rfl, trivial, ?_, ?_, checkDstDirs_none env _ _ hchk⟩
      · intro h; simp [h] at h1
      · cases h : bmd.get ⟨⟨msg.unmarshalBck.1.name, msg.unmarshalBck.1.provider,
            msg.unmarshalBck.1.ns⟩, none⟩ with
        | none => rfl
        | some _ => simp [h] at h2

/-- C9, witness: renaming ais://src to ais://dst on a target whose mountpath /mp2
still has a non-empty directory of ais://dst is refused; on the idle target,
where no such directory exists, it is accepted with bckTo = ais://dst. -/
theorem validateBckRenTxn_preconditions_witness :
    (∃ e, validateBckRenTxn envLeftover stFresh.bmd ⟨bckSrc, some propsSrc⟩
      (msgOf ActRenameLB "u1") = (some ⟨bckDst, none⟩, some e)) ∧
    validateBckRenTxn envIdle stFresh.bmd ⟨bckSrc, some propsSrc⟩ (msgOf ActRenameLB "u1") =
      (some ⟨bckDst, none⟩, none) :=
  ⟨(validateBckRenTxn_preconditions envLeftover stFresh.bmd ⟨bckSrc, some propsSrc⟩
      (msgOf ActRenameLB "u1") ⟨bckDst, none⟩ rfl rfl rfl rfl rfl).2.2.1
      (by decide) (by decide) ⟨mpath2, by simp [envLeftover], by decide, by decide⟩,
   by decide⟩

/-! ## C10: the commit of copy-bucket and the wait-metasync parameter -/

/-- Trace of a started xaction: the renewal state, a possible notification, the run. -/
theorem goRun_addNotif_trace (s3 : TState) (cc : txnServerCtx) (x : Xact) :
    (goRun (addNotif s3 cc x) x).trace = s3.trace ++
      ((if queryHas cc.query URLParamNotifyMe then [Event.addNotif x.uuid] else []) ++
        [Event.run x.kind x.uuid]) := by
  rw [goRun_trace, addNotif_trace, List.append_assoc]

theorem copyCommit_nowait_err (nlps : List NLP) {s s3 : TState} {c : txnServerCtx}
    {err : TxnErr} (hq : queryGet c.query URLParamWaitMetasync = "")
    (htr : s3.trace = s.trace ++ ([Event.txnFind c.uuid false true] ++
      (Event.txnFind c.uuid true true :: nlps.map (fun h => Event.unlock h.bck)) ++
      [Event.renew ActCopyBucket c.uuid ActCommit false]))
    (htx : lookupTxn s3.txns c.uuid = none) :
    CopyCommitOutcome s c (s3, .err err) := by
  refine ⟨?_, ?_, ?_⟩
  · simp [newEvents_of_append htr, hq]
  · intro _
    refine ⟨htx, ⟨false, ?_⟩, ?_⟩
    · simp [newEvents_of_append htr]
    · simp [newEvents_of_append htr]
  · simp [newEvents_of_append htr]

theorem copyCommit_nowait_ok (nlps : List NLP) {s s3 : TState} {c cc : txnServerCtx}
    {x : Xact} (hq : queryGet c.query URLParamWaitMetasync = "")
    (hk : x.kind = ActCopyBucket) (hxu : x.uuid = c.uuid)
    (htr : s3.trace = s.trace ++ ([Event.txnFind c.uuid false true] ++
      (Event.txnFind c.uuid true true :: nlps.map (fun h => Event.unlock h.bck)) ++
      [Event.renew ActCopyBucket c.uuid ActCommit true]))
    (htx : lookupTxn s3.txns c.uuid = none) :
    CopyCommitOutcome s c (goRun (addNotif s3 cc x) x, .ok) := by
  have hall : (goRun (addNotif s3 cc x) x).trace = s.trace ++
      ([Event.txnFind c.uuid false true] ++
      (Event.txnFind c.uuid true true :: nlps.map (fun h => Event.unlock h.bck)) ++
      [Event.renew ActCopyBucket c.uuid ActCommit true] ++
      ((if queryHas cc.query URLParamNotifyMe then [Event.addNotif x.uuid] else []) ++
        [Event.run ActCopyBucket c.uuid])) := by
    rw [goRun_addNotif_trace, htr, hk, hxu]; simp
  refine ⟨?_, ?_, ?_⟩
  · simp only [newEvents_of_append hall, hq, ne_eq, not_true_eq_false, iff_false]
    split_ifs <;> simp
  · intro _
    refine ⟨by simpa using htx, ⟨true, ?_⟩, ?_⟩
    · simp [newEvents_of_append hall]
    · simp [newEvents_of_append hall]
  · simp only [newEvents_of_append hall]
    split_ifs <;> simp

theorem copyCommit_wait_failed {s s2 : TState} {c : txnServerCtx} {err : TxnErr}
    (hq : queryGet c.query URLParamWaitMetasync ≠ "")
    (htr : s2.trace = s.trace ++ ([Event.txnFind c.uuid false true] ++
      [Event.txnWait c.uuid false])) :
    CopyCommitOutcome s c (s2, .err err) := by
  refine ⟨?_, ?_, ?_⟩
  · simp [newEvents_of_append htr, hq]
  · intro h; exact absurd h hq
  · intro _
    refine ⟨⟨_, rfl⟩, ?_⟩
    simp [newEvents_of_append htr, Event.isXactStart]

theorem copyCommit_waited_err (nlps : List NLP) {s s3 : TState} {c : txnServerCtx}
    {err : TxnErr} (hq : queryGet c.query URLParamWaitMetasync ≠ "")
    (htr : s3.trace = s.trace ++ ([Event.txnFind c.uuid false true] ++
      (Event.txnWait c.uuid true :: nlps.map (fun h => Event.unlock h.bck)) ++
      [Event.renew ActCopyBucket c.uuid ActCommit false])) :
    CopyCommitOutcome s c (s3, .err err) := by
  refine ⟨?_, ?_, ?_⟩
  · simp only [newEvents_of_append htr, hq, ne_eq, not_false_eq_true, iff_true]
    exact ⟨true, by simp⟩
  · intro h; exact absurd h hq
  · simp [newEvents_of_append htr]

theorem copyCommit_waited_ok (nlps : List NLP) {s s3 : TState} {c cc : txnServerCtx}
    {x : Xact} (hq : queryGet c.query URLParamWaitMetasync ≠ "")
    (hk : x.kind = ActCopyBucket) (hxu : x.uuid = c.uuid)
    (htr : s3.trace = s.trace ++ ([Event.txnFind c.uuid false true] ++
      (Event.txnWait c.uuid true :: nlps.map (fun h => Event.unlock h.bck)) ++
      [Event.renew ActCopyBucket c.uuid ActCommit true])) :
    CopyCommitOutcome s c (goRun (addNotif s3 cc x) x, .ok) := by
  have hall : (goRun (addNotif s3 cc x) x).trace = s.trace ++
      ([Event.txnFind c.uuid false true] ++
      (Event.txnWait c.uuid true :: nlps.map (fun h => Event.unlock h.bck)) ++
      [Event.renew ActCopyBucket c.uuid ActCommit true] ++
      ((if queryHas cc.query URLParamNotifyMe then [Event.addNotif x.uuid] else []) ++
        [Event.run ActCopyBucket c.uuid])) := by
    rw [goRun_addNotif_trace, htr, hk, hxu]; simp
  refine ⟨?_, ?_, ?_⟩
  · simp only [newEvents_of_append hall, hq, ne_eq, not_false_eq_true, iff_true]
    exact ⟨true, by simp⟩
  · intro h; exact absurd h hq
  · simp only [newEvents_of_append hall]
    split_ifs <;> simp

/-- C10 (as amended): copyBucket commit, once c.bck.Init has succeeded, for a UUID
whose transaction is found in the table and is a copy-bucket transaction:
transactions.wait is called if and only if the query carries a non-empty
wait-metasync parameter; when the parameter is absent or empty the transaction
is removed from the table without waiting, RenewBckCopy is called, and the copy
xaction is started exactly when the renewal succeeds, in which case the call
returns nil (otherwise the error of the renewal is returned and nothing is
started); when wait is called and fails, an error is returned and no xaction is
renewed or started. -/
theorem copy_commit_waits_iff_asked (env : Env) (s : TState) (c : txnServerCtx) (B : Bck)
    (p : BucketProps) (txn : Txn) (bckFrom bckTo : ClusterBck)
    (hphase : c.phase = ActCommit)
    (hinit : env.initBck s.bmd c.bck = .ok (B, p))
    (hfind : lookupTxn s.txns c.uuid = some txn)
    (hpay : txn.payload = .copyBucket bckFrom bckTo) :
    CopyCommitOutcome s c (copyBucket env s c) := by
  have hu : txn.uuid = c.uuid := lookupTxn_uuid hfind
  have hfind1 : lookupTxn (s.log (.txnFind c.uuid false true)).txns c.uuid = some txn := hfind
  generalize hr : copyBucket env s c = r
  unfold copyBucket at hr
  simp only [hinit, hphase, ActCommit_ne_ActBegin, ActCommit_ne_ActAbort, if_false, if_true,
    find_keep_found hfind, hpay] at hr
  by_cases hq : queryGet c.query URLParamWaitMetasync = ""
  · simp only [hq, ne_eq, not_true_eq_false, if_false] at hr
    obtain ⟨htr1, htx1, -⟩ := find_remove_found hfind1
    split at hr
    · rename_i s3 err hx
      obtain ⟨htr3, htx3⟩ := RenewX_err_trace hx
      subst hr
      refine copyCommit_nowait_err txn.nlps hq ?_ ?_
      · rw [htr3, htr1, log_trace]; simp
      · rw [htx3, htx1]; exact lookupTxn_filter_ne _ _
    · rename_i s3 x hx
      obtain ⟨hk, hxu, -, htr3⟩ := RenewX_ok_xact hx
      obtain ⟨-, htx3, -, -⟩ := RenewX_eq hx
      subst hr
      refine copyCommit_nowait_ok txn.nlps hq hk hxu ?_ ?_
      · rw [htr3, htr1, log_trace]; simp
      · rw [htx3, htx1]; exact lookupTxn_filter_ne _ _
  · simp only [hq, ne_eq, not_false_eq_true, if_true] at hr
    split at hr
    · rename_i s2 err hw
      obtain ⟨htr2, -, -⟩ := wait_err hw
      subst hr
      refine copyCommit_wait_failed hq ?_
      rw [htr2, log_trace, hu]; simp
    · rename_i s2 hw
      obtain ⟨htr2, -⟩ := wait_ok hw
      split at hr
      · rename_i s3 err hx
        obtain ⟨htr3, -⟩ := RenewX_err_trace hx
        subst hr
        refine copyCommit_waited_err txn.nlps hq ?_
        rw [htr3, htr2, log_trace, hu]; simp
      · rename_i s3 x hx
        obtain ⟨hk, hxu, -, htr3⟩ := RenewX_ok_xact hx
        subst hr
        refine copyCommit_waited_ok txn.nlps hq hk hxu ?_
        rw [htr3, htr2, log_trace, hu]; simp

/-- C10, witness: the commit of copy-bucket u1 without the wait-metasync parameter
on the target that began it. -/
theorem copy_commit_waits_iff_asked_witness :
    CopyCommitOutcome stCopyOpen (reqOf ActCopyBucket ActCommit "u1")
      (copyBucket envIdle stCopyOpen (reqOf ActCopyBucket ActCommit "u1")) :=
  copy_commit_waits_iff_asked envIdle stCopyOpen (reqOf ActCopyBucket ActCommit "u1")
    bckSrc propsSrc _ ⟨bckSrc, some propsSrc⟩ ⟨bckDst, none⟩ (by decide) rfl rfl rfl

/-- C10, counterexample: the commit of copy-bucket u1 without the wait-metasync
parameter, while a copy xaction of another UUID runs on the destination: the
transaction is found and removed without waiting, the renewal is rejected, the
call returns that error and the copy xaction is not started. -/
theorem copy_commit_not_started_when_renewal_fails :
    queryGet (reqOf ActCopyBucket ActCommit "u1").query URLParamWaitMetasync = "" ∧
    (lookupTxn stCopyOpenOtherRunning.txns "u1").isSome = true ∧
    (copyBucket envIdle stCopyOpenOtherRunning (reqOf ActCopyBucket ActCommit "u1")).2 =
      Res.err (.xactRunning ActCopyBucket "u0") ∧
    lookupTxn (copyBucket envIdle stCopyOpenOtherRunning
      (reqOf ActCopyBucket ActCommit "u1")).1.txns "u1" = none ∧
    Event.run ActCopyBucket "u1" ∉ newEvents stCopyOpenOtherRunning
      (copyBucket envIdle stCopyOpenOtherRunning (reqOf ActCopyBucket ActCommit "u1")).1 := by
  decide


/-! ## C11: the order of the two name-locks of rename and copy -/

/-- The lock attempts of the begin of rename-bucket: none, the source alone, or the
source followed by the destination. -/
theorem renameBucket_lock_attempts (env : Env) (s : TState) (c : txnServerCtx) (B : Bck)
    (p : BucketProps) (hphase : c.phase = ActBegin)
    (hinit : env.initBck s.bmd c.bck = .ok (B, p)) :
    lockAttempts (newEvents s (renameBucket env s c).1) = [] ∨
    lockAttempts (newEvents s (renameBucket env s c).1) = [B] ∨
    lockAttempts (newEvents s (renameBucket env s c).1) = [B, c.msg.unmarshalBck.1] := by
  generalize hr : renameBucket env s c = r
  unfold renameBucket at hr
  rw [hinit] at hr
  simp only [hphase, if_true] at hr
  split at hr
  · subst hr; left; simp [lockAttempts]
  · subst hr; left; simp [lockAttempts]
  · rename_i bckTo hv
    have hto : bckTo.bck = c.msg.unmarshalBck.1 := by
      have h1 := hv
      unfold validateBckRenTxn at h1
      simp only at h1
      split at h1
      · simp at h1
      · split at h1
        · simp at h1
        · split at h1
          · simp at h1
          · split_ifs at h1
            · simp at h1
            · simp at h1
            · split at h1
              · simp at h1
              · simp only [Prod.mk.injEq, Option.some.injEq, and_true] at h1
                rw [← h1]
    split at hr
    · rename_i s2 hl
      obtain ⟨-, -, -, htr, -, -⟩ := TryLock_eq hl
      subst hr; right; left
      simp [newEvents, htr, lockAttempts, Event.lockedBck]
    · rename_i s2 hl
      obtain ⟨-, -, -, htr, -, -⟩ := TryLock_eq hl
      split at hr
      · rename_i s3 hl2
        obtain ⟨-, -, -, htr3, -, -⟩ := TryLock_eq hl2
        subst hr; right; right
        simp [newEvents, Unlock_trace, htr3, htr, lockAttempts, Event.lockedBck, hto]
      · rename_i s3 hl2
        obtain ⟨-, -, -, htr3, -, -⟩ := TryLock_eq hl2
        split at hr
        · rename_i s4 err hb
          obtain ⟨-, -, -, htr4, -, -⟩ := begin_eq hb
          subst hr; right; right
          simp [newEvents, Unlock_trace, htr4, htr3, htr, lockAttempts, Event.lockedBck, hto]
        · rename_i s4 hb
          obtain ⟨-, -, -, htr4, -, -⟩ := begin_eq hb
          subst hr; right; right
          simp [newEvents, setNlps_trace, htr4, htr3, htr, lockAttempts, Event.lockedBck, hto]

/-- The lock attempts of the begin of copy-bucket: none, the source alone, or the
source followed by the destination. -/
theorem copyBucket_lock_attempts (env : Env) (s : TState) (c : txnServerCtx) (B : Bck)
    (p : BucketProps) (hphase : c.phase = ActBegin)
    (hinit : env.initBck s.bmd c.bck = .ok (B, p)) :
    lockAttempts (newEvents s (copyBucket env s c).1) = [] ∨
    lockAttempts (newEvents s (copyBucket env s c).1) = [B] ∨
    lockAttempts (newEvents s (copyBucket env s c).1) = [B, c.msg.unmarshalBck.1] := by
  generalize hr : copyBucket env s c = r
  unfold copyBucket at hr
  rw [hinit] at hr
  simp only [hphase, if_true] at hr
  split at hr
  · subst hr; left; simp [lockAttempts]
  · subst hr; left; simp [lockAttempts]
  · rename_i bckTo hv
    have hto : bckTo.bck = c.msg.unmarshalBck.1 := by
      have h1 := hv
      unfold validateBckCpTxn at h1
      simp only at h1
      split at h1
      · simp at h1
      · split at h1
        · simp at h1
        · split at h1
          · simp at h1
          · split_ifs at h1
            · simp at h1
            · simp only [Prod.mk.injEq, Option.some.injEq, and_true] at h1
              rw [← h1]
    split at hr
    · rename_i s2 hl
      obtain ⟨-, -, -, htr, -, -⟩ := TryRLock_eq hl
      subst hr; right; left
      simp [newEvents, htr, lockAttempts, Event.lockedBck]
    · rename_i s2 hl
      obtain ⟨-, -, -, htr, -, -⟩ := TryRLock_eq hl
      split at hr
      · rename_i s3 hl2
        obtain ⟨-, -, -, htr3, -, -⟩ := TryLock_eq hl2
        subst hr; right; right
        simp [newEvents, Unlock_trace, htr3, htr, lockAttempts, Event.lockedBck, hto]
      · rename_i s3 hl2
        obtain ⟨-, -, -, htr3, -, -⟩ := TryLock_eq hl2
        split at hr
        · rename_i s4 err hb
          obtain ⟨-, -, -, htr4, -, -⟩ := begin_eq hb
          subst hr; right; right
          simp [newEvents, Unlock_trace, htr4, htr3, htr, lockAttempts, Event.lockedBck, hto]
        · rename_i s4 hb
          obtain ⟨-, -, -, htr4, -, -⟩ := begin_eq hb
          subst hr; right; right
          simp [newEvents, setNlps_trace, htr4, htr3, htr, lockAttempts, Event.lockedBck, hto]

/-- The destination that the validation of rename-bucket returns is the bucket
named in the message. -/
theorem validateBckRenTxn_dst {env : Env} {bmd : BMD} {bckFrom bckTo : ClusterBck}
    {msg : AisMsg} (h1 : validateBckRenTxn env bmd bckFrom msg = (some bckTo, none)) :
    bckTo.bck = msg.unmarshalBck.1 := by
  unfold validateBckRenTxn at h1
  simp only at h1
  split at h1
  · simp at h1
  · split at h1
    · simp at h1
    · split at h1
      · simp at h1
      · split_ifs at h1
        · simp at h1
        · simp at h1
        · split at h1
          · simp at h1
          · simp only [Prod.mk.injEq, Option.some.injEq, and_true] at h1
            rw [← h1]

/-- The destination that the validation of copy-bucket returns is the bucket
named in the message. -/
theorem validateBckCpTxn_dst {env : Env} {bmd : BMD} {bckFrom bckTo : ClusterBck}
    {msg : AisMsg} (h1 : validateBckCpTxn env bmd bckFrom msg = (some bckTo, none)) :
    bckTo.bck = msg.unmarshalBck.1 := by
  unfold validateBckCpTxn at h1
  simp only at h1
  split at h1
  · simp at h1
  · split at h1
    · simp at h1
    · split at h1
      · simp at h1
      · split_ifs at h1
        · simp at h1
        · simp only [Prod.mk.injEq, Option.some.injEq, and_true] at h1
          rw [← h1]

/-- The calls of the begin of rename-bucket: none when the validation fails;
otherwise TryLock on the source, then, only when it was acquired, TryLock on
the destination, and the releases of what was acquired on a failure. -/
theorem renameBucket_begin_calls (env : Env) (s : TState) (c : txnServerCtx) (B : Bck)
    (p : BucketProps) (hphase : c.phase = ActBegin)
    (hinit : env.initBck s.bmd c.bck = .ok (B, p)) :
    ((∀ bckTo, validateBckRenTxn env s.bmd ⟨B, some p⟩ c.msg ≠ (some bckTo, none)) →
      newEvents s (renameBucket env s c).1 = []) ∧
    (∀ bckTo, validateBckRenTxn env s.bmd ⟨B, some p⟩ c.msg = (some bckTo, none) →
      BeginLocks Event.tryLock B c.msg.unmarshalBck.1 c.uuid env.siName
        (newEvents s (renameBucket env s c).1) (renameBucket env s c).2) := by
  generalize hr : renameBucket env s c = r
  unfold renameBucket at hr
  rw [hinit] at hr
  simp only [hphase, if_true] at hr
  split at hr
  · subst hr
    exact ⟨fun _ => by simp [newEvents], fun bckTo hv => by simp_all⟩
  · subst hr
    exact ⟨fun _ => by simp [newEvents], fun bckTo hv => by simp_all⟩
  · rename_i bckTo hv
    refine ⟨fun hno => absurd hv (hno bckTo), fun bckTo2 hv2 => ?_⟩
    have hto : bckTo.bck = c.msg.unmarshalBck.1 := validateBckRenTxn_dst hv
    split at hr
    · rename_i s2 hl
      obtain ⟨-, -, -, htr, -, -⟩ := TryLock_eq hl
      subst hr; left
      simp [newEvents, htr]
    · rename_i s2 hl
      obtain ⟨-, -, -, htr, -, -⟩ := TryLock_eq hl
      split at hr
      · rename_i s3 hl2
        obtain ⟨-, -, -, htr3, -, -⟩ := TryLock_eq hl2
        subst hr; right; left
        simp [newEvents, Unlock_trace, htr3, htr, hto]
      · rename_i s3 hl2
        obtain ⟨-, -, -, htr3, -, -⟩ := TryLock_eq hl2
        split at hr
        · rename_i s4 err hb
          obtain ⟨-, -, -, htr4, -, -⟩ := begin_eq hb
          subst hr; right; right; left
          simp [newEvents, Unlock_trace, htr4, htr3, htr, hto, newTxnRenameBucket]
        · rename_i s4 hb
          obtain ⟨-, -, -, htr4, -, -⟩ := begin_eq hb
          subst hr; right; right; right
          simp [newEvents, setNlps_trace, htr4, htr3, htr, hto, newTxnRenameBucket]

/-- The calls of the begin of copy-bucket: none when the validation fails;
otherwise TryRLock on the source, then, only when it was acquired, TryLock on
the destination, and the releases of what was acquired on a failure. -/
theorem copyBucket_begin_calls (env : Env) (s : TState) (c : txnServerCtx) (B : Bck)
    (p : BucketProps) (hphase : c.phase = ActBegin)
    (hinit : env.initBck s.bmd c.bck = .ok (B, p)) :
    ((∀ bckTo, validateBckCpTxn env s.bmd ⟨B, some p⟩ c.msg ≠ (some bckTo, none)) →
      newEvents s (copyBucket env s c).1 = []) ∧
    (∀ bckTo, validateBckCpTxn env s.bmd ⟨B, some p⟩ c.msg = (some bckTo, none) →
      BeginLocks Event.tryRLock B c.msg.unmarshalBck.1 c.uuid env.siName
        (newEvents s (copyBucket env s c).1) (copyBucket env s c).2) := by
  generalize hr : copyBucket env s c = r
  unfold copyBucket at hr
  rw [hinit] at hr
  simp only [hphase, if_true] at hr
  split at hr
  · subst hr
    exact ⟨fun _ => by simp [newEvents], fun bckTo hv => by simp_all⟩
  · subst hr
    exact ⟨fun _ => by simp [newEvents], fun bckTo hv => by simp_all⟩
  · rename_i bckTo hv
    refine ⟨fun hno => absurd hv (hno bckTo), fun bckTo2 hv2 => ?_⟩
    have hto : bckTo.bck = c.msg.unmarshalBck.1 := validateBckCpTxn_dst hv
    split at hr
    · rename_i s2 hl
      obtain ⟨-, -, -, htr, -, -⟩ := TryRLock_eq hl
      subst hr; left
      simp [newEvents, htr]
    · rename_i s2 hl
      obtain ⟨-, -, -, htr, -, -⟩ := TryRLock_eq hl
      split at hr
      · rename_i s3 hl2
        obtain ⟨-, -, -, htr3, -, -⟩ := TryLock_eq hl2
        subst hr; right; left
        simp [newEvents, Unlock_trace, htr3, htr, hto]
      · rename_i s3 hl2
        obtain ⟨-, -, -, htr3, -, -⟩ := TryLock_eq hl2
        split at hr
        · rename_i s4 err hb
          obtain ⟨-, -, -, htr4, -, -⟩ := begin_eq hb
          subst hr; right; right; left
          simp [newEvents, Unlock_trace, htr4, htr3, htr, hto, newTxnCopyBucket]
        · rename_i s4 hb
          obtain ⟨-, -, -, htr4, -, -⟩ := begin_eq hb
          subst hr; right; right; right
          simp [newEvents, setNlps_trace, htr4, htr3, htr, hto, newTxnCopyBucket]

/-- C11 (as amended): in the begin phase of renameBucket and of copyBucket the
name-locks are attempted in the order of the request. When the validation
fails, nothing is called. Otherwise the first call is the attempt on the lock
of the source bucket (TryLock for rename, TryRLock for copy); when it is
refused nothing else is called and the result is BucketIsBusy for the source;
only when it was acquired is the lock of the destination bucket named in the
message attempted, with TryLock; when that is refused the source is released
and the result is BucketIsBusy for the destination; when transactions.begin
fails, the destination and then the source are released; no other name-lock is
attempted. (So X to Y attempts X then Y, and Y to X attempts Y then X.) -/
theorem begin_locks_source_then_destination (env : Env) (s : TState) (c : txnServerCtx)
    (B : Bck) (p : BucketProps) (hphase : c.phase = ActBegin)
    (hinit : env.initBck s.bmd c.bck = .ok (B, p)) :
    (lockAttempts (newEvents s (renameBucket env s c).1) = [] ∨
      lockAttempts (newEvents s (renameBucket env s c).1) = [B] ∨
      lockAttempts (newEvents s (renameBucket env s c).1) = [B, c.msg.unmarshalBck.1]) ∧
    (lockAttempts (newEvents s (copyBucket env s c).1) = [] ∨
      lockAttempts (newEvents s (copyBucket env s c).1) = [B] ∨
      lockAttempts (newEvents s (copyBucket env s c).1) = [B, c.msg.unmarshalBck.1]) ∧
    ((∀ bckTo, validateBckRenTxn env s.bmd ⟨B, some p⟩ c.msg ≠ (some bckTo, none)) →
      newEvents s (renameBucket env s c).1 = []) ∧
    (∀ bckTo, validateBckRenTxn env s.bmd ⟨B, some p⟩ c.msg = (some bckTo, none) →
      BeginLocks Event.tryLock B c.msg.unmarshalBck.1 c.uuid env.siName
        (newEvents s (renameBucket env s c).1) (renameBucket env s c).2) ∧
    ((∀ bckTo, validateBckCpTxn env s.bmd ⟨B, some p⟩ c.msg ≠ (some bckTo, none)) →
      newEvents s (copyBucket env s c).1 = []) ∧
    (∀ bckTo, validateBckCpTxn env s.bmd ⟨B, some p⟩ c.msg = (some bckTo, none) →
      BeginLocks Event.tryRLock B c.msg.unmarshalBck.1 c.uuid env.siName
        (newEvents s (copyBucket env s c).1) (copyBucket env s c).2) :=
  ⟨renameBucket_lock_attempts env s c B p hphase hinit,
   copyBucket_lock_attempts env s c B p hphase hinit,
   (renameBucket_begin_calls env s c B p hphase hinit).1,
   (renameBucket_begin_calls env s c B p hphase hinit).2,
   (copyBucket_begin_calls env s c B p hphase hinit).1,
   (copyBucket_begin_calls env s c B p hphase hinit).2⟩

/-- C11, witness: the begin of copy-bucket u1 from ais://src to ais://dst on the
fresh target acquires the shared lock of ais://src, then the lock of ais://dst,
and begins the transaction; while another holder has the lock of ais://dst, the
same begin acquires the lock of ais://src, is refused the lock of ais://dst,
releases ais://src and returns BucketIsBusy for ais://dst. -/
theorem begin_locks_source_then_destination_witness :
    (reqCopy bckSrc bckDst "u1").phase = ActBegin ∧
    newEvents stFresh (copyBucket envIdle stFresh (reqCopy bckSrc bckDst "u1")).1 =
      [.tryRLock bckSrc true, .tryLock bckDst true, .txnBegin "u1" true] ∧
    newEvents stDstBusy (copyBucket envIdle stDstBusy (reqCopy bckSrc bckDst "u1")).1 =
      [.tryRLock bckSrc true, .tryLock bckDst false, .unlock bckSrc] ∧
    (copyBucket envIdle stDstBusy (reqCopy bckSrc bckDst "u1")).2 =
      .err (.bucketIsBusy bckDst "t1") ∧
    BeginLocks Event.tryRLock bckSrc bckDst "u1" "t1"
      (newEvents stFresh (copyBucket envIdle stFresh (reqCopy bckSrc bckDst "u1")).1)
      (copyBucket envIdle stFresh (reqCopy bckSrc bckDst "u1")).2 ∧
    BeginLocks Event.tryRLock bckSrc bckDst "u1" "t1"
      (newEvents stDstBusy (copyBucket envIdle stDstBusy (reqCopy bckSrc bckDst "u1")).1)
      (copyBucket envIdle stDstBusy (reqCopy bckSrc bckDst "u1")).2 :=
  ⟨by decide, by decide, by decide, by decide,
   (begin_locks_source_then_destination envIdle stFresh (reqCopy bckSrc bckDst "u1") bckSrc
      propsSrc (by decide) rfl).2.2.2.2.2 ⟨bckDst, none⟩ rfl,
   (begin_locks_source_then_destination envIdle stDstBusy (reqCopy bckSrc bckDst "u1") bckSrc
      propsSrc (by decide) rfl).2.2.2.2.2 ⟨bckDst, none⟩ rfl⟩

/-- C11, counterexample: on a target that holds both ais://src and ais://dst, the
begin of the copy src to dst attempts the lock of src and then the lock of dst,
and the begin of the copy dst to src attempts the lock of dst and then the lock
of src: the order follows the direction of the operation, not the pair. -/
theorem copy_lock_order_follows_direction :
    lockAttempts (newEvents stTwoBuckets
      (txnHandler envIdle stTwoBuckets (reqCopy bckSrc bckDst "u1")).1) = [bckSrc, bckDst] ∧
    lockAttempts (newEvents stTwoBuckets
      (txnHandler envIdle stTwoBuckets (reqCopy bckDst bckSrc "u2")).1) = [bckDst, bckSrc] ∧
    (txnHandler envIdle stTwoBuckets (reqCopy bckSrc bckDst "u1")).2 = Res.ok ∧
    (txnHandler envIdle stTwoBuckets (reqCopy bckDst bckSrc "u2")).2 = Res.ok := by
  decide


/-! ## Information center: lemmas on the Smap, the table and the local retry -/

/-- A proxy found under an ID carries that ID. -/
theorem GetProxy_id {m : Smap} {pid : String} {psi : Snode} (h : m.GetProxy pid = some psi) :
    psi.id = pid := by
  unfold Smap.GetProxy at h
  have := List.find?_some h
  simpa using this

/-- Looking up the ID of a proxy that a lookup returned gives that proxy again. -/
theorem GetProxy_self {m : Smap} {pid : String} {psi : Snode} (h : m.GetProxy pid = some psi) :
    m.GetProxy psi.id = some psi := by
  rw [GetProxy_id h]; exact h

/-- A proxy found under the ID of an IC member is an IC member. -/
theorem IsIC_of_GetProxy {m : Smap} {pid : String} {psi : Snode}
    (h : m.GetProxy pid = some psi) (hmem : pid ∈ m.ic) : m.IsIC psi = true := by
  simp [Smap.IsIC, GetProxy_id h, hmem]

/-- The node that HrwIC selects is a proxy of the Smap and an IC member. -/
theorem HrwIC_ok {w : String → String → Nat} {m : Smap} {uuid : String} {h : Snode}
    (hh : HrwIC w m uuid = .ok h) : m.GetProxy h.id = some h ∧ m.IsIC h = true := by
  unfold HrwIC at hh
  split at hh
  · simp at hh
  · rename_i c cs hl
    have hsel : ∀ (l : List Snode) (b : Snode),
        l.foldl (fun best n => if w best.id uuid < w n.id uuid then n else best) b = b ∨
        l.foldl (fun best n => if w best.id uuid < w n.id uuid then n else best) b ∈ l := by
      intro l
      induction l with
      | nil => intro b; left; rfl
      | cons x xs ih =>
        intro b
        simp only [List.foldl_cons, List.mem_cons]
        rcases ih (if w b.id uuid < w x.id uuid then x else b) with h1 | h1
        · rw [h1]
          split_ifs
          · right; left; rfl
          · left; rfl
        · right; right; exact h1
    have hmem : h ∈ m.ic.filterMap m.GetProxy := by
      rw [hl]
      simp only [Except.ok.injEq] at hh
      rcases hsel cs c with h1 | h1
      · rw [← hh, h1]; exact List.mem_cons_self _ _
      · rw [← hh]; exact List.mem_cons_of_mem _ h1
    rw [List.mem_filterMap] at hmem
    obtain ⟨pid, hpid, hg⟩ := hmem
    exact ⟨GetProxy_self hg, IsIC_of_GetProxy hg hpid⟩

/-- The value that withLocalRetry yields is the condition at the state it yields. -/
theorem withLocalRetry_snd (cond : PState → Bool) (l : List (PState → PState)) (s : PState) :
    (withLocalRetry cond l s).2 = cond (withLocalRetry cond l s).1 := by
  induction l generalizing s with
  | nil => rfl
  | cons step rest ih =>
    simp only [withLocalRetry]
    split_ifs with hc
    · simp [hc]
    · exact ih _

/-- When the condition fails at the state that withLocalRetry yields, it failed at
the start as well. -/
theorem withLocalRetry_false (cond : PState → Bool) (l : List (PState → PState)) (s : PState)
    (h : cond (withLocalRetry cond l s).1 = false) : cond s = false := by
  cases l with
  | nil => simpa [withLocalRetry] using h
  | cons step rest =>
    by_cases hc : cond s = true
    · simp [withLocalRetry, hc] at h
    · simpa using hc

/-- The local retry makes no call and keeps the node. -/
theorem withLocalRetry_frame (cond : PState → Bool) (l : List (PState → PState)) (s : PState) :
    (withLocalRetry cond l s).1.ptrace = s.ptrace ∧ (withLocalRetry cond l s).1.si = s.si := by
  induction l generalizing s with
  | nil => exact ⟨rfl, rfl⟩
  | cons step rest ih =>
    simp only [withLocalRetry]
    split_ifs with hc
    · exact ⟨rfl, rfl⟩
    · exact ih (concurrently step s)

/-- The calls made between a state and the state with more calls appended. -/
theorem newPEvents_of_append {s s1 : PState} {evs : List PEvent}
    (h : s1.ptrace = s.ptrace ++ evs) : newPEvents s s1 = evs := by
  simp [newPEvents, h]

/-- The switch on the owner, for an owner that names another IC member. -/
theorem revOuter_other {env : PEnv} {si : Snode} {m : Smap} {selfIC : Bool} {owner : String}
    {psi : Snode} (hid : IsNodeID owner) (hne : owner ≠ si.id)
    (hg : m.GetProxy owner = some psi) (hic : m.IsIC psi = true) :
    revOuter env si m selfIC owner = .reversed psi := by
  obtain ⟨h1, h2⟩ := hid
  simp [revOuter, h1, h2, hg, hic, hne]

/-- The switch on the owner, for an empty owner: not owned, no reversal. -/
theorem revOuter_unowned (env : PEnv) (si : Snode) (m : Smap) (selfIC : Bool) :
    revOuter env si m selfIC "" = .notReversed := by
  simp [revOuter]

/-- The switch on the owner, for equalIC on an IC member: the member picks itself. -/
theorem revOuter_equalIC_self (env : PEnv) (si : Snode) (m : Smap) :
    revOuter env si m true equalIC = .notReversed := by
  have h : equalIC ≠ "" := by decide
  simp [revOuter, h]

/-- The switch on the owner, for equalIC on a proxy that is no IC member: the
request goes to the first key of the range over the IC map, an IC member. -/
theorem revOuter_equalIC_other {env : PEnv} {si : Snode} {m : Smap}
    (hwf : m.WellFormed) (hrange : env.RangesKeys) (hself : m.IsIC si = false) :
    ∃ pid psi, (env.rangeIC m.ic).head? = some pid ∧ m.GetProxy pid = some psi ∧
      pid ∈ m.ic ∧ m.IsIC psi = true ∧ revOuter env si m false equalIC = .reversed psi := by
  obtain ⟨hne, -, hsub⟩ := hwf
  have hperm := hrange m.ic
  cases hl : env.rangeIC m.ic with
  | nil =>
    rw [hl] at hperm
    exact absurd (List.Perm.eq_nil (List.Perm.symm hperm)) hne
  | cons pid rest =>
    have hmem : pid ∈ m.ic := by
      have : pid ∈ env.rangeIC m.ic := by rw [hl]; exact List.mem_cons_self _ _
      exact (List.Perm.mem_iff hperm).1 this
    have hs := hsub pid hmem
    cases hg : m.GetProxy pid with
    | none => simp [hg] at hs
    | some psi =>
      have hic := IsIC_of_GetProxy hg hmem
      have hpne : pid ≠ si.id := by
        intro heq
        rw [heq] at hmem
        simp [Smap.IsIC, hmem] at hself
      have h : equalIC ≠ "" := by decide
      refine ⟨pid, psi, rfl, hg, hmem, hic, ?_⟩
      simp [revOuter, h, hl, hg, hic, hpne]

/-- With a local entry for the UUID, reverseToOwner goes straight to the switch on
the recorded owner. -/
theorem reverseToOwner_exists {env : PEnv} {s : PState} {uuid owner : String}
    (h : getOwner s.notifs uuid = some owner) :
    reverseToOwner env s uuid = (s, revOuter env s.si s.smap (s.smap.IsIC s.si) owner) := by
  simp [reverseToOwner, revBegin, h]

/-- On a proxy that is no IC member and has no local entry, reverseToOwner takes
the owner from HrwIC. -/
theorem reverseToOwner_hrw {env : PEnv} {s : PState} {uuid : String}
    (hnic : s.smap.IsIC s.si = false) (hno : getOwner s.notifs uuid = none) :
    reverseToOwner env s uuid =
      match HrwIC env.hrwWeight s.smap uuid with
      | .error e => (s, .failed 500 e)
      | .ok hrwOwner => (s, revOuter env s.si s.smap false hrwOwner.id) := by
  simp only [reverseToOwner, revBegin, hno, hnic]
  split <;> simp_all

/-- Smap version 30 satisfies the invariants of the IC set. -/
theorem smapV30_wellFormed : smapV30.WellFormed := by decide

/-- The range of `envProxy` visits every key once. -/
theorem envProxy_rangesKeys : envProxy.RangesKeys := fun _ => List.Perm.refl _


/-! ## C12: a proxy outside the IC reverses to the HRW owner -/

/-- C12: on a proxy that is not an IC member and whose notifs table has no owner
for the UUID, reverseToOwner takes the owner from HrwIC: when HrwIC fails, a 500
error with the text of that failure is written and the call returns true; when
HrwIC selects a node (whose ID names a node), that node is an IC member of the
Smap other than self, the request is reverse-proxied to exactly that node, and
the call returns true. The proxy state is left as it was. -/
theorem reverseToOwner_non_ic_follows_hrw (env : PEnv) (s : PState) (uuid : String)
    (hnic : s.smap.IsIC s.si = false) (hno : getOwner s.notifs uuid = none) :
    (∀ e, HrwIC env.hrwWeight s.smap uuid = .error e →
      reverseToOwner env s uuid = (s, .failed 500 e) ∧
      (reverseToOwner env s uuid).2.reversedOrFailed = some true) ∧
    (∀ h, HrwIC env.hrwWeight s.smap uuid = .ok h → IsNodeID h.id →
      s.smap.IsIC h = true ∧ h.id ≠ s.si.id ∧
      reverseToOwner env s uuid = (s, .reversed h) ∧
      (reverseToOwner env s uuid).2.reversedOrFailed = some true) := by
  refine ⟨?_, ?_⟩
  · intro e he
    have hr : reverseToOwner env s uuid = (s, .failed 500 e) := by
      rw [reverseToOwner_hrw hnic hno, he]
    exact ⟨hr, by rw [hr]; rfl⟩
  · intro h hh hid
    obtain ⟨hg, hic⟩ := HrwIC_ok hh
    have hne : h.id ≠ s.si.id := by
      intro heq
      simp only [Smap.IsIC, heq] at hic
      simp [Smap.IsIC, hic] at hnic
    have hr : reverseToOwner env s uuid = (s, .reversed h) := by
      rw [reverseToOwner_hrw hnic hno, hh]
      simp only
      rw [revOuter_other hid hne hg hic]
    exact ⟨hic, hne, hr, by rw [hr]; rfl⟩

/-- C12, witness: proxy p5 is no IC member of Smap version 30 and has an empty
table; HRW over IC = {p1, p2, p3} selects p2 for "u42" and the request is
reverse-proxied to p2. -/
theorem reverseToOwner_non_ic_follows_hrw_witness :
    smapV30.IsIC nodeP5 = false ∧ getOwner [] "u42" = none ∧
    HrwIC envProxy.hrwWeight smapV30 "u42" = .ok nodeP2 ∧
    reverseToOwner envProxy (stProxy nodeP5 []) "u42" = (stProxy nodeP5 [], .reversed nodeP2) :=
  ⟨by decide, by decide, rfl,
   ((reverseToOwner_non_ic_follows_hrw envProxy (stProxy nodeP5 []) "u42" (by decide)
      (by decide)).2 nodeP2 rfl (by decide)).2.2.1⟩


/-! ## C13: a UUID with a local entry -/

/-- C13 (as amended): when the local notifs table has an entry for the UUID,
reverseToOwner consults neither HRW nor the IC bundle and leaves the proxy state
as it was; it returns false, without reversing, when the recorded owner is
empty, when it is equalIC and self is an IC member, and when it is self (an IC
member known to the Smap); when the recorded owner is another IC member, the
request is reverse-proxied to that owner and the call returns true. -/
theorem reverseToOwner_local_entry (env : PEnv) (s : PState) (uuid owner : String)
    (hown : getOwner s.notifs uuid = some owner) :
    (owner = "" → reverseToOwner env s uuid = (s, .notReversed)) ∧
    (owner = equalIC → s.smap.IsIC s.si = true →
      reverseToOwner env s uuid = (s, .notReversed)) ∧
    (owner = s.si.id → IsNodeID owner → s.smap.IsIC s.si = true →
      s.smap.GetProxy s.si.id = some s.si → reverseToOwner env s uuid = (s, .notReversed)) ∧
    (∀ psi, IsNodeID owner → owner ≠ s.si.id → s.smap.GetProxy owner = some psi →
      s.smap.IsIC psi = true →
      reverseToOwner env s uuid = (s, .reversed psi) ∧
      (reverseToOwner env s uuid).2.reversedOrFailed = some true) := by
  rw [reverseToOwner_exists hown]
  refine ⟨?_, ?_, ?_, ?_⟩
  · intro h; subst h; rw [revOuter_unowned]
  · intro h hic; subst h; rw [hic, revOuter_equalIC_self]
  · intro h hid hic hg
    subst h
    obtain ⟨h1, h2⟩ := hid
    simp [revOuter, h1, h2, hg, hic]
  · intro psi hid hne hg hic
    rw [revOuter_other hid hne hg hic]
    exact ⟨rfl, rfl⟩

/-- C13, witness: IC member p1 has the entry u1 with owner p2, another IC member;
the request is reverse-proxied to p2. -/
theorem reverseToOwner_local_entry_witness :
    getOwner [nlOf "u1" "p2" 7] "u1" = some "p2" ∧
    reverseToOwner envProxy (stProxy nodeP1 [nlOf "u1" "p2" 7]) "u1" =
      (stProxy nodeP1 [nlOf "u1" "p2" 7], .reversed nodeP2) :=
  ⟨by decide,
   ((reverseToOwner_local_entry envProxy (stProxy nodeP1 [nlOf "u1" "p2" 7]) "u1" "p2"
      (by decide)).2.2.2 nodeP2 (by decide) (by decide) (by decide) (by decide)).1⟩

/-- C13, counterexample: IC member p1 has a local entry for u1 whose owner is p2;
the call does not handle the request locally: it reverse-proxies the request to
p2 and returns true. -/
theorem local_entry_owned_by_peer_is_reversed :
    (getOwner (stProxy nodeP1 [nlOf "u1" "p2" 7]).notifs "u1").isSome = true ∧
    (reverseToOwner envProxy (stProxy nodeP1 [nlOf "u1" "p2" 7]) "u1").2 = .reversed nodeP2 ∧
    (reverseToOwner envProxy (stProxy nodeP1 [nlOf "u1" "p2" 7]) "u1").2.reversedOrFailed =
      some true := by
  decide


/-! ## C14: the owner values equalIC and "" -/

/-- C14: in the switch on the resolved owner of reverseToOwner, under the Smap
invariants of section 3 (a non-empty IC of proxies) and a range over the IC map
that visits its keys: for the owner equalIC an IC member picks itself and the
call returns false without forwarding, and a proxy outside the IC forwards the
request to an IC member of the current Smap (the first key that the range
yields) and returns true; for the empty owner the call returns false without
forwarding. The same holds for reverseToOwner when the owner is the one that the
local table records. -/
theorem equalIC_and_unowned_resolution (env : PEnv) (s : PState) (uuid : String)
    (hwf : s.smap.WellFormed) (hrange : env.RangesKeys) :
    revOuter env s.si s.smap (s.smap.IsIC s.si) "" = .notReversed ∧
    (s.smap.IsIC s.si = true →
      revOuter env s.si s.smap (s.smap.IsIC s.si) equalIC = .notReversed) ∧
    (s.smap.IsIC s.si = false →
      ∃ psi, revOuter env s.si s.smap (s.smap.IsIC s.si) equalIC = .reversed psi ∧
        psi.id ∈ s.smap.ic ∧ s.smap.IsIC psi = true ∧ psi.id ≠ s.si.id ∧
        (RevOutcome.reversed psi).reversedOrFailed = some true) ∧
    (getOwner s.notifs uuid = some "" → reverseToOwner env s uuid = (s, .notReversed)) ∧
    (getOwner s.notifs uuid = some equalIC → s.smap.IsIC s.si = true →
      reverseToOwner env s uuid = (s, .notReversed)) ∧
    (getOwner s.notifs uuid = some equalIC → s.smap.IsIC s.si = false →
      ∃ psi, reverseToOwner env s uuid = (s, .reversed psi) ∧ s.smap.IsIC psi = true) := by
  have hother : s.smap.IsIC s.si = false →
      ∃ psi, revOuter env s.si s.smap (s.smap.IsIC s.si) equalIC = .reversed psi ∧
        psi.id ∈ s.smap.ic ∧ s.smap.IsIC psi = true ∧ psi.id ≠ s.si.id := by
    intro hself
    obtain ⟨pid, psi, -, hg, hmem, hic, hr⟩ := revOuter_equalIC_other hwf hrange hself
    refine ⟨psi, by rw [hself]; exact hr, by rw [GetProxy_id hg]; exact hmem, hic, ?_⟩
    intro heq
    rw [GetProxy_id hg] at heq
    rw [heq] at hmem
    simp [Smap.IsIC, hmem] at hself
  refine ⟨revOuter_unowned _ _ _ _, ?_, ?_, ?_, ?_, ?_⟩
  · intro hic; rw [hic]; exact revOuter_equalIC_self _ _ _
  · intro hself
    obtain ⟨psi, h1, h2, h3, h4⟩ := hother hself
    exact ⟨psi, h1, h2, h3, h4, rfl⟩
  · intro h; rw [reverseToOwner_exists h, revOuter_unowned]
  · intro h hic; rw [reverseToOwner_exists h, hic, revOuter_equalIC_self]
  · intro h hself
    obtain ⟨psi, h1, -, h3, -⟩ := hother hself
    exact ⟨psi, by rw [reverseToOwner_exists h, h1], h3⟩

/-- C14, witness: on proxy p5, outside the IC, the entry u1 is owned by equalIC;
the request is forwarded to p1, the first key of the range over IC = {p1, p2,
p3}, and p1 is an IC member. -/
theorem equalIC_and_unowned_resolution_witness :
    smapV30.WellFormed ∧ envProxy.RangesKeys ∧
    getOwner [nlOf "u1" equalIC 7] "u1" = some equalIC ∧ smapV30.IsIC nodeP5 = false ∧
    reverseToOwner envProxy (stProxy nodeP5 [nlOf "u1" equalIC 7]) "u1" =
      (stProxy nodeP5 [nlOf "u1" equalIC 7], .reversed nodeP1) ∧
    (∃ psi, reverseToOwner envProxy (stProxy nodeP5 [nlOf "u1" equalIC 7]) "u1" =
        (stProxy nodeP5 [nlOf "u1" equalIC 7], .reversed psi) ∧ smapV30.IsIC psi = true) :=
  ⟨smapV30_wellFormed, envProxy_rangesKeys, by decide, by decide, by decide,
   (equalIC_and_unowned_resolution envProxy (stProxy nodeP5 [nlOf "u1" equalIC 7]) "u1"
      smapV30_wellFormed envProxy_rangesKeys).2.2.2.2.2 (by decide) (by decide)⟩


/-! ## C15: an absent UUID on an IC member -/

/-- The calls of synchronize: one, and the node stays. -/
theorem synchronize_frame (s : PState) (m : Smap) (b : Bool) :
    (synchronize s m b).1.ptrace = s.ptrace ++ [.synchronize m.version] ∧
    (synchronize s m b).1.si = s.si ∧ (synchronize s m b).1.notifs = s.notifs := by
  unfold synchronize
  simp only [PState.plog]
  split_ifs <;> exact ⟨rfl, rfl, rfl⟩

/-- One run of syncICBundle records itself exactly once among its calls. -/
theorem syncICBundle_once (env : PEnv) (s : PState) :
    (newPEvents s (syncICBundle env s).1).count PEvent.syncICBundle = 1 := by
  unfold syncICBundle newPEvents
  simp only [PState.plog]
  split
  · simp
  · split_ifs
    · simp
    · split
      · simp
      · simp
      · split
        · simp
        · split_ifs
          · simp
          · simp [(synchronize_frame _ _ _).1]
          · split
            · simp [(synchronize_frame _ _ _).1]
            · simp [(synchronize_frame _ _ _).1]

/-- The verb %q writes a control character as a hexadecimal escape: the UUID made
of the letter u and the character 0x01 is written, between double quotes, as
the letter u, a backslash and the three characters x01. -/
theorem goQuote_control_rune (isPrint : Char → Bool) :
    goQuote isPrint (String.mk ['u', Char.ofNat 1]) =
      String.mk ['"', 'u', '\\', 'x', '0', '1', '"'] := rfl

/-- The second pass of reverseToOwner leaves the proxy state as it is and never
jumps back to the label `begin`. -/
theorem revBegin_second_pass (env : PEnv) (again1 again2 : PState → PState × RevOutcome)
    (st : PState) (uuid : String) :
    (revBegin env false again1 st uuid).1 = st ∧
    revBegin env false again1 st uuid = revBegin env false again2 st uuid := by
  unfold revBegin
  simp only [Bool.not_false, if_true]
  split
  · simp
  · split_ifs
    · simp
    · split <;> simp

/-- C15 (as amended): on an IC member, for a UUID that is absent from the notifs
table at the end of the local retries, reverseToOwner runs syncICBundle exactly
once, and its second pass never jumps back to the label begin (two passes at
most). When syncICBundle fails one of its assertions the call panics. When
syncICBundle returns, the UUID is still absent and self is still an IC member,
the call writes the not-found error and returns true; the status of that error
is the one that invalmsghdlrf writes when none is passed (the call site passes
none). -/
theorem reverseToOwner_absent_uuid_on_ic_member (env : PEnv) (s : PState) (uuid : String)
    (hic : s.smap.IsIC s.si = true)
    (habs1 : getOwner (afterRetries env s uuid).notifs uuid = none) :
    (newPEvents s (reverseToOwner env s uuid).1).count PEvent.syncICBundle = 1 ∧
    (reverseToOwner env s uuid).1 = (afterSync env s uuid).1 ∧
    (∀ again1 again2 st,
      revBegin env false again1 st uuid = revBegin env false again2 st uuid) ∧
    ((afterSync env s uuid).2 = .panic →
      (reverseToOwner env s uuid).2 = .panic ∧
      (reverseToOwner env s uuid).2.reversedOrFailed = none) ∧
    ((afterSync env s uuid).2 ≠ .panic →
      getOwner (afterSync env s uuid).1.notifs uuid = none →
      (afterSync env s uuid).1.smap.IsIC (afterSync env s uuid).1.si = true →
      (reverseToOwner env s uuid).2 =
        .failed env.invalStatus (goQuote env.isPrint uuid ++ " not found (" ++
          env.strIC (afterSync env s uuid).1.smap (afterSync env s uuid).1.si ++ ")") ∧
      (reverseToOwner env s uuid).2.reversedOrFailed = some true) := by
  unfold afterSync afterRetries at *
  have habs0 : getOwner s.notifs uuid = none := by
    have := withLocalRetry_false (fun st => (getOwner st.notifs uuid).isSome) env.during s
      (by simp [habs1])
    simpa using this
  have hr : reverseToOwner env s uuid =
      if (syncICBundle env
          (withLocalRetry (fun st => (getOwner st.notifs uuid).isSome) env.during s).1).2 = .panic
      then ((syncICBundle env
          (withLocalRetry (fun st => (getOwner st.notifs uuid).isSome) env.during s).1).1, .panic)
      else revBegin env false (fun s3 => (s3, .panic)) (syncICBundle env
          (withLocalRetry (fun st => (getOwner st.notifs uuid).isSome) env.during s).1).1 uuid := by
    simp only [reverseToOwner]
    rw [revBegin]
    simp only [habs0, hic, habs1]
    rfl
  have hst : (reverseToOwner env s uuid).1 = (syncICBundle env
      (withLocalRetry (fun st => (getOwner st.notifs uuid).isSome) env.during s).1).1 := by
    rw [hr]
    split_ifs
    · rfl
    · exact (revBegin_second_pass env _ (fun s3 => (s3, .panic)) _ uuid).1
  refine ⟨?_, hst, fun a1 a2 st => (revBegin_second_pass env a1 a2 st uuid).2, ?_, ?_⟩
  · rw [hst]
    have h1 := syncICBundle_once env
      (withLocalRetry (fun st => (getOwner st.notifs uuid).isSome) env.during s).1
    simp only [newPEvents, (withLocalRetry_frame _ _ _).1] at h1
    simpa [newPEvents] using h1
  · intro hp
    rw [hr, if_pos hp]
    exact ⟨rfl, rfl⟩
  · intro hnp habs2 hic2
    rw [hr, if_neg hnp, revBegin]
    simp [habs2, hic2, RevOutcome.reversedOrFailed]

/-- C15, witness: IC member p3 of Smap version 30 has an empty notifs table; the
oldest IC member p1 answers the bundle query with an empty table, so "u9" stays
absent. reverseToOwner runs syncICBundle once and returns true with the
not-found error, written with the default status of the error helper. -/
theorem reverseToOwner_absent_uuid_on_ic_member_witness :
    smapV30.IsIC nodeP3 = true ∧
    (afterSync envProxy (stProxy nodeP3 []) "u9").2 = .nil ∧
    (reverseToOwner envProxy (stProxy nodeP3 []) "u9").2 =
      .failed envProxy.invalStatus "\"u9\" not found (p3)" ∧
    (reverseToOwner envProxy (stProxy nodeP3 []) "u9").2.reversedOrFailed = some true ∧
    (newPEvents (stProxy nodeP3 []) (reverseToOwner envProxy (stProxy nodeP3 []) "u9").1).count
      PEvent.syncICBundle = 1 :=
  ⟨by decide, by decide,
   ((reverseToOwner_absent_uuid_on_ic_member envProxy (stProxy nodeP3 []) "u9" (by decide)
      (by decide)).2.2.2.2 (by decide) (by decide) (by decide)).1,
   by decide,
   (reverseToOwner_absent_uuid_on_ic_member envProxy (stProxy nodeP3 []) "u9" (by decide)
      (by decide)).1⟩

/-- C15, counterexample: IC member p3 of Smap version 30 (cluster A) has no entry
for "u9"; the oldest IC member p1 answers the bundle query with the Smap of
cluster B. syncICBundle is invoked once and fails its assertion on the cluster
UUID: the call panics. The UUID is still absent and p3 is still an IC member,
yet no error is written and the call does not return true. -/
theorem absent_uuid_and_sync_assertion_fails :
    smapV30.IsIC nodeP3 = true ∧
    getOwner (afterRetries envForeign (stProxy nodeP3 []) "u9").notifs "u9" = none ∧
    (afterSync envForeign (stProxy nodeP3 []) "u9").2 = .panic ∧
    (newPEvents (stProxy nodeP3 []) (reverseToOwner envForeign (stProxy nodeP3 []) "u9").1).count
      PEvent.syncICBundle = 1 ∧
    getOwner (reverseToOwner envForeign (stProxy nodeP3 []) "u9").1.notifs "u9" = none ∧
    (reverseToOwner envForeign (stProxy nodeP3 []) "u9").1.smap.IsIC
      (reverseToOwner envForeign (stProxy nodeP3 []) "u9").1.si = true ∧
    (reverseToOwner envForeign (stProxy nodeP3 []) "u9").2 = .panic ∧
    (reverseToOwner envForeign (stProxy nodeP3 []) "u9").2.reversedOrFailed ≠ some true := by
  decide


/-! ## C16: determinism of the choice of the owner -/

/-- C16 (as amended): two proxies outside the IC that hold the same Smap and have
no local entry for the UUID end the same way whenever the HRW owner is not the
reserved value equalIC, whatever order their ranges over the IC map take: both
forward to the HRW owner, or both write the HRW failure; and two runs of one
proxy with the same Smap, table and UUID end the same way whenever the recorded
owner is not equalIC or the proxy is an IC member. (For the owner equalIC on a
proxy outside the IC the target is the first key of a range over the IC map.) -/
theorem owner_choice_deterministic (env1 env2 : PEnv) (s t : PState) (uuid : String) :
    (env1.hrwWeight = env2.hrwWeight → s.smap = t.smap →
      s.smap.IsIC s.si = false → t.smap.IsIC t.si = false →
      getOwner s.notifs uuid = none → getOwner t.notifs uuid = none →
      (∀ h, HrwIC env1.hrwWeight s.smap uuid = .ok h → h.id ≠ equalIC) →
      (reverseToOwner env1 s uuid).2 = (reverseToOwner env2 t uuid).2) ∧
    (∀ owner, getOwner s.notifs uuid = some owner →
      (owner ≠ equalIC ∨ s.smap.IsIC s.si = true) →
      reverseToOwner env1 s uuid = reverseToOwner env2 s uuid) := by
  refine ⟨?_, ?_⟩
  · intro hw hsm hs ht hns hnt hid
    rw [reverseToOwner_hrw hs hns, reverseToOwner_hrw ht hnt, ← hw, ← hsm]
    cases hh : HrwIC env1.hrwWeight s.smap uuid with
    | error e => rfl
    | ok h =>
      obtain ⟨hg, hic⟩ := HrwIC_ok hh
      have hne := hid h hh
      have hmem : h.id ∈ s.smap.ic := by simpa [Smap.IsIC] using hic
      have h1 : h.id ≠ s.si.id := by
        intro heq; rw [heq] at hmem; simp [Smap.IsIC, hmem] at hs
      have h2 : h.id ≠ t.si.id := by
        intro heq; rw [heq, hsm] at hmem; simp [Smap.IsIC, hmem] at ht
      by_cases he : h.id = ""
      · simp [revOuter, he]
      · simp [revOuter, he, hne, hg, hic, h1, h2]
  · intro owner hown hor
    rw [reverseToOwner_exists hown, reverseToOwner_exists hown]
    by_cases he : owner = equalIC
    · rcases hor with h | h
      · exact absurd he h
      · subst he
        rw [h, revOuter_equalIC_self, revOuter_equalIC_self]
    · simp [revOuter, he]

/-- C16, witness: p5 and p6 are outside the IC of Smap version 30 and have no
entry for "u42"; whatever the order of their ranges over the IC map, both
forward to p2, the HRW owner. -/
theorem owner_choice_deterministic_witness :
    (reverseToOwner envProxy (stProxy nodeP5 []) "u42").2 = .reversed nodeP2 ∧
    (reverseToOwner envProxy (stProxy nodeP5 []) "u42").2 =
      (reverseToOwner envProxyRev (stProxy nodeP6 []) "u42").2 :=
  ⟨by decide,
   (owner_choice_deterministic envProxy envProxyRev (stProxy nodeP5 []) (stProxy nodeP6 [])
      "u42").1 rfl rfl (by decide) (by decide) (by decide) (by decide)
      (fun h hh => by
        have h2 : h = nodeP2 := by
          have h3 : HrwIC envProxy.hrwWeight (stProxy nodeP5 []).smap "u42" = .ok nodeP2 := rfl
          rw [h3] at hh
          exact (Except.ok.inj hh).symm
        rw [h2]; decide)⟩

/-- C16, counterexample: proxy p5, outside the IC, holds the entry u1 with owner
equalIC. Two runs with the same Smap, table and UUID forward to p1 when the
range over the IC map starts at p1 and to p3 when it starts at p3; Go does not
fix the order of a range over a map. -/
theorem equalIC_outside_ic_follows_range_order :
    envProxy.RangesKeys ∧ envProxyRev.RangesKeys ∧
    (reverseToOwner envProxy (stProxy nodeP5 [nlOf "u1" equalIC 7]) "u1").2 =
      .reversed nodeP1 ∧
    (reverseToOwner envProxyRev (stProxy nodeP5 [nlOf "u1" equalIC 7]) "u1").2 =
      .reversed nodeP3 :=
  ⟨fun _ => List.Perm.refl _, fun l => List.reverse_perm l, by decide, by decide⟩


/-! ## GET /v1/ic: what handleGet answers -/

/-- For every value of `what`, handleGet on a proxy that is not a member of the IC
of its current Smap writes the error "not an IC member" through invalmsghdlrf,
with no status passed, and writes no bundle; on an IC member, what = ic-bundle
yields the bundle of the Smap snapshot that was checked for membership and of
the ownership table, and every other `what` yields an error, written the same
way. The status that invalmsghdlrf writes when none is passed is not in the
sources at hand. -/
theorem handleGet_by_membership (env : PEnv) (s : PState) (what : String) :
    (s.smap.IsIC s.si = false →
      handleGet env s what =
        .failed env.invalStatus (env.showSnode s.si ++ ": not an IC member")) ∧
    (s.smap.IsIC s.si = true → what = GetWhatICBundle →
      handleGet env s what = .bundle s.smap s.notifs) ∧
    (s.smap.IsIC s.si = true → what ≠ GetWhatICBundle →
      handleGet env s what = .failed env.invalStatus (env.fmtUnknownQue what)) := by
  refine ⟨?_, ?_, ?_⟩
  · intro h; simp [handleGet, h]
  · intro h hw; simp [handleGet, h, hw]
  · intro h hw; simp [handleGet, h, hw]

/-- An instance: p5 is outside the IC and gets the error for what = ic-bundle; p1 is
an IC member and returns the bundle of its Smap and table. -/
theorem handleGet_by_membership_witness :
    handleGet envProxy (stProxy nodeP5 []) GetWhatICBundle =
      .failed envProxy.invalStatus "p[p5]: not an IC member" ∧
    handleGet envProxy (stProxy nodeP1 [nlOf "u1" equalIC 7]) GetWhatICBundle =
      .bundle smapV30 [nlOf "u1" equalIC 7] :=
  ⟨(handleGet_by_membership envProxy (stProxy nodeP5 []) GetWhatICBundle).1 (by decide),
   (handleGet_by_membership envProxy (stProxy nodeP1 [nlOf "u1" equalIC 7])
      GetWhatICBundle).2.1 (by decide) rfl⟩


/-! ## C18: registerEqual -/

/-- The entry of a UUID in the empty table. -/
theorem notifsEntry_nil (u : String) : notifsEntry [] u = none := rfl

/-- The entry of a UUID in a table, by its first entry. -/
theorem notifsEntry_cons (x : NL) (xs : List NL) (u : String) :
    notifsEntry (x :: xs) u = if x.uuid = u then some x else notifsEntry xs u := by
  unfold notifsEntry
  rw [List.find?_cons]
  by_cases h : x.uuid = u
  · have hb : (x.uuid == u) = true := by simpa using h
    rw [hb, if_pos h]
  · have hb : (x.uuid == u) = false := by simpa using h
    rw [hb, if_neg h]

/-- The entry of a UUID in a table with one more entry at the end. -/
theorem notifsEntry_append (tbl : List NL) (e : NL) (u : String) :
    notifsEntry (tbl ++ [e]) u =
      match notifsEntry tbl u with
      | some o => some o
      | none => if e.uuid = u then some e else none := by
  induction tbl with
  | nil =>
    rw [List.nil_append, notifsEntry_cons, notifsEntry_nil]
  | cons x xs ih =>
    rw [List.cons_append, notifsEntry_cons, notifsEntry_cons, ih]
    by_cases hx : x.uuid = u <;> simp [hx]

/-- The entry of a UUID in a table whose entries of the UUID of `e` were replaced
by `e`. -/
theorem notifsEntry_replace (tbl : List NL) (e : NL) (u : String) :
    notifsEntry (tbl.map (fun x => if x.uuid = e.uuid then e else x)) u =
      if u = e.uuid then (notifsEntry tbl u).map (fun _ => e) else notifsEntry tbl u := by
  induction tbl with
  | nil => simp [notifsEntry_nil]
  | cons x xs ih =>
    rw [List.map_cons, notifsEntry_cons, notifsEntry_cons, ih]
    by_cases hx : x.uuid = e.uuid
    · by_cases hu : u = e.uuid
      · simp [hx, hu]
      · have h1 : ¬ e.uuid = u := fun h => hu h.symm
        simp [hx, hu, h1]
    · by_cases hxu : x.uuid = u
      · have hu : ¬ u = e.uuid := fun h => hx (hxu.trans h)
        simp [hx, hxu, hu]
      · simp [hx, hxu]

/-- After notifs.add the table holds the listener under its UUID. -/
theorem notifsAdd_entry (s : PState) (nl : NL) :
    notifsEntry (notifsAdd s nl).notifs nl.uuid = some nl := by
  unfold notifsAdd
  simp only [PState.plog]
  split
  · rename_i o ho
    rw [notifsEntry_replace]
    simp [ho]
  · rename_i ho
    rw [notifsEntry_append]
    simp [ho]

/-- The nodes that bcastListenIC collects when every key is a proxy: the keys
other than self, in the order of the range. -/
theorem bcastNodes_ids (si : Snode) (m : Smap) (l : List String)
    (h : ∀ pid ∈ l, (m.GetProxy pid).isSome = true) :
    ∃ nodes, bcastNodes si m l = some nodes ∧
      nodes.map Snode.id = l.filter (fun pid => decide (pid ≠ si.id)) := by
  induction l with
  | nil => exact ⟨[], rfl, rfl⟩
  | cons pid rest ih =>
    obtain ⟨nodes, hn, hids⟩ := ih (fun p hp => h p (List.mem_cons_of_mem _ hp))
    by_cases hp : pid = si.id
    · refine ⟨nodes, ?_, ?_⟩
      · simp [bcastNodes, hp, hn]
      · simp [hp, hids]
    · have hs := h pid (List.mem_cons_self _ _)
      cases hg : m.GetProxy pid with
      | none => simp [hg] at hs
      | some psi =>
        refine ⟨psi :: nodes, ?_, ?_⟩
        · simp [bcastNodes, hp, hg, hn]
        · simp [hp, hids, GetProxy_id hg]

/-- Among two or more distinct keys, one differs from any given ID. -/
theorem exists_ne_of_two (l : List String) (x : String) (hnd : l.Nodup) (hlen : l.length > 1) :
    ∃ pid ∈ l, pid ≠ x := by
  match l, hnd, hlen with
  | a :: b :: rest, hnd, _ =>
    by_cases ha : a = x
    · refine ⟨b, by simp, ?_⟩
      intro hb
      have : a ≠ b := by
        intro hab
        rw [List.nodup_cons] at hnd
        exact hnd.1 (by simp [hab])
      exact this (ha.trans hb.symm)
    · exact ⟨a, by simp, ha⟩

/-- The broadcast of bcastListenIC under the Smap invariants, for an IC of two or
more members: one broadcast, to exactly the IC members other than self. -/
theorem bcastListenIC_recipients {env : PEnv} (s : PState) (nl : NL) {m : Smap}
    (hwf : m.WellFormed) (hrange : env.RangesKeys) (hlen : m.ic.length > 1) :
    ∃ ids, (∀ pid, pid ∈ ids ↔ pid ∈ m.ic ∧ pid ≠ s.si.id) ∧
      (bcastListenIC env s nl m).1 = s.plog (.bcast ids ActListenToNotif nl.uuid) ∧
      (bcastListenIC env s nl m).2 ≠ .panic := by
  obtain ⟨-, hnd, hsub⟩ := hwf
  have hperm := hrange m.ic
  obtain ⟨nodes, hn, hids⟩ := bcastNodes_ids s.si m (env.rangeIC m.ic)
    (fun pid hp => hsub pid ((List.Perm.mem_iff hperm).1 hp))
  have hmem : ∀ pid, pid ∈ nodes.map Snode.id ↔ pid ∈ m.ic ∧ pid ≠ s.si.id := by
    intro pid
    rw [hids, List.mem_filter, List.Perm.mem_iff hperm]
    simp
  obtain ⟨x, hx, hxne⟩ := exists_ne_of_two m.ic s.si.id hnd hlen
  have hpos : nodes.length > 0 := by
    have : x ∈ nodes.map Snode.id := (hmem x).2 ⟨hx, hxne⟩
    have h2 : (nodes.map Snode.id).length > 0 := List.length_pos_of_mem this
    simpa using h2
  refine ⟨nodes.map Snode.id, hmem, ?_, ?_⟩
  · unfold bcastListenIC
    simp only [hn, hpos, if_true]
    split <;> rfl
  · unfold bcastListenIC
    simp only [hn, hpos, if_true]
    split <;> simp

/-- C18 (as amended): under the Smap invariants of section 3, registerEqual
inserts the listener into the local notifs table if and only if self is a member
of the IC of the Smap of the caller; when that IC has two or more members, one
listen-to-notif message is broadcast, to exactly the set IC \ {self}; when it
has a single member nothing is broadcast, whether self is that member or not. -/
theorem registerEqual_insert_and_broadcast (env : PEnv) (s : PState) (a : regIC)
    (hwf : a.smap.WellFormed) (hrange : env.RangesKeys) :
    (a.smap.IsIC s.si = true →
      notifsEntry (registerEqual env s a).1.notifs a.nl.uuid = some a.nl) ∧
    (a.smap.IsIC s.si = false → (registerEqual env s a).1.notifs = s.notifs) ∧
    (PEvent.notifsAdd a.nl.uuid ∈ newPEvents s (registerEqual env s a).1 ↔
      a.smap.IsIC s.si = true) ∧
    (a.smap.ic.length > 1 →
      ∃ ids, (∀ pid, pid ∈ ids ↔ pid ∈ a.smap.ic ∧ pid ≠ s.si.id) ∧
        newPEvents s (registerEqual env s a).1 =
          (if a.smap.IsIC s.si then [PEvent.notifsAdd a.nl.uuid] else []) ++
            [PEvent.bcast ids ActListenToNotif a.nl.uuid]) ∧
    (a.smap.ic.length ≤ 1 →
      ∀ ids act u, PEvent.bcast ids act u ∉ newPEvents s (registerEqual env s a).1) := by
  by_cases hlen : a.smap.ic.length > 1
  · obtain ⟨ids, hmem, hst, -⟩ := bcastListenIC_recipients
      (if a.smap.IsIC s.si = true then notifsAdd s a.nl else s) a.nl hwf hrange hlen
    have hsi : (if a.smap.IsIC s.si = true then notifsAdd s a.nl else s).si = s.si := by
      split_ifs <;> rfl
    rw [hsi] at hmem
    have hr : (registerEqual env s a).1 =
        (if a.smap.IsIC s.si = true then notifsAdd s a.nl else s).plog
          (.bcast ids ActListenToNotif a.nl.uuid) := by
      simp only [registerEqual, hlen, if_true]
      exact hst
    rw [hr]
    by_cases hic : a.smap.IsIC s.si = true
    · simp only [hic, if_true]
      refine ⟨fun _ => notifsAdd_entry s a.nl, by simp, ?_, ?_, ?_⟩
      · simp [newPEvents, PState.plog, notifsAdd]
      · intro _
        exact ⟨ids, hmem, by simp [newPEvents, PState.plog, notifsAdd]⟩
      · intro h; omega
    · simp only [hic, if_false]
      refine ⟨by simp [hic], fun _ => rfl, ?_, ?_, ?_⟩
      · simp [newPEvents, PState.plog, hic]
      · intro _
        exact ⟨ids, hmem, by simp [newPEvents, PState.plog]⟩
      · intro h; omega
  · have hr : (registerEqual env s a).1 =
        (if a.smap.IsIC s.si = true then notifsAdd s a.nl else s) := by
      simp [registerEqual, hlen]
    rw [hr]
    by_cases hic : a.smap.IsIC s.si = true
    · simp only [hic, if_true]
      refine ⟨fun _ => notifsAdd_entry s a.nl, by simp, ?_, fun h => absurd h hlen, ?_⟩
      · simp [newPEvents, PState.plog, notifsAdd]
      · intro _ ids act u
        simp [newPEvents, PState.plog, notifsAdd]
    · simp only [hic, if_false]
      refine ⟨by simp [hic], fun _ => rfl, ?_, fun h => absurd h hlen, ?_⟩
      · simp [newPEvents, hic]
      · intro _ ids act u
        simp [newPEvents]

/-- C18, witness: IC member p1 registers u1 under Smap version 30 with IC = {p1,
p2, p3}: the listener enters the table of p1 and one listen-to-notif message is
broadcast to p2 and p3. -/
theorem registerEqual_insert_and_broadcast_witness :
    smapV30.WellFormed ∧ envProxy.RangesKeys ∧
    notifsEntry (registerEqual envProxy (stProxy nodeP1 [])
      ⟨nlOf "u1" equalIC 7, smapV30, none⟩).1.notifs "u1" = some (nlOf "u1" equalIC 7) ∧
    newPEvents (stProxy nodeP1 []) (registerEqual envProxy (stProxy nodeP1 [])
      ⟨nlOf "u1" equalIC 7, smapV30, none⟩).1 =
      [.notifsAdd "u1", .bcast ["p2", "p3"] ActListenToNotif "u1"] :=
  ⟨smapV30_wellFormed, envProxy_rangesKeys,
   (registerEqual_insert_and_broadcast envProxy (stProxy nodeP1 [])
      ⟨nlOf "u1" equalIC 7, smapV30, none⟩ smapV30_wellFormed envProxy_rangesKeys).1
      (by decide),
   by decide⟩

/-- C18, counterexample: under an Smap whose IC is {p1}, proxy p5 (outside the IC)
registers u1: nothing enters its table and no message is broadcast, so the IC
member p1 does not receive the listener. -/
theorem sole_ic_member_is_not_notified :
    smapOneIC.WellFormed ∧ smapOneIC.IsIC nodeP5 = false ∧ smapOneIC.IsIC nodeP1 = true ∧
    nodeP1 ≠ nodeP5 ∧
    (registerEqual envProxy ⟨nodeP5, smapOneIC, [], []⟩
      ⟨nlOf "u1" equalIC 7, smapOneIC, none⟩).1 = ⟨nodeP5, smapOneIC, [], []⟩ ∧
    newPEvents ⟨nodeP5, smapOneIC, [], []⟩ (registerEqual envProxy ⟨nodeP5, smapOneIC, [], []⟩
      ⟨nlOf "u1" equalIC 7, smapOneIC, none⟩).1 = [] := by
  decide


/-! ## C19: the merge of an ownership table -/

/-- The entry of a UUID after one step of the merge. -/
theorem notifsEntry_mergeOne (tbl : List NL) (e : NL) (u : String) :
    notifsEntry (mergeOne tbl e) u =
      if e.uuid = u then keptEntry (notifsEntry tbl u) (some e)
      else notifsEntry tbl u := by
  unfold mergeOne
  by_cases hu : e.uuid = u
  · subst hu
    cases ho : notifsEntry tbl e.uuid with
    | none => simp [notifsEntry_append, ho, keptEntry]
    | some o =>
      by_cases hlt : o.started < e.started
      · simp [hlt, notifsEntry_replace, ho, keptEntry]
      · simp [hlt, ho, keptEntry]
  · have hu2 : ¬ u = e.uuid := fun h => hu h.symm
    cases ho : notifsEntry tbl e.uuid with
    | none =>
      simp only [notifsEntry_append, hu, if_false]
      cases notifsEntry tbl u <;> rfl
    | some o =>
      by_cases hlt : o.started < e.started
      · simp [hlt, notifsEntry_replace, hu, hu2]
      · simp [hlt, hu]

/-- Without an incoming entry the local entry is kept. -/
theorem keptEntry_none (o : Option NL) : keptEntry o none = o := by
  cases o <;> rfl

/-- The entry of every UUID after the merge of a table that has one entry per
UUID: what keptEntry selects between the local and the incoming entry. -/
theorem notifsEntry_mergeTbl (tbl incoming : List NL) (u : String)
    (hnd : (incoming.map NL.uuid).Nodup) :
    notifsEntry (mergeTbl tbl incoming) u =
      keptEntry (notifsEntry tbl u) (notifsEntry incoming u) := by
  induction incoming generalizing tbl with
  | nil => simp [mergeTbl, notifsEntry_nil, keptEntry_none]
  | cons e rest ih =>
    rw [List.map_cons, List.nodup_cons] at hnd
    obtain ⟨hnot, hrest⟩ := hnd
    have hstep : mergeTbl tbl (e :: rest) = mergeTbl (mergeOne tbl e) rest := rfl
    rw [hstep, ih (mergeOne tbl e) hrest, notifsEntry_mergeOne, notifsEntry_cons]
    by_cases hu : e.uuid = u
    · have hnone : notifsEntry rest u = none := by
        cases hr : notifsEntry rest u with
        | none => rfl
        | some x =>
          exfalso
          apply hnot
          unfold notifsEntry at hr
          have h1 := List.find?_some hr
          have h2 := List.mem_of_find?_eq_some hr
          rw [hu]
          exact List.mem_map.2 ⟨x, h2, by simpa using h1⟩
      simp [hu, hnone, keptEntry_none]
    · simp [hu]

/-- C19: handlePost with the action merge-ownership-table on an IC member, for a
table of the sender that decodes and has one entry per UUID: the call succeeds and
the table of the receiver afterwards holds, for every UUID, the entry of the one
table that has it (nothing present only at the receiver is lost, everything
present only at the sender is gained) and, for a UUID present in both, the
entry with the later start time. -/
theorem merge_ownership_table_is_union (env : PEnv) (s : PState) (msg : ICMsg)
    (tbl : List NL) (hic : s.smap.IsIC s.si = true)
    (hact : msg.action = ActMergeOwnershipTbl) (htbl : msg.asTable = .ok tbl)
    (hnd : (tbl.map NL.uuid).Nodup) :
    (handlePost env s (.ok msg)).2 = .done ∧
    (∀ u, notifsEntry (handlePost env s (.ok msg)).1.notifs u =
      keptEntry (notifsEntry s.notifs u) (notifsEntry tbl u)) ∧
    (∀ u o, notifsEntry s.notifs u = some o → notifsEntry tbl u = none →
      notifsEntry (handlePost env s (.ok msg)).1.notifs u = some o) ∧
    (∀ u o e, notifsEntry s.notifs u = some o → notifsEntry tbl u = some e →
      o.started < e.started →
      notifsEntry (handlePost env s (.ok msg)).1.notifs u = some e) ∧
    (∀ u o e, notifsEntry s.notifs u = some o → notifsEntry tbl u = some e →
      e.started < o.started →
      notifsEntry (handlePost env s (.ok msg)).1.notifs u = some o) := by
  have hr : handlePost env s (.ok msg) =
      ({ s with notifs := mergeTbl s.notifs tbl }, .done) := by
    simp [handlePost, hic, hact, htbl]
  rw [hr]
  have hall : ∀ u, notifsEntry (mergeTbl s.notifs tbl) u =
      keptEntry (notifsEntry s.notifs u) (notifsEntry tbl u) :=
    fun u => notifsEntry_mergeTbl s.notifs tbl u hnd
  refine ⟨rfl, hall, ?_, ?_, ?_⟩
  · intro u o ho hn
    simp only [hall, ho, hn, keptEntry]
  · intro u o e ho he hlt
    simp only [hall, ho, he, keptEntry, hlt, if_true]
  · intro u o e ho he hlt
    have hnlt : ¬ o.started < e.started := by omega
    simp only [hall, ho, he, keptEntry, hnlt, if_false]

/-- C19, witness: IC member p1 holds u1 (started at 5) and u2 (started at 9); the
table of the sender holds u2 (started at 7) and u3 (started at 8), and u1 again with
the start time 6. After the merge p1 holds u1 of the sender (6 is later than 5),
its own u2 (9 is later than 7) and u3 of the sender. -/
theorem merge_ownership_table_is_union_witness :
    (handlePost envProxy (stProxy nodeP1 [nlOf "u1" "p1" 5, nlOf "u2" "p1" 9])
      (.ok ⟨ActMergeOwnershipTbl, 30,
        .ok [nlOf "u2" "p2" 7, nlOf "u3" "p2" 8, nlOf "u1" "p2" 6], .error "no listener"⟩)).2 =
      .done ∧
    (handlePost envProxy (stProxy nodeP1 [nlOf "u1" "p1" 5, nlOf "u2" "p1" 9])
      (.ok ⟨ActMergeOwnershipTbl, 30,
        .ok [nlOf "u2" "p2" 7, nlOf "u3" "p2" 8, nlOf "u1" "p2" 6], .error "no listener"⟩)).1.notifs =
      [nlOf "u1" "p2" 6, nlOf "u2" "p1" 9, nlOf "u3" "p2" 8] :=
  ⟨(merge_ownership_table_is_union envProxy
      (stProxy nodeP1 [nlOf "u1" "p1" 5, nlOf "u2" "p1" 9])
      ⟨ActMergeOwnershipTbl, 30,
        .ok [nlOf "u2" "p2" 7, nlOf "u3" "p2" 8, nlOf "u1" "p2" 6], .error "no listener"⟩
      [nlOf "u2" "p2" 7, nlOf "u3" "p2" 8, nlOf "u1" "p2" 6]
      (by decide) rfl rfl (by decide)).1,
   by decide⟩


/-! ## C20: syncICBundle -/

/-- C20: syncICBundle asks the oldest IC member of the current Smap for the bundle,
and nobody else; when that member is self it returns nil without any call; when
the Smap of the fetched bundle carries another cluster UUID the call fails its
assertion with the local Smap and the ownership table as they were, before
synchronize is called and before the table is ingested; and the ownership table
is ingested, or changed at all, only if self is an IC member of the Smap in
effect after the synchronisation. -/
theorem syncICBundle_contract (env : PEnv) (s : PState) (si : Snode)
    (hold : env.oldestIC s.smap = some si) :
    (si.id = s.si.id → syncICBundle env s = (s.plog .syncICBundle, .nil)) ∧
    (si.id ≠ s.si.id →
      (newPEvents s (syncICBundle env s).1).take 2 =
        [.syncICBundle, .call si.id GetWhatICBundle] ∧
      ∀ node what, PEvent.call node what ∈ newPEvents s (syncICBundle env s).1 →
        node = si.id ∧ what = GetWhatICBundle) ∧
    (∀ b bsmap, si.id ≠ s.si.id → env.getBundle si = .bundle b → b.smap = some bsmap →
      s.smap.uuid ≠ bsmap.uuid →
      (syncICBundle env s).2 = .panic ∧ (syncICBundle env s).1.smap = s.smap ∧
      (syncICBundle env s).1.notifs = s.notifs ∧
      newPEvents s (syncICBundle env s).1 = [.syncICBundle, .call si.id GetWhatICBundle]) ∧
    (PEvent.ingest ∈ newPEvents s (syncICBundle env s).1 →
      (syncICBundle env s).1.smap.IsIC s.si = true) ∧
    ((syncICBundle env s).1.smap.IsIC s.si = false →
      (syncICBundle env s).1.notifs = s.notifs) := by
  by_cases hself : si.id = s.si.id
  · have hr : syncICBundle env s = (s.plog .syncICBundle, .nil) := by
      simp [syncICBundle, PState.plog, hold, hself]
    rw [hr]
    refine ⟨fun _ => rfl, fun h => absurd hself h, ?_, ?_, ?_⟩
    · intro b bsmap h; exact absurd hself h
    · simp [newPEvents, PState.plog]
    · intro _; rfl
  · refine ⟨fun h => absurd h hself, fun _ => ?_, ?_, ?_, ?_⟩
    · unfold syncICBundle
      simp only [PState.plog, hold, hself, if_false]
      split
      · simp [newPEvents]
      · simp [newPEvents]
      · split
        · simp [newPEvents]
        · split_ifs
          · simp [newPEvents]
          · simp [newPEvents, (synchronize_frame _ _ _).1]
          · split
            · simp [newPEvents, (synchronize_frame _ _ _).1]
            · simp [newPEvents, (synchronize_frame _ _ _).1]
    · intro b bsmap _ hb hbs hne
      simp [syncICBundle, PState.plog, hold, hself, hb, hbs, hne, newPEvents]
    · unfold syncICBundle
      simp only [PState.plog, hold, hself, if_false]
      split
      · simp [newPEvents]
      · simp [newPEvents]
      · split
        · simp [newPEvents]
        · split_ifs with h1 h2
          · simp [newPEvents]
          · simp [newPEvents, (synchronize_frame _ _ _).1]
          · split
            · simp [newPEvents, (synchronize_frame _ _ _).1]
            · rename_i bsmap hbs e tbl htbl
              intro _
              simp only [Bool.not_eq_true, Bool.not_eq_false] at h2
              revert h2
              simp only [synchronize, PState.plog]
              split_ifs <;> simp
    · unfold syncICBundle
      simp only [PState.plog, hold, hself, if_false]
      split
      · simp
      · simp
      · split
        · simp
        · split_ifs with h1 h2
          · simp
          · simp [(synchronize_frame _ _ _).2.2]
          · split
            · simp [(synchronize_frame _ _ _).2.2]
            · rename_i bsmap hbs e tbl htbl
              intro hnot
              exfalso
              simp only [Bool.not_eq_true, Bool.not_eq_false] at h2
              revert h2 hnot
              simp only [synchronize, PState.plog]
              split_ifs <;> simp

/-- C20, witness: on p3 the oldest IC member of Smap version 30 is p1; p1 answers
with the Smap of another cluster: the call fails its assertion after the one
call to p1, and the Smap and the table of p3 are as before. -/
theorem syncICBundle_contract_witness :
    envForeign.oldestIC smapV30 = some nodeP1 ∧
    (syncICBundle envForeign (stProxy nodeP3 [nlOf "u1" "p3" 4])).2 = .panic ∧
    (syncICBundle envForeign (stProxy nodeP3 [nlOf "u1" "p3" 4])).1.smap = smapV30 ∧
    (syncICBundle envForeign (stProxy nodeP3 [nlOf "u1" "p3" 4])).1.notifs =
      [nlOf "u1" "p3" 4] ∧
    newPEvents (stProxy nodeP3 [nlOf "u1" "p3" 4])
      (syncICBundle envForeign (stProxy nodeP3 [nlOf "u1" "p3" 4])).1 =
      [.syncICBundle, .call "p1" GetWhatICBundle] :=
  ⟨by decide,
   (syncICBundle_contract envForeign (stProxy nodeP3 [nlOf "u1" "p3" 4]) nodeP1
      (by decide)).2.2.1 ⟨some ⟨40, "cluster-B", [nodeP1], ["p1"]⟩, .ok [nlOf "u7" "p1" 5]⟩
      ⟨40, "cluster-B", [nodeP1], ["p1"]⟩ (by decide) rfl rfl (by decide)⟩



/-! ## C21: status queries handled locally -/

/-- C21: for a decoded status request, writeStatus writes the finished flag of the
listener if and only if the ID of the request is not empty, reverseToOwner did
not reverse the request, the notifs table has the entry, the kind of the
request is empty or the kind of the listener, and the listener has no error;
the flag written is the one of that listener. An error of the listener is
written as the error response, whether or not the listener finished; an empty
ID gives 400, and a request that was not reversed and has no entry gives 404. -/
theorem writeStatus_handled_locally (env : PEnv) (s : PState) (msg : XactReqMsg)
    (what : String) (meanwhile : PState → PState) :
    (∀ flag, (writeStatus env s (.ok msg) what meanwhile).2 = .finished flag ↔
      msg.id ≠ "" ∧ (reverseToOwner env s msg.id).2 = .notReversed ∧
      ∃ nl, statusEntry env s msg meanwhile = some nl ∧
        (msg.kind = "" ∨ nl.kind = msg.kind) ∧ nl.err = none ∧ nl.finished = flag) ∧
    (∀ nl e, msg.id ≠ "" → (reverseToOwner env s msg.id).2 = .notReversed →
      statusEntry env s msg meanwhile = some nl → (msg.kind = "" ∨ nl.kind = msg.kind) →
      nl.err = some e →
      (writeStatus env s (.ok msg) what meanwhile).2 = .failed env.invalStatus e) ∧
    (msg.id = "" →
      (writeStatus env s (.ok msg) what meanwhile).2 =
        .failed 400 ("missing ID for `what`: " ++ what)) ∧
    (msg.id ≠ "" → (reverseToOwner env s msg.id).2 = .notReversed →
      statusEntry env s msg meanwhile = none →
      ∃ text, (writeStatus env s (.ok msg) what meanwhile).2 = .failed 404 text) := by
  unfold statusEntry
  by_cases hid : msg.id = ""
  · simp [writeStatus, hid]
  · cases hrev : (reverseToOwner env s msg.id).2 with
    | notReversed =>
      cases hent : notifsEntry (concurrently meanwhile (reverseToOwner env s msg.id).1).notifs
          msg.id with
      | none => simp [writeStatus, hid, hrev, hent]
      | some nl =>
        by_cases hk : msg.kind ≠ "" ∧ nl.kind ≠ msg.kind
        · have hk2 : ¬ (msg.kind = "" ∨ nl.kind = msg.kind) := by
            intro h; rcases h with h | h
            · exact hk.1 h
            · exact hk.2 h
          have hw : (writeStatus env s (.ok msg) what meanwhile).2 =
              .failed env.invalStatus
                ("xaction kind mismatch (ID: " ++ msg.id ++ ", KIND: " ++ msg.kind ++ ")") := by
            simp [writeStatus, hid, hrev, hent, hk]
          rw [hw]
          refine ⟨?_, ?_, ?_, ?_⟩
          · intro flag
            constructor
            · intro h; cases h
            · rintro ⟨-, -, nl2, hnl2, hkind, -, -⟩
              cases hnl2
              exact absurd hkind hk2
          · intro nl2 e _ _ hnl2 hkind _
            cases hnl2
            exact absurd hkind hk2
          · intro h; exact absurd h hid
          · intro _ _ h; cases h
        · have hk2 : msg.kind = "" ∨ nl.kind = msg.kind := by
            by_cases h1 : msg.kind = ""
            · exact Or.inl h1
            · by_cases h2 : nl.kind = msg.kind
              · exact Or.inr h2
              · exact absurd ⟨h1, h2⟩ hk
          cases herr : nl.err with
          | none =>
            have hw : (writeStatus env s (.ok msg) what meanwhile).2 = .finished nl.finished := by
              simp [writeStatus, hid, hrev, hent, hk, herr]
            rw [hw]
            refine ⟨?_, ?_, ?_, ?_⟩
            · intro flag
              constructor
              · intro h
                cases h
                exact ⟨hid, rfl, nl, rfl, hk2, herr, rfl⟩
              · rintro ⟨-, -, nl2, hnl2, -, -, hfl⟩
                cases hnl2
                rw [hfl]
            · intro nl2 e _ _ hnl2 _ he
              cases hnl2
              rw [herr] at he
              cases he
            · intro h; exact absurd h hid
            · intro _ _ h; cases h
          | some e =>
            have hw : (writeStatus env s (.ok msg) what meanwhile).2 =
                .failed env.invalStatus e := by
              simp [writeStatus, hid, hrev, hent, hk, herr]
            rw [hw]
            refine ⟨?_, ?_, ?_, ?_⟩
            · intro flag
              constructor
              · intro h; cases h
              · rintro ⟨-, -, nl2, hnl2, -, hnone, -⟩
                cases hnl2
                rw [herr] at hnone
                cases hnone
            · intro nl2 e2 _ _ hnl2 _ he
              cases hnl2
              rw [herr] at he
              cases he
              rfl
            · intro h; exact absurd h hid
            · intro _ _ h; cases h
    | failed st tx => simp [writeStatus, hid, hrev]
    | reversed psi => simp [writeStatus, hid, hrev]
    | panic => simp [writeStatus, hid, hrev]

/-- C21, witness: IC member p1 holds the listener u1, owned by equalIC, which
finished with the error "disk fault"; the status query for u1 is not reversed
and gets that error as the error response, not the finished flag. -/
theorem writeStatus_handled_locally_witness :
    (reverseToOwner envProxy (stProxy nodeP1 [nlFailed "u1"]) "u1").2 = .notReversed ∧
    statusEntry envProxy (stProxy nodeP1 [nlFailed "u1"]) (statusReq "u1") id =
      some (nlFailed "u1") ∧
    (nlFailed "u1").finished = true ∧
    (writeStatus envProxy (stProxy nodeP1 [nlFailed "u1"]) (.ok (statusReq "u1")) "status" id).2 =
      .failed 400 "disk fault" :=
  ⟨by decide, by decide, rfl,
   (writeStatus_handled_locally envProxy (stProxy nodeP1 [nlFailed "u1"]) (statusReq "u1")
      "status" id).2.1 (nlFailed "u1") "disk fault" (by decide) (by decide) (by decide)
      (by decide) rfl⟩


/-! ## Copy-bucket jogger: what one invocation does -/

/-- The count, the counters and the calls of one invocation of copyObject. -/
theorem copyObject_eq (env : JEnv) (s : JState) (c : CopyCall) :
    (copyObject env s c).1.num = (if c.copied then s.num + 1 else s.num) ∧
    (copyObject env s c).1.objects = (if c.copied then s.objects + 1 else s.objects) ∧
    (copyObject env s c).1.bytes = (if c.copied then s.bytes + (c.size + c.size) else s.bytes) ∧
    (copyObject env s c).1.jtrace = s.jtrace ++ JEvent.copyObject c.size ::
      (if c.copied = true ∧ (s.num + 1) % env.throttleNumObjects = 0
        then [JEvent.getCapStatus] else []) := by
  unfold copyObject
  simp only [JState.jlog]
  by_cases hc : c.copied = true
  · by_cases hm : (s.num + 1) % env.throttleNumObjects = 0
    · simp only [hc, hm, if_true, and_self]
      split <;> simp
    · simp [hc, hm]
  · simp [hc]


/-! ## C22: the throttle of the copy-bucket jogger -/

/-- The polls among the calls of two stretches. -/
theorem pollCount_append (a b : List JEvent) :
    pollCount (a ++ b) = pollCount a + pollCount b := by
  simp [pollCount, List.count_append]

/-- Over the invocations of one jogger the trace grows, and the polls of the
capacity are as many as the multiples of throttleNumObjects that the count of
copied objects passed. -/
theorem runCallbacks_polls (env : JEnv) (calls : List CopyCall) (s : JState) :
    ∃ evs, (runCallbacks env s calls).1.jtrace = s.jtrace ++ evs ∧
      pollCount evs + s.num / env.throttleNumObjects =
        (runCallbacks env s calls).1.num / env.throttleNumObjects := by
  induction calls generalizing s with
  | nil => exact ⟨[], by simp [runCallbacks], by simp [runCallbacks, pollCount]⟩
  | cons c rest ih =>
    obtain ⟨hnum, -, -, htr⟩ := copyObject_eq env s c
    have hdiv : (copyObject env s c).1.num / env.throttleNumObjects =
        s.num / env.throttleNumObjects +
          (if c.copied = true ∧ (s.num + 1) % env.throttleNumObjects = 0 then 1 else 0) := by
      rw [hnum]
      by_cases hc : c.copied = true
      · simp only [hc, if_true, true_and]
        rw [Nat.succ_div]
        simp only [Nat.dvd_iff_mod_eq_zero]
      · simp [hc]
    have hone : pollCount (JEvent.copyObject c.size ::
        (if c.copied = true ∧ (s.num + 1) % env.throttleNumObjects = 0
          then [JEvent.getCapStatus] else [])) =
        (if c.copied = true ∧ (s.num + 1) % env.throttleNumObjects = 0 then 1 else 0) := by
      unfold pollCount
      split_ifs <;> simp
    cases hres : (copyObject env s c).2 with
    | none =>
      obtain ⟨evs, he, hp⟩ := ih (copyObject env s c).1
      refine ⟨(JEvent.copyObject c.size ::
        (if c.copied = true ∧ (s.num + 1) % env.throttleNumObjects = 0
          then [JEvent.getCapStatus] else [])) ++ evs, ?_, ?_⟩
      · simp only [runCallbacks, hres, he, htr, List.append_assoc]
      · simp only [runCallbacks, hres]
        rw [pollCount_append, hone, ← hp, hdiv]
        omega
    | some e =>
      refine ⟨JEvent.copyObject c.size ::
        (if c.copied = true ∧ (s.num + 1) % env.throttleNumObjects = 0
          then [JEvent.getCapStatus] else []), ?_, ?_⟩
      · simp only [runCallbacks, hres, htr]
      · simp only [runCallbacks, hres]
        rw [hone, hdiv]
        omega

/-- C22 (as amended): copyObject polls the capacity exactly in those invocations in
which the object was copied and the count of copied objects of the jogger
becomes a multiple of throttleNumObjects (an invocation that copies nothing
neither counts nor polls); when such a poll reports an error the invocation
returns an aborted error; and over any sequence of invocations of one jogger
the number of polls is the number of multiples of throttleNumObjects that the
count of copied objects passed. -/
theorem copyObject_polls_on_copied_multiples (env : JEnv) (s : JState) (c : CopyCall)
    (calls : List CopyCall) :
    (JEvent.getCapStatus ∈ newJEvents s (copyObject env s c).1 ↔
      c.copied = true ∧ (s.num + 1) % env.throttleNumObjects = 0) ∧
    ((copyObject env s c).1.num = if c.copied then s.num + 1 else s.num) ∧
    (JEvent.getCapStatus ∈ newJEvents s (copyObject env s c).1 → c.capErr ≠ none →
      CopyErr.isAborted (copyObject env s c).2 = true) ∧
    pollCount (newJEvents s (runCallbacks env s calls).1) + s.num / env.throttleNumObjects =
      (runCallbacks env s calls).1.num / env.throttleNumObjects := by
  have hiff : JEvent.getCapStatus ∈ newJEvents s (copyObject env s c).1 ↔
      c.copied = true ∧ (s.num + 1) % env.throttleNumObjects = 0 := by
    simp only [newJEvents, (copyObject_eq env s c).2.2.2, List.drop_left]
    split_ifs with h
    · simp [h]
    · simp [h]
  refine ⟨hiff, (copyObject_eq env s c).1, ?_, ?_⟩
  · intro hp hcap
    obtain ⟨hc, hm⟩ := hiff.1 hp
    cases hcap2 : c.capErr with
    | none => exact absurd hcap2 hcap
    | some e => simp [copyObject, JState.jlog, hc, hm, hcap2, CopyErr.isAborted]
  · obtain ⟨evs, he, hp⟩ := runCallbacks_polls env calls s
    simp only [newJEvents, he, List.drop_left]
    exact hp

/-- C22, witness: a jogger that has copied 63 objects copies one more while the
capacity is in error: the capacity is polled and the invocation returns an
aborted error. -/
theorem copyObject_polls_on_copied_multiples_witness :
    JEvent.getCapStatus ∈ newJEvents ⟨63, 63, 1260, []⟩
      (copyObject jEnv64 ⟨63, 63, 1260, []⟩ callCopied).1 ∧
    (copyObject jEnv64 ⟨63, 63, 1260, []⟩ callCopied).2 =
      some (.aborted "copy-bucket(\"u1\")" "out of space") ∧
    CopyErr.isAborted (copyObject jEnv64 ⟨63, 63, 1260, []⟩ callCopied).2 = true :=
  ⟨by decide, by decide,
   (copyObject_polls_on_copied_multiples jEnv64 ⟨63, 63, 1260, []⟩ callCopied []).2.2.1
      (by decide) (by decide)⟩

/-- C22, counterexample: with throttleNumObjects = 64 and the capacity in error
throughout, a fresh jogger is invoked 64 times; the first object is not copied,
the other 63 are. No invocation polls the capacity, the 64th included, and all
64 return nil. -/
theorem sixty_fourth_invocation_does_not_poll :
    (callSkipped :: List.replicate 63 callCopied).length = 64 ∧
    pollCount (newJEvents jFresh
      (runCallbacks jEnv64 jFresh (callSkipped :: List.replicate 63 callCopied)).1) = 0 ∧
    (runCallbacks jEnv64 jFresh (callSkipped :: List.replicate 63 callCopied)).2 =
      List.replicate 64 none ∧
    (runCallbacks jEnv64 jFresh (callSkipped :: List.replicate 63 callCopied)).1.num = 63 := by
  decide


/-! ## Client side of the API: the retry loop -/

/-- The retry loop, when no iteration remains. -/
theorem retryLoop_zero (t : Nat → Except TransportErr HTTPResp) (made : Nat) (sleep : Int)
    (err : TransportErr) : retryLoop t 0 made sleep err = ⟨[], [], .error err⟩ := rfl

/-- One iteration of the retry loop whose call succeeds. -/
theorem retryLoop_ok {t : Nat → Except TransportErr HTTPResp} {made : Nat} {resp : HTTPResp}
    (left : Nat) (sleep : Int) (err : TransportErr) (h : t made = .ok resp) :
    retryLoop t (left + 1) made sleep err = ⟨[.ok resp], [sleep], .ok resp⟩ := by
  simp [retryLoop, h]

/-- One iteration of the retry loop whose call fails. -/
theorem retryLoop_err {t : Nat → Except TransportErr HTTPResp} {made : Nat} {e : TransportErr}
    (left : Nat) (sleep : Int) (err : TransportErr) (h : t made = .error e) :
    retryLoop t (left + 1) made sleep err =
      ⟨.error e :: (retryLoop t left (made + 1) (wrap64 (sleep + Int.tdiv sleep 2)) e).attempts,
       sleep :: (retryLoop t left (made + 1) (wrap64 (sleep + Int.tdiv sleep 2)) e).sleeps,
       (retryLoop t left (made + 1) (wrap64 (sleep + Int.tdiv sleep 2)) e).last⟩ := by
  simp [retryLoop, h]

/-- The calls of the retry loop: at most as many as iterations remain, one sleep
before each, the successive outcomes of the transport, all failed but possibly
the last, and as long as calls fail and iterations remain another call is made;
the loop ends with the outcome of its last call, or with the error it was
entered with. -/
theorem retryLoop_spec (t : Nat → Except TransportErr HTTPResp) (left : Nat) :
    ∀ (made : Nat) (sleep : Int) (err : TransportErr),
    (retryLoop t left made sleep err).attempts.length ≤ left ∧
    (retryLoop t left made sleep err).sleeps.length =
      (retryLoop t left made sleep err).attempts.length ∧
    (retryLoop t left made sleep err).attempts =
      (List.range (retryLoop t left made sleep err).attempts.length).map
        (fun i => t (made + i)) ∧
    (∀ k, k + 1 < (retryLoop t left made sleep err).attempts.length →
      attemptFailed (t (made + k)) = true) ∧
    (∀ k, k < left → (∀ j, j < k → attemptFailed (t (made + j)) = true) →
      k < (retryLoop t left made sleep err).attempts.length) ∧
    (retryLoop t left made sleep err).last =
      ((retryLoop t left made sleep err).attempts.getLast?).getD (.error err) := by
  induction left with
  | zero =>
    intro made sleep err
    simp [retryLoop_zero]
  | succ n ih =>
    intro made sleep err
    cases h : t made with
    | ok resp =>
      rw [retryLoop_ok n sleep err h]
      refine ⟨by simp, by simp, ?_, by simp, ?_, by simp⟩
      · rw [show List.range ([Except.ok resp] : List (Except TransportErr HTTPResp)).length = [0]
          from rfl]
        simp [h]
      intro k _ hall
      cases k with
      | zero => simp
      | succ k2 =>
        have := hall 0 (Nat.succ_pos _)
        simp [h, attemptFailed] at this
    | error e =>
      rw [retryLoop_err n sleep err h]
      obtain ⟨h1, h2, h3, h4, h5, h6⟩ := ih (made + 1) (wrap64 (sleep + Int.tdiv sleep 2)) e
      refine ⟨by simp; omega, by simp [h2], ?_, ?_, ?_, ?_⟩
      · simp only [List.length_cons, List.range_succ_eq_map, List.map_cons, List.map_map,
          Nat.add_zero, h]
        congr 1
        conv_lhs => rw [h3]
        apply List.map_congr_left
        intro i _
        simp only [Function.comp, Nat.succ_eq_add_one]
        congr 1
        omega
      · intro k hk
        cases k with
        | zero => simp [h, attemptFailed]
        | succ k2 =>
          have := h4 k2 (by simp at hk; omega)
          have heq : made + 1 + k2 = made + (k2 + 1) := by omega
          rw [heq] at this
          exact this
      · intro k hk hall
        cases k with
        | zero => simp
        | succ k2 =>
          have := h5 k2 (by omega) (fun j hj => by
            have h7 := hall (j + 1) (by omega)
            have heq : made + 1 + j = made + (j + 1) := by omega
            rw [heq]; exact h7)
          simp only [List.length_cons]
          omega
      · simp only
        rw [h6]
        cases hl : (retryLoop t n (made + 1) (wrap64 (sleep + Int.tdiv sleep 2)) e).attempts with
        | nil => simp
        | cons a rest =>
          have hsome : (a :: rest).getLast? = some ((a :: rest).getLast (by simp)) :=
            List.getLast?_eq_getLast _ _
          have hsome2 : (Except.error e :: a :: rest).getLast? =
              some ((a :: rest).getLast (by simp)) := by
            rw [List.getLast?_cons_cons, hsome]
          rw [hsome, hsome2]
          rfl


/-- The calls of Client.Do of one request: at least one and at most 1 +
httpMaxRetries, the successive outcomes of the transport, all failed but
possibly the last; more than one only after a first failure with a reset or
refused connection, and then as long as calls fail and retries remain; one
sleep before each retry; the run ends with the outcome of the last call. -/
theorem doWithRetries_spec (c : ApiConsts) (t : Nat → Except TransportErr HTTPResp) :
    1 ≤ (doWithRetries c t).attempts.length ∧
    (doWithRetries c t).attempts.length ≤ 1 + c.httpMaxRetries ∧
    (doWithRetries c t).sleeps.length + 1 = (doWithRetries c t).attempts.length ∧
    (doWithRetries c t).attempts = (List.range (doWithRetries c t).attempts.length).map t ∧
    (1 < (doWithRetries c t).attempts.length → ∃ e, t 0 = .error e ∧ retryable e = true) ∧
    (∀ k, k + 1 < (doWithRetries c t).attempts.length → attemptFailed (t k) = true) ∧
    (∀ e, t 0 = .error e → retryable e = true → ∀ k, k ≤ c.httpMaxRetries →
      (∀ j, j < k → attemptFailed (t j) = true) → k < (doWithRetries c t).attempts.length) ∧
    (doWithRetries c t).attempts.getLast? = some (doWithRetries c t).last := by
  unfold doWithRetries
  cases h : t 0 with
  | ok resp =>
    simp only
    refine ⟨by simp, by simp, by simp, ?_, by simp, by simp, ?_, by simp⟩
    · rw [show List.range ([Except.ok resp] : List (Except TransportErr HTTPResp)).length = [0]
        from rfl]
      simp [h]
    · intro e he
      cases he
  | error err =>
    simp only
    by_cases hr : (IsErrConnectionReset err || IsErrConnectionRefused err) = true
    · simp only [hr, if_true]
      obtain ⟨h1, h2, h3, h4, h5, h6⟩ := retryLoop_spec t c.httpMaxRetries 1 c.httpRetrySleep err
      refine ⟨by simp, by simp; omega, by simp [h2], ?_, ?_, ?_, ?_, ?_⟩
      · simp only [List.length_cons, List.range_succ_eq_map, List.map_cons, List.map_map, h]
        congr 1
        conv_lhs => rw [h3]
        apply List.map_congr_left
        intro i _
        simp only [Function.comp, Nat.succ_eq_add_one]
        congr 1
        omega
      · intro _
        exact ⟨err, rfl, hr⟩
      · intro k hk
        cases k with
        | zero => simp [h, attemptFailed]
        | succ k2 =>
          have := h4 k2 (by simp at hk; omega)
          have heq : 1 + k2 = k2 + 1 := by omega
          rw [heq] at this
          exact this
      · intro e _ _ k hk hall
        cases k with
        | zero => simp
        | succ k2 =>
          have := h5 k2 (by omega) (fun j hj => by
            have h7 := hall (j + 1) (by omega)
            have heq : 1 + j = j + 1 := by omega
            rw [heq]; exact h7)
          simp only [List.length_cons]
          omega
      · rw [h6]
        cases hl : (retryLoop t c.httpMaxRetries 1 c.httpRetrySleep err).attempts with
        | nil => simp
        | cons a rest =>
          have hsome : (a :: rest).getLast? = some ((a :: rest).getLast (by simp)) :=
            List.getLast?_eq_getLast _ _
          rw [List.getLast?_cons_cons, hsome]
          rfl
    · simp only [hr, Bool.false_eq_true, if_false]
      refine ⟨by simp, by simp, by simp, ?_, by simp, by simp, ?_, by simp⟩
      · rw [show List.range ([Except.error err] : List (Except TransportErr HTTPResp)).length =
          [0] from rfl]
        simp [h]
      · intro e he hre
        cases he
        exact absurd hre hr


/-! ## C23: the retries of doHTTPRequestGetResp -/

/-- C23 (as amended): for every sequence of transport outcomes, doHTTPRequestGetResp
invokes Client.Do not at all when the request cannot be created, and otherwise
at least once and at most 1 + httpMaxRetries times; a second
call is made only when the first one failed with a reset or a refused
connection, and from then on the kind of the error is not looked at: while the
last call failed, with any error, and retries remain, another call is made;
every call but the last one failed, so the retrying stops at the first success;
and when the last call made failed, the function returns a nil response and an
error. -/
theorem retries_bounded_and_gated_by_first_error (c : ApiConsts) (env : ApiEnv)
    (method : String) (t : Nat → Except TransportErr HTTPResp) :
    (∀ e, (doHTTPRequestGetResp c env method (some e) t).attempts = []) ∧
    1 ≤ (doHTTPRequestGetResp c env method none t).attempts.length ∧
    (doHTTPRequestGetResp c env method none t).attempts.length ≤ 1 + c.httpMaxRetries ∧
    (doHTTPRequestGetResp c env method none t).attempts =
      (List.range (doHTTPRequestGetResp c env method none t).attempts.length).map t ∧
    (1 < (doHTTPRequestGetResp c env method none t).attempts.length →
      ∃ e, t 0 = .error e ∧ retryable e = true) ∧
    (∀ e, t 0 = .error e → retryable e = true → ∀ k, k ≤ c.httpMaxRetries →
      (∀ j, j < k → attemptFailed (t j) = true) →
      k < (doHTTPRequestGetResp c env method none t).attempts.length) ∧
    (∀ k, k + 1 < (doHTTPRequestGetResp c env method none t).attempts.length →
      attemptFailed (t k) = true) ∧
    (∀ e, (doHTTPRequestGetResp c env method none t).attempts.getLast? = some (.error e) →
      (doHTTPRequestGetResp c env method none t).resp = none ∧
      (doHTTPRequestGetResp c env method none t).err =
        some (.plain ("failed to " ++ method ++ ", err: " ++ e.text))) := by
  obtain ⟨h1, h2, -, h4, h5, h6, h7, h8⟩ := doWithRetries_spec c t
  have hatt : (doHTTPRequestGetResp c env method none t).attempts =
      (doWithRetries c t).attempts := by
    unfold doHTTPRequestGetResp
    simp only
    split <;> rfl
  rw [hatt]
  refine ⟨fun _ => rfl, h1, h2, h4, h5, h7, h6, ?_⟩
  intro e he
  rw [h8] at he
  have hlast : (doWithRetries c t).last = .error e := Option.some.inj he
  unfold doHTTPRequestGetResp
  simp [hlast]

/-- C23, witness: every call is refused; with httpMaxRetries = 5 the function calls
Client.Do six times and returns a nil response with an error. -/
theorem retries_bounded_and_gated_by_first_error_witness :
    (doHTTPRequestGetResp consts5 apiEnvJSON "GET" none transportRefused).attempts.length = 6 ∧
    (doHTTPRequestGetResp consts5 apiEnvJSON "GET" none transportRefused).resp = none ∧
    (doHTTPRequestGetResp consts5 apiEnvJSON "GET" none transportRefused).err =
      some (.plain "failed to GET, err: connection refused") :=
  ⟨by decide,
   (retries_bounded_and_gated_by_first_error consts5 apiEnvJSON "GET"
      transportRefused).2.2.2.2.2.2.2
      ⟨.connRefused, "connection refused"⟩ rfl⟩

/-- C23, counterexample: the first call meets a reset connection and is retried;
the retry fails with a timeout, which is neither a reset nor a refused
connection, and is nevertheless followed by a third call. -/
theorem retry_after_other_error :
    (doHTTPRequestGetResp consts5 apiEnvJSON "GET" none transportResetThenTimeout).attempts =
      [.error ⟨.connReset, "connection reset by peer"⟩, .error ⟨.other, "i/o timeout"⟩,
       .ok ⟨200, "ok"⟩] ∧
    retryable ⟨.other, "i/o timeout"⟩ = false :=
  ⟨rfl, rfl⟩


/-! ## C24: the HTTP status of an error -/

/-- C24 (what the code does): HTTPStatus returns 200 for a nil error, the Status
field for an error that holds a *cmn.HTTPError that is not nil, and -1 for
every other error that is not nil; on an error that holds a nil *cmn.HTTPError
the call returns nothing: it panics at the read of the Status field. -/
theorem HTTPStatus_by_case (herr : HTTPError) (text : String) :
    HTTPStatus none = .ret 200 ∧
    HTTPStatus (some (.httpError (some herr))) = .ret herr.status ∧
    HTTPStatus (some (.plain text)) = .ret (-1) ∧
    HTTPStatus (some (.httpError none)) = .panic :=
  ⟨rfl, rfl, rfl, rfl⟩

/-- C24, failing input: readResp, on a response with status 404 whose body is the
JSON null, returns a nil response and an error that holds a nil *cmn.HTTPError
(the decoding succeeds and leaves the pointer nil); the error is not nil and is
a *cmn.HTTPError, yet HTTPStatus of it does not return a Status field: it
panics. -/
theorem HTTPStatus_of_nil_pointer_panics :
    readResp apiEnvJSON "GET" ⟨404, "null"⟩ = (none, some (.httpError none)) ∧
    HTTPStatus (readResp apiEnvJSON "GET" ⟨404, "null"⟩).2 = .panic ∧
    (∀ status, HTTPStatus (readResp apiEnvJSON "GET" ⟨404, "null"⟩).2 ≠ .ret status) := by
  refine ⟨by decide, by decide, ?_⟩
  intro status h
  have h2 : HTTPStatus (readResp apiEnvJSON "GET" ⟨404, "null"⟩).2 = .panic := by decide
  rw [h2] at h
  cases h


/-! ## C25: the methods of servhdlr -/

/-- C25 (what the code does): servhdlr answers 405 Method Not Allowed, with the
method in the text, to every method other than GET, POST, PUT and DELETE; to
POST, PUT and DELETE it answers nothing at all (the cases are empty and Go does
not fall through to the default case). -/
theorem servhdlr_by_method (env : ServEnv) (method path : String) :
    (method ≠ "GET" → method ≠ "POST" → method ≠ "PUT" → method ≠ "DELETE" →
      servhdlr env method path = .ret [.httpError ("Method Not Allowed: " ++ method) 405]) ∧
    (method = "POST" ∨ method = "PUT" ∨ method = "DELETE" →
      servhdlr env method path = .ret []) := by
  refine ⟨?_, ?_⟩
  · intro h1 h2 h3 h4
    simp [servhdlr, h1, h2, h3, h4]
  · intro h
    rcases h with h | h | h <;> subst h <;> simp [servhdlr]

/-- C25, failing input: a POST to /bucket/key is answered with nothing, not with
405; so are a PUT and a DELETE; a HEAD is answered with 405. -/
theorem servhdlr_by_method_witness :
    servhdlr servEnvCached "POST" "/bucket/key" = .ret [] ∧
    servhdlr servEnvCached "PUT" "/bucket/key" = .ret [] ∧
    servhdlr servEnvCached "DELETE" "/bucket/key" = .ret [] ∧
    servhdlr servEnvCached "HEAD" "/bucket/key" =
      .ret [.httpError "Method Not Allowed: HEAD" 405] :=
  ⟨(servhdlr_by_method servEnvCached "POST" "/bucket/key").2 (Or.inl rfl),
   by decide, by decide,
   (servhdlr_by_method servEnvCached "HEAD" "/bucket/key").1 (by decide) (by decide)
     (by decide) (by decide)⟩


/-! ## C26: inode IDs -/

/-- An inode found under an ID is an entry of the table. -/
theorem lookup_mem {fs : FsState} {id : Nat} {x : Inode} (h : fs.lookup id = some x) :
    (id, x) ∈ fs.inodeTable := by
  unfold FsState.lookup at h
  cases hf : fs.inodeTable.find? (fun e => e.1 == id) with
  | none => simp [hf] at h
  | some e =>
    simp only [hf, Option.map, Option.some.injEq] at h
    have h1 := List.find?_some hf
    have h2 := List.mem_of_find?_eq_some hf
    have h3 : e.1 = id := by simpa using h1
    have : e = (id, x) := by
      rw [← h3, ← h]
    rw [← this]; exact h2

/-- The invariant of the inode table survives the storing of an inode under its
ID, when the ID is at most lastInodeID and above the ID of its parent. -/
theorem FsInv_store {fs : FsState} (hinv : FsInv fs) (x : Inode) (hid : x.id ≤ fs.lastInodeID)
    (hpar : ∀ p, x.parent = some p → p < x.id) : FsInv (fs.store x.id x) := by
  obtain ⟨h1, h2, h3⟩ := hinv
  refine ⟨h1, ?_, ?_⟩
  · intro e he
    simp only [FsState.store, List.mem_cons, List.mem_filter] at he
    rcases he with he | he
    · rw [he]; exact ⟨rfl, hid⟩
    · exact h2 e he.1
  · intro e he
    simp only [FsState.store, List.mem_cons, List.mem_filter] at he
    rcases he with he | he
    · rw [he]; exact hpar
    · exact h3 e he.1

/-- The same, with the key of the entry given apart. -/
theorem FsInv_store_at {fs : FsState} (hinv : FsInv fs) (key : Nat) (x : Inode)
    (hkey : key = x.id) (hid : x.id ≤ fs.lastInodeID)
    (hpar : ∀ p, x.parent = some p → p < x.id) : FsInv (fs.store key x) := by
  rw [hkey]
  exact FsInv_store hinv x hid hpar

/-- The invariant of the inode table survives the deletion of an entry. -/
theorem FsInv_delete {fs : FsState} (hinv : FsInv fs) (id : Nat) : FsInv (fs.delete id) := by
  obtain ⟨h1, h2, h3⟩ := hinv
  refine ⟨h1, ?_, ?_⟩
  · intro e he
    simp only [FsState.delete, List.mem_filter] at he
    exact h2 e he.1
  · intro e he
    simp only [FsState.delete, List.mem_filter] at he
    exact h3 e he.1

/-- The invariant of the inode table survives a higher lastInodeID. -/
theorem FsInv_bump {fs : FsState} (hinv : FsInv fs) (n : Nat) (h : fs.lastInodeID ≤ n) :
    FsInv { fs with lastInodeID := n } := by
  obtain ⟨h1, h2, h3⟩ := hinv
  refine ⟨le_trans h1 h, ?_, h3⟩
  intro e he
  exact ⟨(h2 e he).1, le_trans (h2 e he).2 h⟩

/-- The entry stored under an ID is found under it. -/
theorem lookup_store (fs : FsState) (id : Nat) (x : Inode) : (fs.store id x).lookup id = some x := by
  simp [FsState.lookup, FsState.store]

/-- C26: the file system starts with lastInodeID at invalidInodeID and the
invariant of its inode table; absent wrap-around of the 64-bit counter,
nextInodeID returns lastInodeID + 1 and records it, so the IDs it returns
strictly increase, are above invalidInodeID and are never RootInodeID;
LookUpInode and ForgetInode preserve the invariant and never lower lastInodeID;
and an inode that LookUpInode creates is stored with the directory it was
looked up in as parent and with an ID strictly greater than the ID of that
parent. -/
theorem inode_ids_increase (lookupEntry : Inode → String → EntryLookupResult) (fs : FsState)
    (parent : Nat) (name : String) (id n : Nat) :
    FsInv NewAISFileSystemServer ∧
    NewAISFileSystemServer.lastInodeID = invalidInodeID ∧
    (fs.lastInodeID + 1 < 2 ^ 64 →
      (nextInodeID fs).2 = fs.lastInodeID + 1 ∧
      (nextInodeID fs).1.lastInodeID = (nextInodeID fs).2 ∧
      ((nextInodeID fs).1.lastInodeID + 1 < 2 ^ 64 →
        (nextInodeID fs).2 < (nextInodeID (nextInodeID fs).1).2)) ∧
    (FsInv fs → fs.lastInodeID + 1 < 2 ^ 64 →
      invalidInodeID < (nextInodeID fs).2 ∧ (nextInodeID fs).2 ≠ RootInodeID ∧
      (nextInodeID fs).2 ≠ invalidInodeID) ∧
    (FsInv fs → fs.lastInodeID + 1 < 2 ^ 64 →
      FsInv (LookUpInode lookupEntry fs parent name).1 ∧
      fs.lastInodeID ≤ (LookUpInode lookupEntry fs parent name).1.lastInodeID ∧
      ∀ p isDir, fs.lookup parent = some p → p.isDir = true →
        lookupEntry p name = .noInode isDir →
        ∃ child, (LookUpInode lookupEntry fs parent name).2 = .ok (some child.id) ∧
          (LookUpInode lookupEntry fs parent name).1.lookup child.id = some child ∧
          child.parent = some p.id ∧ child.isDir = isDir ∧ p.id < child.id ∧
          child.id = fs.lastInodeID + 1) ∧
    (FsInv fs → FsInv (ForgetInode fs id n).1 ∧
      (ForgetInode fs id n).1.lastInodeID = fs.lastInodeID) := by
  have hnext : fs.lastInodeID + 1 < 2 ^ 64 → (nextInodeID fs).2 = fs.lastInodeID + 1 ∧
      (nextInodeID fs).1.lastInodeID = fs.lastInodeID + 1 := by
    intro h
    have hmod : (fs.lastInodeID + 1) % 2 ^ 64 = fs.lastInodeID + 1 := Nat.mod_eq_of_lt h
    show (fs.lastInodeID + 1) % 2 ^ 64 = _ ∧ (fs.lastInodeID + 1) % 2 ^ 64 = _
    rw [hmod]
    exact ⟨rfl, rfl⟩
  refine ⟨?_, rfl, ?_, ?_, ?_, ?_⟩
  · refine ⟨le_refl _, ?_, ?_⟩
    · intro e he
      simp only [NewAISFileSystemServer, List.mem_singleton] at he
      subst he
      exact ⟨rfl, by decide⟩
    · intro e he p hp
      simp only [NewAISFileSystemServer, List.mem_singleton] at he
      subst he
      simp at hp
  · intro h
    obtain ⟨h1, h2⟩ := hnext h
    refine ⟨h1, by rw [h2, h1], ?_⟩
    intro hlt
    have : (nextInodeID (nextInodeID fs).1).2 = (nextInodeID fs).1.lastInodeID + 1 := by
      show ((nextInodeID fs).1.lastInodeID + 1) % 2 ^ 64 = _
      exact Nat.mod_eq_of_lt hlt
    rw [this, h2, h1]
    omega
  · intro hinv h
    obtain ⟨h1, -⟩ := hnext h
    have hlo := hinv.1
    rw [h1]
    unfold invalidInodeID RootInodeID at hlo ⊢
    omega
  · intro hinv h
    obtain ⟨h1, h2⟩ := hnext h
    unfold LookUpInode
    cases hp : fs.lookup parent with
    | none => exact ⟨hinv, le_refl _, fun p _ hp2 => by cases hp2⟩
    | some p =>
      by_cases hd : p.isDir = true
      · simp only [hd, Bool.not_true, Bool.false_eq_true, if_false]
        have hpmem := lookup_mem hp
        have hple : p.id ≤ fs.lastInodeID := (hinv.2.1 _ hpmem).2
        cases hl : lookupEntry p name with
        | noEntry =>
          exact ⟨hinv, le_refl _, fun p2 isDir hp2 _ hl2 => by
            cases hp2; rw [hl] at hl2; cases hl2⟩
        | noInode isDir =>
          simp only
          have hbump : FsInv (nextInodeID fs).1 := by
            have hb := FsInv_bump hinv (fs.lastInodeID + 1) (Nat.le_succ _)
            have hmod : (fs.lastInodeID + 1) % 2 ^ 64 = fs.lastInodeID + 1 := Nat.mod_eq_of_lt h
            show FsInv { fs with lastInodeID := (fs.lastInodeID + 1) % 2 ^ 64 }
            rw [hmod]
            exact hb
          have hstore := FsInv_store hbump
            ⟨(nextInodeID fs).2, some p.id, isDir, 0 + 1⟩
            (by simp only; rw [h2, h1])
            (by
              intro q hq
              simp only [Option.some.injEq] at hq
              simp only
              rw [h1, ← hq]; omega)
          refine ⟨hstore, ?_, ?_⟩
          · simp only [FsState.store]; rw [h2]; omega
          · intro p2 isDir2 hp2 _ hl2
            cases hp2
            rw [hl] at hl2
            cases hl2
            refine ⟨⟨(nextInodeID fs).2, some p.id, isDir, 0 + 1⟩, rfl, lookup_store _ _ _, rfl,
              rfl, ?_, h1⟩
            simp only; rw [h1]; omega
        | inode iid =>
          simp only
          cases hf : fs.lookup iid with
          | none =>
            exact ⟨hinv, le_refl _, fun p2 isDir hp2 _ hl2 => by
              cases hp2; rw [hl] at hl2; cases hl2⟩
          | some found =>
            simp only
            have hfm := lookup_mem hf
            obtain ⟨hkey, hfle⟩ := hinv.2.1 _ hfm
            have hpar := hinv.2.2 _ hfm
            simp only at hkey hfle hpar
            have hstore := FsInv_store_at hinv iid
              { found with lookupCount := found.lookupCount + 1 } hkey hfle hpar
            exact ⟨hstore, le_refl _, fun p2 isDir hp2 _ hl2 => by
              cases hp2; rw [hl] at hl2; cases hl2⟩
      · have hd2 : p.isDir = false := by simpa using hd
        simp only [hd2, Bool.not_false, if_true]
        exact ⟨hinv, le_refl _, fun p2 isDir hp2 hd3 _ => by
          cases hp2; rw [hd2] at hd3; cases hd3⟩
  · intro hinv
    unfold ForgetInode
    cases hf : fs.lookup id with
    | none => exact ⟨hinv, rfl⟩
    | some found =>
      have hfm := lookup_mem hf
      obtain ⟨hkey, hfle⟩ := hinv.2.1 _ hfm
      have hpar := hinv.2.2 _ hfm
      simp only at hkey hfle hpar
      simp only
      split_ifs with hz
      · split
        · have hstore := FsInv_store_at hinv id { found with lookupCount := 0 } hkey hfle hpar
          exact ⟨hstore, rfl⟩
        · exact ⟨FsInv_delete hinv id, rfl⟩
      · have hstore := FsInv_store_at hinv id
          { found with lookupCount := found.lookupCount - n } hkey hfle hpar
        exact ⟨hstore, rfl⟩

/-- C26, witness: in the file system as set up, the lookup of "a.txt" under the
root creates the inode 3, above invalidInodeID = 2, with the root (ID 1) as
parent; the next lookup, of "dir", creates the inode 4. -/
theorem inode_ids_increase_witness :
    FsInv NewAISFileSystemServer ∧
    (LookUpInode lookupEntryNew NewAISFileSystemServer RootInodeID "a.txt").2 = .ok (some 3) ∧
    (LookUpInode lookupEntryNew
      (LookUpInode lookupEntryNew NewAISFileSystemServer RootInodeID "a.txt").1
      RootInodeID "dir").2 = .ok (some 4) ∧
    FsInv (LookUpInode lookupEntryNew NewAISFileSystemServer RootInodeID "a.txt").1 :=
  ⟨(inode_ids_increase lookupEntryNew NewAISFileSystemServer RootInodeID "a.txt" 0 0).1,
   by decide, by decide,
   ((inode_ids_increase lookupEntryNew NewAISFileSystemServer RootInodeID "a.txt" 0 0).2.2.2.2.1
      (inode_ids_increase lookupEntryNew NewAISFileSystemServer RootInodeID "a.txt" 0 0).1
      (by decide)).1⟩

/-! ## C27: what copyObject returns and counts -/

/-- The end of copyObject on an error that is not out of space: the error as it
is. -/
theorem copyObjectErr_other (env : JEnv) (err : Option CopyErr) (h : IsErrOOS err = false) :
    copyObjectErr env err = err := by
  unfold copyObjectErr
  split
  · simp [IsErrOOS] at h
  · rfl

/-- The end of copyObject on an out-of-space error: an aborted error. -/
theorem copyObjectErr_oos (env : JEnv) (err : Option CopyErr) (h : IsErrOOS err = true) :
    CopyErr.isAborted (copyObjectErr env err) = true := by
  unfold copyObjectErr
  split
  · rfl
  · rename_i hne
    cases err with
    | none => simp [IsErrOOS] at h
    | some e =>
      cases e with
      | oos t => exact absurd rfl (hne t)
      | aborted w d => simp [IsErrOOS] at h
      | other t => simp [IsErrOOS] at h

/-- C27: for every outcome (copied, err) of Target().CopyObject, copyObject returns
an aborted error when err is an out-of-space error; it returns an aborted error,
also for a nil err, when the object was copied, the count of copied objects of
the jogger has just become a multiple of throttleNumObjects and the capacity
status carries an error; in every other case it returns err as it is. The
object counter goes up by exactly 1 and the byte counter by exactly twice the
size of the object if and only if the object was copied: the object counter
goes up by 1 exactly when the object was copied; when it was copied the byte
counter goes up by twice the size, and when it was not, both counters keep
their values; for an object that is not empty the byte counter goes up by
twice the size exactly when the object was copied. -/
theorem copyObject_result_mapping (env : JEnv) (s : JState) (c : CopyCall) :
    (IsErrOOS c.err = true → CopyErr.isAborted (copyObject env s c).2 = true) ∧
    (c.copied = true → (s.num + 1) % env.throttleNumObjects = 0 → c.capErr ≠ none →
      CopyErr.isAborted (copyObject env s c).2 = true) ∧
    (IsErrOOS c.err = false →
      ¬ (c.copied = true ∧ (s.num + 1) % env.throttleNumObjects = 0 ∧ c.capErr ≠ none) →
      (copyObject env s c).2 = c.err) ∧
    (((copyObject env s c).1.objects = s.objects + 1 ∧
      (copyObject env s c).1.bytes = s.bytes + 2 * c.size) ↔ c.copied = true) ∧
    ((copyObject env s c).1.objects = s.objects + 1 ↔ c.copied = true) ∧
    (c.copied = true → (copyObject env s c).1.bytes = s.bytes + 2 * c.size) ∧
    (c.copied = false → (copyObject env s c).1.objects = s.objects ∧
      (copyObject env s c).1.bytes = s.bytes) ∧
    (0 < c.size →
      ((copyObject env s c).1.bytes = s.bytes + 2 * c.size ↔ c.copied = true)) := by
  have hthr : c.copied = true → (s.num + 1) % env.throttleNumObjects = 0 → c.capErr ≠ none →
      CopyErr.isAborted (copyObject env s c).2 = true := by
    intro hc hm hcap
    cases hcap2 : c.capErr with
    | none => exact absurd hcap2 hcap
    | some e => simp [copyObject, JState.jlog, hc, hm, hcap2, CopyErr.isAborted]
  have hres : ¬ (c.copied = true ∧ (s.num + 1) % env.throttleNumObjects = 0 ∧ c.capErr ≠ none) →
      (copyObject env s c).2 = copyObjectErr env c.err := by
    intro hnot
    unfold copyObject
    simp only [JState.jlog]
    by_cases hc : c.copied = true
    · by_cases hm : (s.num + 1) % env.throttleNumObjects = 0
      · cases hcap : c.capErr with
        | none => simp [hc, hm]
        | some e => exact absurd ⟨hc, hm, by simp [hcap]⟩ hnot
      · simp [hc, hm]
    · simp [hc]
  refine ⟨?_, hthr, ?_, ?_⟩
  · intro hoos
    by_cases hcase : c.copied = true ∧ (s.num + 1) % env.throttleNumObjects = 0 ∧ c.capErr ≠ none
    · exact hthr hcase.1 hcase.2.1 hcase.2.2
    · rw [hres hcase]
      exact copyObjectErr_oos env c.err hoos
  · intro hoos hcase
    rw [hres hcase, copyObjectErr_other env c.err hoos]
  · obtain ⟨-, hobj, hbytes, -⟩ := copyObject_eq env s c
    rw [hobj, hbytes]
    by_cases hc : c.copied = true
    · simp only [hc, if_true, iff_true, true_and]
      refine ⟨by omega, ?_, ?_, ?_⟩
      · intro _; omega
      · intro h; cases h
      · intro _; omega
    · have hc2 : c.copied = false := by simpa using hc
      rw [hc2]
      simp only [Bool.false_eq_true, if_false, iff_false, false_implies, true_implies,
        and_self, true_and, not_and]
      refine ⟨?_, ?_, ?_⟩
      · intro h; omega
      · omega
      · intro hpos; omega

/-- C27, witness: the 64th copied object of a jogger, copied without error while
the capacity is in error: the invocation returns an aborted error although err
is nil, and the counters went up by 1 object and 20 bytes. -/
theorem copyObject_result_mapping_witness :
    callCopied.err = none ∧
    (copyObject jEnv64 ⟨63, 63, 1260, []⟩ callCopied).2 =
      some (.aborted "copy-bucket(\"u1\")" "out of space") ∧
    (copyObject jEnv64 ⟨63, 63, 1260, []⟩ callCopied).1.objects = 64 ∧
    (copyObject jEnv64 ⟨63, 63, 1260, []⟩ callCopied).1.bytes = 1280 ∧
    CopyErr.isAborted (copyObject jEnv64 ⟨63, 63, 1260, []⟩ callCopied).2 = true ∧
    (copyObject jEnv64 ⟨63, 63, 1260, []⟩ callCopied).1.bytes = 1260 + 2 * callCopied.size ∧
    ((copyObject jEnv64 ⟨63, 63, 1260, []⟩ callCopied).1.bytes = 1260 + 2 * callCopied.size ↔
      callCopied.copied = true) :=
  ⟨rfl, by decide, by decide, by decide,
   (copyObject_result_mapping jEnv64 ⟨63, 63, 1260, []⟩ callCopied).2.1 (by decide)
      (by decide) (by decide),
   (copyObject_result_mapping jEnv64 ⟨63, 63, 1260, []⟩ callCopied).2.2.2.2.2.1 (by decide),
   (copyObject_result_mapping jEnv64 ⟨63, 63, 1260, []⟩ callCopied).2.2.2.2.2.2.2
      (by decide)⟩


/-! ## C28: the assertions of bcastListenIC -/

/-- C28: when every ID of the IC map of the Smap resolves to a proxy (IC is a
subset of the proxies) and the range over the IC map visits its keys,
registerEqual never fails an assertion; and under the guard len(smap.IC) > 1
bcastListenIC fails neither of its two assertions: every IC ID other than self
resolves to a proxy, and the recipients, the IC members other than self, are
not empty and never include self. -/
theorem bcastListenIC_assertion_safe (env : PEnv) (s : PState) (a : regIC)
    (hsub : ∀ pid ∈ a.smap.ic, (a.smap.GetProxy pid).isSome = true)
    (hnd : a.smap.ic.Nodup) (hrange : env.RangesKeys) :
    (registerEqual env s a).2.2 = false ∧
    (a.smap.ic.length > 1 →
      (bcastListenIC env s a.nl a.smap).2 ≠ .panic ∧
      (∃ nodes, bcastNodes s.si a.smap (env.rangeIC a.smap.ic) = some nodes ∧ nodes ≠ [] ∧
        (∀ psi ∈ nodes, psi.id ≠ s.si.id ∧ psi.id ∈ a.smap.ic) ∧
        (∀ pid ∈ a.smap.ic, pid ≠ s.si.id → pid ∈ nodes.map Snode.id))) := by
  have hguard : ∀ st : PState, a.smap.ic.length > 1 →
      (bcastListenIC env st a.nl a.smap).2 ≠ .panic ∧
      (∃ nodes, bcastNodes st.si a.smap (env.rangeIC a.smap.ic) = some nodes ∧ nodes ≠ [] ∧
        (∀ psi ∈ nodes, psi.id ≠ st.si.id ∧ psi.id ∈ a.smap.ic) ∧
        (∀ pid ∈ a.smap.ic, pid ≠ st.si.id → pid ∈ nodes.map Snode.id)) := by
    intro st hlen
    have hne : a.smap.ic ≠ [] := by
      intro h; rw [h] at hlen; simp at hlen
    obtain ⟨ids, hmem, -, hnp⟩ :=
      @bcastListenIC_recipients env st a.nl a.smap ⟨hne, hnd, hsub⟩ hrange hlen
    have hperm := hrange a.smap.ic
    obtain ⟨nodes, hn, hids⟩ := bcastNodes_ids st.si a.smap (env.rangeIC a.smap.ic)
      (fun pid hp => hsub pid ((List.Perm.mem_iff hperm).1 hp))
    have hmem2 : ∀ pid, pid ∈ nodes.map Snode.id ↔ pid ∈ a.smap.ic ∧ pid ≠ st.si.id := by
      intro pid
      rw [hids, List.mem_filter, List.Perm.mem_iff hperm]
      simp
    obtain ⟨x, hx, hxne⟩ := exists_ne_of_two a.smap.ic st.si.id hnd hlen
    refine ⟨hnp, nodes, hn, ?_, ?_, ?_⟩
    · intro hnil
      have : x ∈ nodes.map Snode.id := (hmem2 x).2 ⟨hx, hxne⟩
      rw [hnil] at this
      simp at this
    · intro psi hpsi
      have := (hmem2 psi.id).1 (List.mem_map_of_mem _ hpsi)
      exact ⟨this.2, this.1⟩
    · intro pid hp hpne
      exact (hmem2 pid).2 ⟨hp, hpne⟩
  refine ⟨?_, hguard s⟩
  unfold registerEqual
  by_cases hlen : a.smap.ic.length > 1
  · simp only [hlen, if_true]
    have := (hguard (if a.smap.IsIC s.si then notifsAdd s a.nl else s) hlen).1
    simpa using this
  · simp [hlen]

/-- C28, witness: IC member p1 registers u1 under Smap version 30, IC = {p1, p2, p3}:
no assertion fails and the recipients are p2 and p3. -/
theorem bcastListenIC_assertion_safe_witness :
    (registerEqual envProxy (stProxy nodeP1 []) ⟨nlOf "u1" equalIC 7, smapV30, none⟩).2.2 = false ∧
    bcastNodes nodeP1 smapV30 (envProxy.rangeIC smapV30.ic) = some [nodeP2, nodeP3] ∧
    (bcastListenIC envProxy (stProxy nodeP1 []) (nlOf "u1" equalIC 7) smapV30).2 ≠ .panic :=
  ⟨(bcastListenIC_assertion_safe envProxy (stProxy nodeP1 [])
      ⟨nlOf "u1" equalIC 7, smapV30, none⟩ (by decide) (by decide) envProxy_rangesKeys).1,
   by decide,
   ((bcastListenIC_assertion_safe envProxy (stProxy nodeP1 [])
      ⟨nlOf "u1" equalIC 7, smapV30, none⟩ (by decide) (by decide) envProxy_rangesKeys).2
      (by decide)).1⟩


/-! ## C29: the path of a GET -/

/-- The escape of a character other than the slash has no slash. -/
theorem escapeChar_no_slash (ch : Char) (h : ch ≠ fslash) : fslash ∉ escapeChar ch := by
  unfold escapeChar
  split_ifs
  · decide
  · decide
  · decide
  · decide
  · decide
  · simpa using fun h2 => h h2.symm

/-- The escape of a character that is not special is the character. -/
theorem escapeChar_plain (ch : Char) (h : isHTMLSpecial ch = false) : escapeChar ch = [ch] := by
  simp only [isHTMLSpecial, Bool.or_eq_false_iff, decide_eq_false_iff_not] at h
  obtain ⟨⟨⟨⟨h1, h2⟩, h3⟩, h4⟩, h5⟩ := h
  simp [escapeChar, h1, h2, h3, h4, h5]

/-- The escape of a text without special characters is the text. -/
theorem escapeString_plain (s : List Char) (h : ∀ ch ∈ s, isHTMLSpecial ch = false) :
    escapeString s = s := by
  induction s with
  | nil => rfl
  | cons ch rest ih =>
    have h1 := escapeChar_plain ch (h ch (List.mem_cons_self _ _))
    have h2 := ih (fun x hx => h x (List.mem_cons_of_mem _ hx))
    unfold escapeString at h2 ⊢
    simp [List.flatMap_cons, h1, h2]

/-- The escape of a character has one character at least, and four at least when
the character is special. -/
theorem escapeChar_length (ch : Char) :
    1 ≤ (escapeChar ch).length ∧
    (isHTMLSpecial ch = true → 4 ≤ (escapeChar ch).length) := by
  unfold escapeChar
  split_ifs with h1 h2 h3 h4 h5
  · exact ⟨by decide, fun _ => by decide⟩
  · exact ⟨by decide, fun _ => by decide⟩
  · exact ⟨by decide, fun _ => by decide⟩
  · exact ⟨by decide, fun _ => by decide⟩
  · exact ⟨by decide, fun _ => by decide⟩
  · refine ⟨by simp, fun h => ?_⟩
    simp [isHTMLSpecial, h1, h2, h3, h4, h5] at h

/-- The escape of a text is as long as the text at least, and longer when the text
holds a special character. -/
theorem escapeString_length (s : List Char) :
    s.length ≤ (escapeString s).length ∧
    ((∃ ch ∈ s, isHTMLSpecial ch = true) → s.length < (escapeString s).length) := by
  induction s with
  | nil => exact ⟨by simp [escapeString], fun h => by simp at h⟩
  | cons ch rest ih =>
    have hc := escapeChar_length ch
    have hlen : (escapeString (ch :: rest)).length =
        (escapeChar ch).length + (escapeString rest).length := by
      unfold escapeString
      rw [List.flatMap_cons, List.length_append]
    rw [hlen, List.length_cons]
    refine ⟨by omega, ?_⟩
    rintro ⟨x, hx, hsp⟩
    rcases List.mem_cons.1 hx with rfl | hx2
    · have := hc.2 hsp
      omega
    · have := ih.2 ⟨x, hx2, hsp⟩
      omega

/-- The escape of a text is the text exactly when the text has no special
character. -/
theorem escapeString_eq_self_iff (s : List Char) :
    escapeString s = s ↔ ∀ ch ∈ s, isHTMLSpecial ch = false := by
  constructor
  · intro heq ch hch
    cases hsp : isHTMLSpecial ch with
    | false => rfl
    | true =>
      have := (escapeString_length s).2 ⟨ch, hch, hsp⟩
      rw [heq] at this
      exact absurd this (Nat.lt_irrefl _)
  · exact escapeString_plain s

/-- The escape of a slash is the slash. -/
theorem escapeString_slash (rest : List Char) :
    escapeString (fslash :: rest) = fslash :: escapeString rest := by
  unfold escapeString
  rw [List.flatMap_cons]
  rfl

/-- The escape of two texts in a row. -/
theorem escapeString_append (a b : List Char) :
    escapeString (a ++ b) = escapeString a ++ escapeString b := by
  simp [escapeString, List.flatMap_append]

/-- The escape of a text without a slash has no slash. -/
theorem escapeString_no_slash (s : List Char) (h : fslash ∉ s) : fslash ∉ escapeString s := by
  unfold escapeString
  rw [List.mem_flatMap]
  rintro ⟨ch, hch, hmem⟩
  exact escapeChar_no_slash ch (fun heq => h (heq ▸ hch)) hmem

/-- The split of a text always has a first piece. -/
theorem splitSlash_ne_nil (s : List Char) : splitSlash s ≠ [] := by
  cases s with
  | nil => simp [splitSlash]
  | cons ch rest =>
    unfold splitSlash
    split_ifs
    · simp
    · split <;> simp

/-- The split of a text that starts with a piece without a slash, then a slash. -/
theorem splitSlash_piece (b rest : List Char) (h : fslash ∉ b) :
    splitSlash (b ++ fslash :: rest) = b :: splitSlash rest := by
  induction b with
  | nil => simp [splitSlash]
  | cons ch more ih =>
    have hch : ch ≠ fslash := fun heq => h (heq ▸ List.mem_cons_self _ _)
    have hmore : fslash ∉ more := fun hm => h (List.mem_cons_of_mem _ hm)
    rw [List.cons_append, splitSlash, if_neg hch, ih hmore]

/-- The split of a text without a slash is the text alone. -/
theorem splitSlash_whole (b : List Char) (h : fslash ∉ b) : splitSlash b = [b] := by
  induction b with
  | nil => rfl
  | cons ch more ih =>
    have hch : ch ≠ fslash := fun heq => h (heq ▸ List.mem_cons_self _ _)
    have hmore : fslash ∉ more := fun hm => h (List.mem_cons_of_mem _ hm)
    rw [splitSlash, if_neg hch, ih hmore]

/-- The split into at most n + 2 pieces of a text that starts with a piece without
a slash, then a slash. -/
theorem splitSlashN_piece (b rest : List Char) (n : Nat) (h : fslash ∉ b) :
    splitSlashN (b ++ fslash :: rest) (n + 2) = b :: splitSlashN rest (n + 1) := by
  induction b with
  | nil => simp [splitSlashN]
  | cons ch more ih =>
    have hch : ch ≠ fslash := fun heq => h (heq ▸ List.mem_cons_self _ _)
    have hmore : fslash ∉ more := fun hm => h (List.mem_cons_of_mem _ hm)
    rw [List.cons_append, splitSlashN, if_neg hch, ih hmore]

/-- The split into at most two pieces of a text with a slash has two pieces. -/
theorem splitSlashN_two (s : List Char) (h : fslash ∈ s) :
    ∃ x y, splitSlashN s 2 = [x, y] := by
  induction s with
  | nil => simp at h
  | cons ch rest ih =>
    by_cases hch : ch = fslash
    · exact ⟨[], rest, by simp [splitSlashN, hch]⟩
    · have hrest : fslash ∈ rest := by
        rcases List.mem_cons.1 h with h1 | h1
        · exact absurd h1.symm hch
        · exact h1
      obtain ⟨x, y, hxy⟩ := ih hrest
      exact ⟨ch :: x, y, by rw [splitSlashN, if_neg hch, hxy]⟩

/-- The number of slashes of a text that starts with a slash. -/
theorem countSlash_cons_slash (rest : List Char) :
    countSlash (fslash :: rest) = countSlash rest + 1 := by
  simp [countSlash]

/-- A text has no slash exactly when its count of slashes is zero. -/
theorem countSlash_eq_zero (s : List Char) : countSlash s = 0 ↔ fslash ∉ s := by
  simp [countSlash, List.count_eq_zero]

/-- The path of a bucket: one slash, then a name without a slash. -/
theorem parsePath_bucket (b : List Char) (h : fslash ∉ b) :
    parsePath (fslash :: b) = .ret (String.mk (escapeString b), none) := by
  have hb := escapeString_no_slash b h
  unfold parsePath
  simp only [escapeString_slash, countSlash_cons_slash, (countSlash_eq_zero _).2 hb]
  rw [show splitSlash (fslash :: escapeString b) = [] :: splitSlash (escapeString b) by
    simp [splitSlash], splitSlash_whole _ hb]
  simp

/-- The path of an object: a slash, a bucket name without a slash, a slash, and the
key. -/
theorem parsePath_object (b k : List Char) (h : fslash ∉ b) :
    parsePath (fslash :: (b ++ fslash :: k)) =
      .ret (String.mk (escapeString b), some (String.mk (escapeString k))) := by
  have hb := escapeString_no_slash b h
  unfold parsePath
  simp only [escapeString_slash, escapeString_append, countSlash_cons_slash]
  rw [show splitSlash (fslash :: (escapeString b ++ fslash :: escapeString k)) =
      [] :: splitSlash (escapeString b ++ fslash :: escapeString k) by simp [splitSlash],
    splitSlash_piece _ _ hb]
  have hcnt : countSlash (escapeString b ++ fslash :: escapeString k) + 1 ≠ 1 := by
    simp [countSlash]
  have hN : splitSlashN (fslash :: (escapeString b ++ fslash :: escapeString k))
      s3skipTokenToKey = [[], escapeString b, escapeString k] := by
    rw [show s3skipTokenToKey = 1 + 2 from rfl, splitSlashN, if_pos rfl,
      show (1 : Nat) + 1 = 0 + 2 from rfl, splitSlashN_piece _ _ 0 hb]
    simp [splitSlashN]
  simp [hcnt, hN]

/-- The parsing of a path that starts with a slash does not run out of range. -/
theorem parsePath_safe (rest : List Char) : parsePath (fslash :: rest) ≠ .panic := by
  unfold parsePath
  simp only [escapeString_slash, countSlash_cons_slash]
  rw [show splitSlash (fslash :: escapeString rest) = [] :: splitSlash (escapeString rest) by
    simp [splitSlash]]
  cases hs : splitSlash (escapeString rest) with
  | nil => exact absurd hs (splitSlash_ne_nil _)
  | cons p ps =>
    simp only [List.getElem?_cons_succ, List.getElem?_cons_zero]
    by_cases hc : countSlash (escapeString rest) + 1 = 1
    · simp [hc]
    · have hmem : fslash ∈ escapeString rest := by
        by_contra hn
        exact hc (by rw [(countSlash_eq_zero _).2 hn])
      obtain ⟨x, y, hxy⟩ := splitSlashN_two _ hmem
      have hN : splitSlashN (fslash :: escapeString rest) s3skipTokenToKey = [[], x, y] := by
        rw [show s3skipTokenToKey = 1 + 2 from rfl, splitSlashN, if_pos rfl,
          show (1 : Nat) + 1 = 2 from rfl, hxy]
      simp [hc, hN]


/-- C29 (as amended): for every URL path that begins with a slash the GET branch of
servhdlr reads s[1] and, when the path has two or more slashes, s[2] within
range; for a path /bucket/key the bucket name is the HTML-escaped text between
the first and the second slash and the key name is the HTML-escaped text after
the second slash, slashes inside the key included; the two names are the
texts themselves if and only if these hold none of the five characters that
html.EscapeString escapes; a path with exactly one slash is served as a bucket
listing. -/
theorem servhdlr_path_parsing (env : ServEnv) (b k rest : List Char) (hb : fslash ∉ b) :
    parsePath (fslash :: rest) ≠ .panic ∧
    servhdlr env "GET" (String.mk (fslash :: rest)) ≠ .panic ∧
    parsePath (fslash :: (b ++ fslash :: k)) =
      .ret (String.mk (escapeString b), some (String.mk (escapeString k))) ∧
    (parsePath (fslash :: (b ++ fslash :: k)) = .ret (String.mk b, some (String.mk k)) ↔
      ∀ ch ∈ b ++ k, isHTMLSpecial ch = false) ∧
    servhdlr env "GET" (String.mk (fslash :: b)) =
      .ret [.listbucket (String.mk (escapeString b))] := by
  refine ⟨parsePath_safe rest, ?_, parsePath_object b k hb, ?_, ?_⟩
  · have hsafe := parsePath_safe rest
    unfold servhdlr
    simp only [if_true]
    cases hp : parsePath (fslash :: rest) with
    | panic => exact absurd hp hsafe
    | ret r =>
      obtain ⟨bkt, key⟩ := r
      cases key with
      | none => simp
      | some keyname =>
        simp only
        split
        · simp
        · split <;> simp
  · rw [parsePath_object b k hb]
    constructor
    · intro heq ch hch
      simp only [Go.ret.injEq, Prod.mk.injEq, Option.some.injEq] at heq
      rcases List.mem_append.1 hch with h | h
      · exact (escapeString_eq_self_iff b).1 (congrArg String.data heq.1) ch h
      · exact (escapeString_eq_self_iff k).1 (congrArg String.data heq.2) ch h
    · intro hplain
      rw [escapeString_plain b (fun ch hch => hplain ch (List.mem_append_left _ hch)),
        escapeString_plain k (fun ch hch => hplain ch (List.mem_append_right _ hch))]
  · unfold servhdlr
    simp only [if_true, parsePath_bucket b hb]

/-- C29, witness: the path /bucket/dir/key has the bucket "bucket" and the key
"dir/key". -/
theorem servhdlr_path_parsing_witness :
    parsePath "/bucket/dir/key".data = .ret ("bucket", some "dir/key") ∧
    servhdlr servEnvCached "GET" "/bucket/dir/key" =
      .ret [.copyFile "/mnt/bucket/dir/key"] ∧
    servhdlr servEnvCached "GET" "/bucket" = .ret [.listbucket "bucket"] :=
  ⟨(servhdlr_path_parsing servEnvCached "bucket".data "dir/key".data [] (by decide)).2.2.2.1.2
      (by decide),
   by decide, by decide⟩

/-- C29, counterexample: for the path /a&b/k<1> the bucket name that servhdlr uses
is "a&amp;b", not the text "a&b" between the first and the second slash, and
the key name is "k&lt;1&gt;", not "k<1>". -/
theorem bucket_and_key_are_escaped :
    parsePath "/a&b/k<1>".data = .ret ("a&amp;b", some "k&lt;1&gt;") ∧
    servhdlr servEnvCached "GET" "/a&b/k<1>" = .ret [.copyFile "/mnt/a&amp;b/k&lt;1&gt;"] ∧
    ("a&amp;b" : String) ≠ "a&b" ∧ ("k&lt;1&gt;" : String) ≠ "k<1>" := by
  decide


/-! ## C30: the backoff of doHTTPRequestGetResp -/

/-- A value within the range of int64 is not changed by the wrap-around. -/
theorem wrap64_id (x : Int) (h1 : -(2 ^ 63) ≤ x) (h2 : x < 2 ^ 63) : wrap64 x = x := by
  unfold wrap64
  rw [Int.emod_eq_of_lt (by omega) (by omega)]
  omega

/-- A relation between every element and the next one holds between the elements
at two successive positions. -/
theorem Consecutive_get {R : Int → Int → Prop} (l : List Int) (h : Consecutive R l) :
    ∀ k a b, l[k]? = some a → l[k + 1]? = some b → R a b := by
  induction l with
  | nil => intro k a b ha; simp at ha
  | cons x xs ih =>
    cases xs with
    | nil =>
      intro k a b _ hb
      simp at hb
    | cons y ys =>
      obtain ⟨hxy, hrest⟩ := h
      intro k a b ha hb
      cases k with
      | zero =>
        simp at ha hb
        rw [← ha, ← hb]; exact hxy
      | succ k2 =>
        rw [List.getElem?_cons_succ] at ha hb
        exact ih hrest k2 a b ha hb

/-- The sleeps of the retry loop, entered with a sleep that is at least `lo`, not
negative, and small enough for the iterations that remain: the first sleep is
the one the loop was entered with, each next sleep is the sleep before plus
half of it (rounded down), and no sleep is below `lo`. -/
theorem retryLoop_sleeps (t : Nat → Except TransportErr HTTPResp) (lo : Int) (hlo : 0 ≤ lo)
    (left : Nat) :
    ∀ (made : Nat) (sleep : Int) (err : TransportErr), lo ≤ sleep → sleep * 2 ^ left < 2 ^ 63 →
    ((retryLoop t left made sleep err).sleeps.head? = none ∨
      (retryLoop t left made sleep err).sleeps.head? = some sleep) ∧
    Consecutive (fun a b => b = a + a / 2 ∧ 3 * a - 1 ≤ 2 * b ∧ a ≤ b ∧ (2 ≤ lo → a < b))
      (retryLoop t left made sleep err).sleeps ∧
    (∀ x ∈ (retryLoop t left made sleep err).sleeps, lo ≤ x) := by
  induction left with
  | zero =>
    intro made sleep err _ _
    simp [retryLoop_zero, Consecutive]
  | succ n ih =>
    intro made sleep err hle hfit
    cases h : t made with
    | ok resp =>
      rw [retryLoop_ok n sleep err h]
      exact ⟨Or.inr rfl, trivial, by simpa using hle⟩
    | error e =>
      rw [retryLoop_err n sleep err h]
      have hs0 : 0 ≤ sleep := le_trans hlo hle
      have hpow : (1 : Int) ≤ 2 ^ n := one_le_pow₀ (by norm_num)
      have hfit2 : sleep * 2 * 2 ^ n < 2 ^ 63 := by
        have : sleep * 2 ^ (n + 1) = sleep * 2 * 2 ^ n := by ring
        rw [← this]; exact hfit
      have h2s : sleep * 2 ≤ sleep * 2 * 2 ^ n := by
        have := mul_le_mul_of_nonneg_left hpow (by omega : (0 : Int) ≤ sleep * 2)
        simpa using this
      have htd : Int.tdiv sleep 2 = sleep / 2 := Int.tdiv_eq_ediv hs0 (by norm_num)
      have hnext : wrap64 (sleep + Int.tdiv sleep 2) = sleep + sleep / 2 := by
        rw [htd]
        exact wrap64_id _ (by omega) (by omega)
      rw [hnext]
      have hle2 : lo ≤ sleep + sleep / 2 := by omega
      have hfit3 : (sleep + sleep / 2) * 2 ^ n < 2 ^ 63 := by
        have hmul : (sleep + sleep / 2) * 2 ^ n ≤ sleep * 2 * 2 ^ n :=
          mul_le_mul_of_nonneg_right (by omega) (by positivity)
        omega
      obtain ⟨hhead, hcons, hall⟩ := ih (made + 1) (sleep + sleep / 2) e hle2 hfit3
      refine ⟨Or.inr rfl, ?_, ?_⟩
      · cases hl : (retryLoop t n (made + 1) (sleep + sleep / 2) e).sleeps with
        | nil => trivial
        | cons y ys =>
          rw [hl] at hhead hcons
          have hy : y = sleep + sleep / 2 := by
            rcases hhead with hh | hh
            · simp at hh
            · simpa using hh
          refine ⟨⟨hy, ?_, ?_, ?_⟩, hcons⟩
          · omega
          · omega
          · intro h2; omega
      · intro x hx
        simp only [List.mem_cons] at hx
        rcases hx with hx | hx
        · rw [hx]; exact hle
        · exact hall x hx

/-- C30: under constants of package api whose sleep is not negative and stays
within a time.Duration, each retry of doHTTPRequestGetResp is preceded by one
sleep; the first sleep is httpRetrySleep and each next sleep is the sleep before
plus half of it, rounded down, in whole nanoseconds; hence twice a sleep is at
least three times the sleep before minus 1, the sleeps never decrease, and they
strictly increase when httpRetrySleep is at least 2. -/
theorem backoff_is_exponential (c : ApiConsts) (env : ApiEnv) (method : String)
    (t : Nat → Except TransportErr HTTPResp) (hsane : c.Sane) :
    (doHTTPRequestGetResp c env method none t).sleeps.length + 1 =
      (doHTTPRequestGetResp c env method none t).attempts.length ∧
    (∀ a, (doHTTPRequestGetResp c env method none t).sleeps[0]? = some a →
      a = c.httpRetrySleep) ∧
    (∀ k a b, (doHTTPRequestGetResp c env method none t).sleeps[k]? = some a →
      (doHTTPRequestGetResp c env method none t).sleeps[k + 1]? = some b →
      b = a + a / 2 ∧ 3 * a - 1 ≤ 2 * b ∧ a ≤ b ∧ (2 ≤ c.httpRetrySleep → a < b)) := by
  obtain ⟨h0, hfit⟩ := hsane
  have hatt : (doHTTPRequestGetResp c env method none t).attempts =
      (doWithRetries c t).attempts := by
    unfold doHTTPRequestGetResp
    simp only
    split <;> rfl
  have hsl : (doHTTPRequestGetResp c env method none t).sleeps = (doWithRetries c t).sleeps := by
    unfold doHTTPRequestGetResp
    simp only
    split <;> rfl
  rw [hatt, hsl]
  refine ⟨(doWithRetries_spec c t).2.2.1, ?_, ?_⟩
  · intro a ha
    unfold doWithRetries at ha
    cases h : t 0 with
    | ok resp => simp [h] at ha
    | error err =>
      simp only [h] at ha
      split_ifs at ha with hr
      · obtain ⟨hhead, -, -⟩ := retryLoop_sleeps t c.httpRetrySleep h0 c.httpMaxRetries 1
          c.httpRetrySleep err (le_refl _) hfit
        simp only at ha
        rcases hhead with hh | hh
        · rw [List.head?_eq_getElem?] at hh
          rw [hh] at ha; cases ha
        · rw [List.head?_eq_getElem?] at hh
          rw [hh] at ha
          exact (Option.some.inj ha).symm
      · simp at ha
  · have hcons : Consecutive
        (fun a b => b = a + a / 2 ∧ 3 * a - 1 ≤ 2 * b ∧ a ≤ b ∧ (2 ≤ c.httpRetrySleep → a < b))
        (doWithRetries c t).sleeps := by
      unfold doWithRetries
      cases h : t 0 with
      | ok resp => simp [Consecutive]
      | error err =>
        simp only
        split_ifs with hr
        · exact (retryLoop_sleeps t c.httpRetrySleep h0 c.httpMaxRetries 1
            c.httpRetrySleep err (le_refl _) hfit).2.1
        · simp [Consecutive]
    exact Consecutive_get _ hcons

/-- C30, witness: with httpRetrySleep = 100 ms and five retries that all fail, the
sleeps are 100, 150, 225, 337.5 and 506.25 ms. -/
theorem backoff_is_exponential_witness :
    consts5.Sane ∧
    (doHTTPRequestGetResp consts5 apiEnvJSON "GET" none transportRefused).sleeps =
      [100000000, 150000000, 225000000, 337500000, 506250000] ∧
    (∀ k a b,
      (doHTTPRequestGetResp consts5 apiEnvJSON "GET" none transportRefused).sleeps[k]? = some a →
      (doHTTPRequestGetResp consts5 apiEnvJSON "GET" none transportRefused).sleeps[k + 1]? =
        some b →
      b = a + a / 2 ∧ 3 * a - 1 ≤ 2 * b ∧ a ≤ b ∧ (2 ≤ consts5.httpRetrySleep → a < b)) :=
  ⟨⟨by decide, by decide⟩, by decide,
   (backoff_is_exponential consts5 apiEnvJSON "GET" transportRefused
      ⟨by decide, by decide⟩).2.2⟩


end Aistore
